import Mathlib

/-! # S.H.A.M. reliable transport over UDP: embedding and verified properties

The definitions below follow `sham.h`, `sham_utils.c`, `server.c` and `client.c`.

Conventions of the embedding.

* `uint32_t` values are natural numbers reduced modulo `2^32` at every
  arithmetic step of the source (`u32`).
* `int`/`long` counters that the source only ever increments from zero
  (`window_start`, `window_end`, `file_pos`) are natural numbers; guards on
  them are written so that they agree with the C comparison on all naturals.
* A call of `recvfrom` is represented by what it leaves behind: the return
  value and the contents of the `struct sham_packet` buffer after the call.
* The environment (clock, `rand`, result of `sendto`, what `select` reports)
  is an explicit input.
* `log_event` only writes to the log file and is left out.
* A file transfer is studied on a channel without loss: `transfer` runs
  `send_file` against `receive_file`, every datagram being delivered once,
  in order, before the next turn of the opener; `transfer_run` allows any
  delay between sending and delivery.
* `four_way_handshake_close` and the loop body of `chat_mode` have the same
  text in `client.c` and `server.c`; they are embedded once, with the file
  (`Side`) selecting the static that `chat_mode` uses as its cursor.
-/

namespace Sham

/-! ## Constants and types of `sham.h` -/

/-- Flag bit `SYN_FLAG` (0x1). -/
def SYN_FLAG : Nat := 1

/-- Flag bit `ACK_FLAG` (0x2). -/
def ACK_FLAG : Nat := 2

/-- Flag bit `FIN_FLAG` (0x4). -/
def FIN_FLAG : Nat := 4

/-- Largest payload of a packet, `MAX_DATA_SIZE`. -/
def MAX_DATA_SIZE : Nat := 1024

/-- Number of slots of the sender window, `WINDOW_SIZE`. -/
def WINDOW_SIZE : Nat := 10

/-- Retransmission timeout in milliseconds, `RTO_MS`. -/
def RTO_MS : Int := 500

/-- Advertised window, `BUFFER_SIZE`. -/
def BUFFER_SIZE : Nat := 8192

/-- The value of `sizeof(struct sham_header)`: two `uint32_t` and two `uint16_t`. -/
def HEADER_SIZE : Nat := 12

/-- Reduction of an integer to `uint32_t`. -/
def u32 (x : Int) : Nat := (x % 4294967296).toNat

/-- Conversion of an `int` to `size_t` (64 bits), as in the third argument of `fwrite`. -/
def size_t (x : Int) : Nat := (x % 18446744073709551616).toNat

/-- The header `struct sham_header`. -/
structure sham_header where
  seq_num : Nat
  ack_num : Nat
  flags : Nat
  window_size : Nat
deriving DecidableEq, Repr

/-- The connection states `connection_state_t`. -/
inductive connection_state_t where
  | CLOSED
  | SYN_SENT
  | SYN_RCVD
  | ESTABLISHED
  | FIN_WAIT_1
  | FIN_WAIT_2
  | CLOSE_WAIT
  | LAST_ACK
  | TIME_WAIT
deriving DecidableEq, Repr

/-- The C type `struct timeval`. -/
structure timeval where
  tv_sec : Int
  tv_usec : Int
deriving DecidableEq, Repr

/-- The window record `struct packet_info`. The fields `data_len` and `file_offset`
only ever hold a positive `fread` count and a file position. -/
structure packet_info where
  seq_num : Nat
  data_len : Nat
  file_offset : Nat
  sent_time : timeval
  retransmitted : Nat
deriving DecidableEq, Repr

/-- A datagram as `send_packet` puts it on the wire: the header followed by
the first `data_len` bytes of `packet.data`. -/
structure Datagram where
  header : sham_header
  payload : List Nat
deriving DecidableEq, Repr

/-- What one `recvfrom` on a `struct sham_packet` buffer leaves behind: the
return value (negative on error) and the header and data array of the buffer
after the call. For a datagram shorter than the header, the fields it does not
reach keep what the buffer held before. -/
structure Received where
  bytes_recv : Int
  header : sham_header
  data : List Nat
deriving DecidableEq, Repr

/-- The result of `recvfrom` for a datagram that arrives whole. -/
def Datagram.received (d : Datagram) : Received :=
  { bytes_recv := (HEADER_SIZE + d.payload.length : Nat), header := d.header, data := d.payload }

/-! ## `sham_utils.c` -/

/-- The function `generate_initial_seq`, on the value `r` that `rand()` returns. -/
def generate_initial_seq (r : Nat) : Nat := r % 1000000 + 1000

/-- The function `simulate_packet_loss`; `random_val` is the value of
`(float)rand() / RAND_MAX` that the call draws. -/
def simulate_packet_loss (loss_rate random_val : ℚ) : Bool :=
  if loss_rate ≤ 0 then false else decide (random_val < loss_rate)

/-- The function `is_packet_lost`. -/
def is_packet_lost (loss_rate random_val : ℚ) : Bool :=
  if loss_rate ≤ 0 then false else simulate_packet_loss loss_rate random_val

/-! ## `server.c`: `receive_file` -/

/-- One datagram reaching the loop of `receive_file`: the result of its
`recvfrom` and the value drawn by the loss hook should it be consulted. -/
structure Arrival where
  rx : Received
  random_val : ℚ
deriving DecidableEq

/-- State of `receive_file`. `sink` holds the bytes handed to `fwrite` on the
output file, `sent` the frames handed to `send_packet` (all without payload),
`overrun` records a `fwrite` whose count exceeds the size of `packet.data`,
`fin_wait` that the peer FIN was answered and the function waits in the last
`recvfrom`, and `ret` the return value once the function has returned. -/
structure Receiver where
  expected_seq : Nat
  sink : List Nat
  sent : List sham_header
  overrun : Bool
  fin_wait : Bool
  ret : Option Int
deriving DecidableEq, Repr

/-- State of `receive_file` when it enters its loop: `expected_seq = client_seq + 1`. -/
def receive_init (client_seq : Nat) : Receiver :=
  { expected_seq := u32 (client_seq + 1), sink := [], sent := [], overrun := false,
    fin_wait := false, ret := none }

/-- The cumulative ACK built at the end of the loop body. -/
def data_ack (server_seq expected_seq : Nat) : sham_header :=
  { seq_num := server_seq, ack_num := expected_seq, flags := ACK_FLAG, window_size := BUFFER_SIZE }

/-- Loop body of `receive_file` below the FIN test and the loss hook
(`server.c` lines 133-148). `data_len` is `bytes_recv - sizeof(struct sham_header)`
as an `int`; `fwrite` takes it as a `size_t` and `expected_seq += data_len`
is carried out in `uint32_t`. -/
def receive_data (server_seq : Nat) (s : Receiver) (p : Received) : Receiver :=
  let data_len : Int := p.bytes_recv - HEADER_SIZE
  let s1 : Receiver :=
    if p.header.seq_num = s.expected_seq then
      { s with
        sink := s.sink ++ p.data.take (size_t data_len)
        overrun := s.overrun || decide (MAX_DATA_SIZE < size_t data_len)
        expected_seq := u32 (s.expected_seq + data_len) }
    else s
  { s1 with sent := s1.sent ++ [data_ack server_seq s1.expected_seq] }

/-- The FIN branch of `receive_file` (lines 99-125) up to its last `recvfrom`:
an ACK of the peer FIN, then the own FIN sent from the same `ack_packet`. -/
def receive_fin (server_seq : Nat) (s : Receiver) (p : Received) : Receiver :=
  let ack : sham_header :=
    { seq_num := server_seq, ack_num := u32 (p.header.seq_num + 1), flags := ACK_FLAG,
      window_size := BUFFER_SIZE }
  { s with sent := s.sent ++ [ack, { ack with flags := FIN_FLAG }], fin_wait := true }

/-- One `recvfrom` of `receive_file` and what follows it. -/
def receive_step (server_seq : Nat) (loss_rate : ℚ) (s : Receiver) (a : Arrival) : Receiver :=
  if s.ret.isSome then s
  else if s.fin_wait then { s with ret := some 0 }
  else if a.rx.bytes_recv < 0 then { s with ret := some 0 }
  else if a.rx.header.flags &&& FIN_FLAG ≠ 0 then receive_fin server_seq s a.rx
  else if is_packet_lost loss_rate a.random_val then s
  else receive_data server_seq s a.rx

/-- The loop of `receive_file` run on the datagrams that arrive, in order. -/
def receive_loop (server_seq : Nat) (loss_rate : ℚ) : Receiver → List Arrival → Receiver
  | s, [] => s
  | s, a :: rest => receive_loop server_seq loss_rate (receive_step server_seq loss_rate s a) rest

/-- The function `receive_file`; `fopen_ok` tells whether the output file could
be created, `client_seq` and `server_seq` are the statics of `server.c`. -/
def receive_file (fopen_ok : Bool) (client_seq server_seq : Nat) (loss_rate : ℚ)
    (arrivals : List Arrival) : Receiver :=
  if fopen_ok then receive_loop server_seq loss_rate (receive_init client_seq) arrivals
  else { receive_init client_seq with ret := some (-1) }

/-- The hypothesis of an uncorrupted data datagram for the file `F` sent with
initial sequence number `C0`: it reaches the header, does not exceed the
receive buffer, has no FIN flag, and its payload is the slice of `F` that
starts at offset `seq_num - (C0 + 1)`. -/
def carries (F : List Nat) (C0 : Nat) (a : Arrival) : Prop :=
  (HEADER_SIZE : Int) ≤ a.rx.bytes_recv ∧
  a.rx.bytes_recv ≤ (HEADER_SIZE + MAX_DATA_SIZE : Nat) ∧
  a.rx.header.flags &&& FIN_FLAG = 0 ∧
  C0 + 1 ≤ a.rx.header.seq_num ∧
  a.rx.header.seq_num - (C0 + 1) + (a.rx.bytes_recv - HEADER_SIZE).toNat ≤ F.length ∧
  a.rx.data.take (a.rx.bytes_recv - HEADER_SIZE).toNat
    = (F.drop (a.rx.header.seq_num - (C0 + 1))).take (a.rx.bytes_recv - HEADER_SIZE).toNat

instance (F : List Nat) (C0 : Nat) (a : Arrival) : Decidable (carries F C0 a) := by
  unfold carries
  infer_instance

/-! ## Handshakes: `three_way_handshake_client` and `three_way_handshake_server` -/

/-- The statics `state`, `client_seq`, `server_seq` of `client.c`. -/
structure ClientStatics where
  state : connection_state_t
  client_seq : Nat
  server_seq : Nat
deriving DecidableEq, Repr

/-- The statics of `client.c` as initialised. -/
def client_statics_init : ClientStatics :=
  { state := connection_state_t.CLOSED, client_seq := 0, server_seq := 0 }

/-- The statics `state`, `server_seq`, `client_seq` of `server.c`. -/
structure ServerStatics where
  state : connection_state_t
  server_seq : Nat
  client_seq : Nat
deriving DecidableEq, Repr

/-- The statics of `server.c` as initialised. -/
def server_statics_init : ServerStatics :=
  { state := connection_state_t.CLOSED, server_seq := 0, client_seq := 0 }

/-- Outcome of a handshake function: the return value, the statics it leaves,
the frames handed to `send_packet` in order, and the value stored through
`initial_seq` if the store is reached. -/
structure Handshake (σ : Type) where
  ret : Int
  statics : σ
  sent : List sham_header
  initial_seq : Option Nat
deriving DecidableEq, Repr

/-- The function `three_way_handshake_client`. Inputs from the environment:
`r` is what `rand()` returns, `syn_ok` and `ack_ok` tell whether the two
`send_packet` calls succeed, `sel` is the return value of `select`, and `rx`
is the result of `recvfrom`. -/
def three_way_handshake_client (g : ClientStatics) (r : Nat) (syn_ok : Bool) (sel : Int)
    (rx : Received) (ack_ok : Bool) : Handshake ClientStatics :=
  let g1 : ClientStatics := { g with client_seq := generate_initial_seq r }
  let syn : sham_header :=
    { seq_num := g1.client_seq, ack_num := 0, flags := SYN_FLAG, window_size := BUFFER_SIZE }
  if !syn_ok then { ret := -1, statics := g1, sent := [syn], initial_seq := none }
  else
    let g2 : ClientStatics := { g1 with state := connection_state_t.SYN_SENT }
    if sel ≤ 0 then { ret := -1, statics := g2, sent := [syn], initial_seq := none }
    else if rx.bytes_recv < 0 then
      { ret := -1, statics := g2, sent := [syn], initial_seq := none }
    else if rx.header.flags &&& (SYN_FLAG ||| ACK_FLAG) = 0 then
      { ret := -1, statics := g2, sent := [syn], initial_seq := none }
    else
      let g3 : ClientStatics := { g2 with server_seq := rx.header.seq_num }
      if rx.header.ack_num ≠ u32 (g3.client_seq + 1) then
        { ret := -1, statics := g3, sent := [syn], initial_seq := none }
      else
        let ack : sham_header :=
          { seq_num := g3.client_seq, ack_num := u32 (g3.server_seq + 1), flags := ACK_FLAG,
            window_size := BUFFER_SIZE }
        if !ack_ok then { ret := -1, statics := g3, sent := [syn, ack], initial_seq := none }
        else
          let g4 : ClientStatics :=
            { g3 with state := connection_state_t.ESTABLISHED,
                      client_seq := u32 (g3.client_seq + 1) }
          { ret := 0, statics := g4, sent := [syn, ack], initial_seq := some g4.client_seq }

/-- The function `three_way_handshake_server`. Inputs from the environment:
`rx1` and `rx2` are the results of the two `recvfrom` calls, `r` is what
`rand()` returns, `synack_ok` tells whether `send_packet` succeeds. -/
def three_way_handshake_server (g : ServerStatics) (rx1 : Received) (r : Nat)
    (synack_ok : Bool) (rx2 : Received) : Handshake ServerStatics :=
  if rx1.bytes_recv < 0 then { ret := -1, statics := g, sent := [], initial_seq := none }
  else if rx1.header.flags &&& SYN_FLAG = 0 then
    { ret := -1, statics := g, sent := [], initial_seq := none }
  else
    let g1 : ServerStatics :=
      { g with client_seq := rx1.header.seq_num, server_seq := generate_initial_seq r }
    let synack : sham_header :=
      { seq_num := g1.server_seq, ack_num := u32 (g1.client_seq + 1),
        flags := SYN_FLAG ||| ACK_FLAG, window_size := BUFFER_SIZE }
    if !synack_ok then { ret := -1, statics := g1, sent := [synack], initial_seq := none }
    else
      let g2 : ServerStatics := { g1 with state := connection_state_t.SYN_RCVD }
      if rx2.bytes_recv < 0 then
        { ret := -1, statics := g2, sent := [synack], initial_seq := none }
      else if rx2.header.flags &&& ACK_FLAG = 0 ∨ rx2.header.ack_num ≠ u32 (g2.server_seq + 1) then
        { ret := -1, statics := g2, sent := [synack], initial_seq := none }
      else
        { ret := 0, statics := { g2 with state := connection_state_t.ESTABLISHED },
          sent := [synack], initial_seq := some g2.server_seq }

/-- A frame without payload as `recvfrom` returns it. -/
def control_frame (h : sham_header) : Received :=
  Datagram.received { header := h, payload := [] }

/-- A data datagram of the opener as the receive loop sees it. -/
def data_arrival (seq_num : Nat) (payload : List Nat) : Arrival :=
  { rx := Datagram.received
      { header := { seq_num := seq_num, ack_num := 0, flags := 0, window_size := BUFFER_SIZE },
        payload := payload },
    random_val := 0 }

/-- A datagram of ten bytes: `seq_num`, `ack_num` and `flags` arrive, the
`window_size` field and the data array keep what the buffer held (`stale`). -/
def ten_byte_arrival (seq_num : Nat) (stale : List Nat) : Arrival :=
  { rx := { bytes_recv := 10,
            header := { seq_num := seq_num, ack_num := 0, flags := 0, window_size := BUFFER_SIZE },
            data := stale },
    random_val := 0 }

/-! ## `client.c`: `send_file` -/

/-- The environment of `send_file`: `clock n` is what the call number `n` of
`gettimeofday` returns, `sendto_ok n` tells whether the call number `n` of
`send_packet` succeeds. -/
structure Env where
  clock : Nat → timeval
  sendto_ok : Nat → Bool

/-- Where `send_file` stands: in its `while (1)` loop, in the first `recvfrom`
after its FIN, in the second one, or returned. -/
inductive Stage where
  | transfer
  | await_ack
  | await_fin
  | returned
deriving DecidableEq, Repr

/-- State of `send_file`: the static `client_seq`, the header of the local
`packet` (one buffer for sending and receiving), the array `window`, the
locals `window_start`, `window_end`, `file_pos`, `bytes_read`, the datagrams
handed to `send_packet` so far, and the number of `gettimeofday` calls. -/
structure Sender where
  client_seq : Nat
  packet : sham_header
  window : List packet_info
  window_start : Nat
  window_end : Nat
  file_pos : Nat
  bytes_read : Int
  sent : List Datagram
  ticks : Nat
  stage : Stage
  ret : Option Int
deriving DecidableEq, Repr

/-- Contents of a window slot before its first use. -/
def packet_info_zero : packet_info :=
  { seq_num := 0, data_len := 0, file_offset := 0, sent_time := { tv_sec := 0, tv_usec := 0 },
    retransmitted := 0 }

/-- State of `send_file` on entry to its loop (lines 113-121). -/
def send_init (client_seq : Nat) : Sender :=
  { client_seq := client_seq,
    packet := { seq_num := 0, ack_num := 0, flags := 0, window_size := BUFFER_SIZE },
    window := List.replicate WINDOW_SIZE packet_info_zero,
    window_start := 0, window_end := 0, file_pos := 0, bytes_read := 0, sent := [],
    ticks := 0, stage := Stage.transfer, ret := none }

/-- The in-flight record at index `i`: `window[i % WINDOW_SIZE]`. -/
def Sender.slot (s : Sender) (i : Nat) : packet_info :=
  s.window.getD (i % WINDOW_SIZE) packet_info_zero

/-- One pass through the body of the fill loop (lines 128-158), entered with
the guard true; the second component tells whether the loop goes on. The file
`F` is read at `file_pos` (`fseek` then `fread` of up to 1024 bytes). -/
def fill_body (env : Env) (F : List Nat) (s : Sender) : Sender × Bool :=
  let buffer := (F.drop s.file_pos).take MAX_DATA_SIZE
  let s0 : Sender := { s with bytes_read := (buffer.length : Int) }
  if s0.bytes_read ≤ 0 then (s0, false)
  else
    let hdr : sham_header := { s0.packet with seq_num := s0.client_seq, ack_num := 0 }
    let s1 : Sender :=
      { s0 with packet := hdr, sent := s0.sent ++ [{ header := hdr, payload := buffer }] }
    if !env.sendto_ok s0.sent.length then
      ({ s1 with stage := Stage.returned, ret := some (-1) }, false)
    else
      let info : packet_info :=
        { seq_num := hdr.seq_num, data_len := buffer.length, file_offset := s1.file_pos,
          sent_time := env.clock s1.ticks, retransmitted := 0 }
      ({ s1 with
          window := s1.window.set (s1.window_end % WINDOW_SIZE) info
          ticks := s1.ticks + 1
          client_seq := u32 (s1.client_seq + s1.bytes_read)
          file_pos := s1.file_pos + buffer.length
          window_end := s1.window_end + 1 }, true)

/-- The fill loop `while (window_end - window_start < WINDOW_SIZE)`; the first
argument is the number of free slots `window_start + WINDOW_SIZE - window_end`,
which is positive exactly when the guard holds and drops by one per pass. -/
def fill_loop (env : Env) (F : List Nat) : Nat → Sender → Sender
  | 0, s => s
  | n + 1, s =>
    let r := fill_body env F s
    if r.2 then fill_loop env F n r.1 else r.1

/-- The fill loop from the current state. -/
def fill_window (env : Env) (F : List Nat) (s : Sender) : Sender :=
  fill_loop env F (s.window_start + WINDOW_SIZE - s.window_end) s

/-- One pass through the body of the ACK loop (lines 183-189), entered with
`window_start < window_end`; the sum `seq_num + data_len` is a `uint32_t`. -/
def ack_body (ack_num : Nat) (s : Sender) : Sender × Bool :=
  if u32 ((s.slot s.window_start).seq_num + (s.slot s.window_start).data_len) ≤ ack_num then
    ({ s with window_start := s.window_start + 1 }, true)
  else (s, false)

/-- The ACK loop `while (window_start < window_end)`; the first argument is
`window_end - window_start`. -/
def ack_loop (ack_num : Nat) : Nat → Sender → Sender
  | 0, s => s
  | n + 1, s =>
    let r := ack_body ack_num s
    if r.2 then ack_loop ack_num n r.1 else r.1

/-- Processing of an ACK with number `ack_num` (lines 179-190). -/
def process_ack (ack_num : Nat) (s : Sender) : Sender :=
  ack_loop ack_num (s.window_end - s.window_start) s

/-- The branch `sel > 0`: `recvfrom` into `packet`, then the ACK loop if a
frame with the ACK flag arrived (lines 172-191). -/
def on_readable (rx : Received) (s : Sender) : Sender :=
  let s1 : Sender := if 0 < rx.bytes_recv then { s with packet := rx.header } else s
  if 0 < rx.bytes_recv ∧ s1.packet.flags &&& ACK_FLAG ≠ 0 then process_ack s1.packet.ack_num s1
  else s1

/-- The value `elapsed_ms` of lines 202-203; the division of C truncates. -/
def elapsed_ms (now sent_time : timeval) : Int :=
  (now.tv_sec - sent_time.tv_sec) * 1000 + Int.tdiv (now.tv_usec - sent_time.tv_usec) 1000

/-- One pass through the body of the retransmission loop for index `i`
(lines 201-221). -/
def retransmit_one (env : Env) (F : List Nat) (now : timeval) (s : Sender) (i : Nat) : Sender :=
  let e := s.slot i
  if elapsed_ms now e.sent_time > RTO_MS then
    let hdr : sham_header := { s.packet with seq_num := e.seq_num, ack_num := 0 }
    let buffer := (F.drop e.file_offset).take e.data_len
    { s with
      packet := hdr
      sent := s.sent ++ [{ header := hdr, payload := buffer }]
      window := s.window.set (i % WINDOW_SIZE)
        { e with sent_time := env.clock s.ticks, retransmitted := 1 }
      ticks := s.ticks + 1 }
  else s

/-- The loop `for (i = window_start; i < window_end; i++)`; the first argument
is the number of passes left, the second the index `i`. -/
def retransmit_loop (env : Env) (F : List Nat) (now : timeval) : Nat → Nat → Sender → Sender
  | 0, _, s => s
  | n + 1, i, s => retransmit_loop env F now n (i + 1) (retransmit_one env F now s i)

/-- The branch `sel == 0` (lines 196-222). -/
def on_timeout (env : Env) (F : List Nat) (s : Sender) : Sender :=
  retransmit_loop env F (env.clock s.ticks) (s.window_end - s.window_start) s.window_start
    { s with ticks := s.ticks + 1 }

/-- What the wait of one loop pass yields: the socket is readable and
`recvfrom` returns `rx`, or `select` returns 0, or it fails. -/
inductive Select where
  | readable (rx : Received)
  | timeout
  | failed
deriving DecidableEq, Repr

/-- Lines 229-237: the FIN is built in `packet` and sent. -/
def send_fin (s : Sender) : Sender :=
  let hdr : sham_header :=
    { seq_num := s.client_seq, ack_num := 0, flags := FIN_FLAG, window_size := BUFFER_SIZE }
  { s with packet := hdr, sent := s.sent ++ [{ header := hdr, payload := [] }],
           stage := Stage.await_ack }

/-- Lines 249-263: the second `recvfrom` after the FIN and the reply to a peer
FIN. `seq_num` is overwritten before `ack_num` is computed from it. -/
def send_last (rx : Received) (s : Sender) : Sender :=
  let s1 : Sender := if 0 < rx.bytes_recv then { s with packet := rx.header } else s
  if 0 < rx.bytes_recv ∧ s1.packet.flags &&& FIN_FLAG ≠ 0 then
    let hdr : sham_header :=
      { seq_num := s1.client_seq, ack_num := u32 (s1.client_seq + 1), flags := ACK_FLAG,
        window_size := BUFFER_SIZE }
    { s1 with packet := hdr, sent := s1.sent ++ [{ header := hdr, payload := [] }],
              stage := Stage.returned, ret := some 0 }
  else { s1 with stage := Stage.returned, ret := some 0 }

/-- The result of a `recvfrom` that is not preceded by `select`: a failure of
the wait stands for a return value of -1, which leaves the buffer as it was. -/
def Select.received (ev : Select) (s : Sender) : Received :=
  match ev with
  | Select.readable rx => rx
  | _ => { bytes_recv := -1, header := s.packet, data := [] }

/-- One step of `send_file` from one wait to the next. In the loop: the
branch chosen by `select`, the exit test of line 225, then either the FIN or
the fill loop of the next pass. After the FIN: one `recvfrom` each. -/
def send_step (env : Env) (F : List Nat) (ev : Select) (s : Sender) : Sender :=
  match s.stage with
  | Stage.transfer =>
    let s1 : Sender :=
      match ev with
      | Select.readable rx => on_readable rx s
      | Select.timeout => on_timeout env F s
      | Select.failed => s
    if s1.window_start = s1.window_end ∧ s1.bytes_read ≤ 0 then send_fin s1
    else fill_window env F s1
  | Stage.await_ack =>
    let rx := ev.received s
    { (if 0 < rx.bytes_recv then { s with packet := rx.header } else s) with
      stage := Stage.await_fin }
  | Stage.await_fin => send_last (ev.received s) s
  | Stage.returned => s

/-- The function `send_file` up to its first wait: the file is opened and must
not be empty, then the fill loop of the first pass runs. -/
def send_start (env : Env) (F : List Nat) (client_seq : Nat) (fopen_ok : Bool) : Sender :=
  if !fopen_ok ∨ F.length = 0 then
    { send_init client_seq with stage := Stage.returned, ret := some (-1) }
  else fill_window env F (send_init client_seq)

/-- The function `send_file` run on the outcomes of its successive waits. -/
def send_file (env : Env) (F : List Nat) (client_seq : Nat) (fopen_ok : Bool)
    (events : List Select) : Sender :=
  events.foldl (fun s ev => send_step env F ev s) (send_start env F client_seq fopen_ok)

/-- The steps of `send_file` that touch the window, one loop pass at a time
(`fill_one`, `ack_one`, `retransmit`) and as the whole loops and branches. -/
inductive SendOp where
  | fill_one
  | ack_one (ack_num : Nat)
  | retransmit (now : timeval) (i : Nat)
  | fill
  | ack (ack_num : Nat)
  | readable (rx : Received)
  | timeout
  | step (ev : Select)
deriving DecidableEq, Repr

/-- Effect of a step; a single loop pass runs only if the loop guard holds. -/
def SendOp.apply (env : Env) (F : List Nat) (s : Sender) : SendOp → Sender
  | SendOp.fill_one =>
    if s.window_end < s.window_start + WINDOW_SIZE then (fill_body env F s).1 else s
  | SendOp.ack_one a => if s.window_start < s.window_end then (ack_body a s).1 else s
  | SendOp.retransmit now i => retransmit_one env F now s i
  | SendOp.fill => fill_window env F s
  | SendOp.ack a => process_ack a s
  | SendOp.readable rx => on_readable rx s
  | SendOp.timeout => on_timeout env F s
  | SendOp.step ev => send_step env F ev s

/-- The state after a sequence of steps from the loop entry. -/
def send_run (env : Env) (F : List Nat) (client_seq : Nat) (ops : List SendOp) : Sender :=
  ops.foldl (SendOp.apply env F) (send_init client_seq)

/-- An environment in which every `send_packet` succeeds and the clock stands still. -/
def calm : Env :=
  { clock := fun _ => { tv_sec := 0, tv_usec := 0 }, sendto_ok := fun _ => true }

/-! ## A transfer without loss: `send_file` against `receive_file` -/

/-- A datagram of the opener reaching the listener whole. -/
def arrive (d : Datagram) : Arrival := { rx := d.received, random_val := 0 }

/-- The two endpoints of a file transfer over a channel that delivers every
datagram once and in order: the frames of `snd.sent` before position
`delivered` have reached the listener, the frames of `rcv.sent` before
position `taken` have been read by the opener. -/
structure Transfer where
  snd : Sender
  rcv : Receiver
  delivered : Nat
  taken : Nat
deriving DecidableEq

/-- The listener (loss rate 0) receives every datagram the opener has sent so far. -/
def deliver_all (server_seq : Nat) (t : Transfer) : Transfer :=
  { t with
    rcv := receive_loop server_seq 0 t.rcv ((t.snd.sent.drop t.delivered).map arrive)
    delivered := t.snd.sent.length }

/-- The opener leaves its wait: with the oldest unread frame of the listener
if there is one, else by timeout. -/
def sender_turn (env : Env) (F : List Nat) (t : Transfer) : Transfer :=
  match t.rcv.sent.drop t.taken with
  | [] => { t with snd := send_step env F Select.timeout t.snd }
  | h :: _ =>
    { t with snd := send_step env F (Select.readable (control_frame h)) t.snd
             taken := t.taken + 1 }

/-- One turn of the opener followed by delivery of what it sent. -/
def transfer_round (env : Env) (F : List Nat) (server_seq : Nat) (t : Transfer) : Transfer :=
  deliver_all server_seq (sender_turn env F t)

/-- The transfer of file `F` after `n` turns of the opener. Both handshakes
are over: `rand()` gave `r` at the opener, so its `client_seq` is `C0 + 1` and
the `client_seq` of the listener is `C0`, for `C0 = generate_initial_seq r`. -/
def transfer (env : Env) (F : List Nat) (r server_seq : Nat) : Nat → Transfer
  | 0 =>
    deliver_all server_seq
      { snd := send_start env F (generate_initial_seq r + 1) true,
        rcv := receive_file true (generate_initial_seq r) server_seq 0 [],
        delivered := 0, taken := 0 }
  | n + 1 => transfer_round env F server_seq (transfer env F r server_seq n)

/-- The window bound: `0 <= window_end - window_start <= WINDOW_SIZE`. -/
def WindowBound (s : Sender) : Prop :=
  s.window_start ≤ s.window_end ∧ s.window_end ≤ s.window_start + WINDOW_SIZE

/-- The end of an in-flight record in sequence space, `seq_num + data_len`. -/
def packet_info.fin (e : packet_info) : Nat := e.seq_num + e.data_len

/-- Joint invariant of a transfer without loss while the opener is in its loop
and every datagram it sent has been delivered: the listener expects the
cursor of the opener, the sink holds the bytes read so far, and the unread
ACKs of the listener are those of the in-flight records, in order. `base` is
the sequence number of the first byte of the file. -/
structure InFlight (F : List Nat) (base server_seq taken : Nat) (s : Sender) (r : Receiver) :
    Prop where
  stage : s.stage = Stage.transfer
  sret : s.ret = none
  rret : r.ret = none
  rfin : r.fin_wait = false
  rover : r.overrun = false
  flags : s.packet.flags &&& FIN_FLAG = 0
  expected : r.expected_seq = s.client_seq
  cursor : s.client_seq = base + s.file_pos
  pos : s.file_pos ≤ F.length
  sink : r.sink = F.take s.file_pos
  wlen : s.window.length = WINDOW_SIZE
  bound : WindowBound s
  queue : taken + (s.window_end - s.window_start) = r.sent.length
  slot : ∀ i, s.window_start ≤ i → i < s.window_end →
    1 ≤ (s.slot i).data_len ∧ (s.slot i).fin ≤ s.client_seq ∧
    r.sent[taken + (i - s.window_start)]? = some (data_ack server_seq (s.slot i).fin) ∧
    (i + 1 < s.window_end → (s.slot i).fin < (s.slot (i + 1)).fin)

/-- What the fill loop leaves: the window is full or the end of the file was
read, and `bytes_read <= 0` only at the end of the file. -/
def Filled (F : List Nat) (s : Sender) : Prop :=
  (s.window_end = s.window_start + WINDOW_SIZE ∨ s.bytes_read ≤ 0) ∧
  (s.bytes_read ≤ 0 → F.length ≤ s.file_pos)

/-- The bytes the next pass of the fill loop reads. -/
def next_chunk (F : List Nat) (s : Sender) : List Nat := (F.drop s.file_pos).take MAX_DATA_SIZE

/-- The datagram the next pass of the fill loop sends. -/
def next_frame (F : List Nat) (s : Sender) : Datagram :=
  { header := { s.packet with seq_num := s.client_seq, ack_num := 0 }, payload := next_chunk F s }

/-- State of a transfer without loss between two turns of the opener, while
data is in flight: the joint invariant holds, the fill loop has run, the
window is not empty and everything sent has been delivered. -/
structure Flowing (F : List Nat) (base server_seq : Nat) (t : Transfer) : Prop where
  inv : InFlight F base server_seq t.taken t.snd t.rcv
  filled : Filled F t.snd
  nonempty : t.snd.window_start < t.snd.window_end
  delivered : t.delivered = t.snd.sent.length

/-- Joint invariant of a transfer without loss for a file of any length,
with sequence numbers taken modulo 2^32: the listener has written exactly the
bytes the opener has read, and the acknowledgements of the records in flight
are the last frames the listener has sent, starting at position `off`. -/
structure Streaming (F : List Nat) (server_seq off : Nat) (s : Sender) (r : Receiver) :
    Prop where
  stage : s.stage = Stage.transfer
  rret : r.ret = none
  rfin : r.fin_wait = false
  flags : s.packet.flags &&& FIN_FLAG = 0
  expected : r.expected_seq = s.client_seq
  pos : s.file_pos ≤ F.length
  sink : r.sink = F.take s.file_pos
  wlen : s.window.length = WINDOW_SIZE
  bound : WindowBound s
  acks : ∀ h ∈ r.sent, h.flags = ACK_FLAG
  queue : off + (s.window_end - s.window_start) = r.sent.length
  slot : ∀ i, s.window_start ≤ i → i < s.window_end →
    r.sent[off + (i - s.window_start)]? =
      some (data_ack server_seq (u32 ((s.slot i).seq_num + (s.slot i).data_len)))

/-- State of a transfer of any length between two turns of the opener while
it is in its loop: the acknowledgement of the oldest record in flight has not
been read yet. -/
structure Pumping (F : List Nat) (server_seq off : Nat) (t : Transfer) : Prop where
  inv : Streaming F server_seq off t.snd t.rcv
  ahead : t.taken ≤ off
  filled : Filled F t.snd
  delivered : t.delivered = t.snd.sent.length

/-- The output is complete and will not change: the sink holds `F`, and the
listener has answered the FIN or returned, or the opener has returned with
nothing left to deliver. -/
def Settled (F : List Nat) (t : Transfer) : Prop :=
  t.rcv.sink = F ∧
    (t.rcv.fin_wait = true ∨ t.rcv.ret.isSome = true ∨
      (t.snd.stage = Stage.returned ∧ t.delivered = t.snd.sent.length))

/-- Bytes not yet read plus frames of the listener not yet read by the opener. -/
def backlog (F : List Nat) (t : Transfer) : Nat :=
  (F.length - t.snd.file_pos) + (t.rcv.sent.length - t.taken)

/-! ## `four_way_handshake_close` and `chat_mode` -/

/-- Outcome of `four_way_handshake_close`: the values assigned to the static
`state`, in order, and the frames handed to `send_packet`, in order. The
function always returns 0. -/
structure Close where
  trace : List connection_state_t
  sent : List sham_header
deriving DecidableEq, Repr

/-- The static `state` after a run that started in state `st`. -/
def Close.state (c : Close) (st : connection_state_t) : connection_state_t :=
  c.trace.getLastD st

/-- The function `four_way_handshake_close`, whose text is the same in
`client.c` and `server.c`: in both files it reads the static named
`server_seq`. `rx1` and `rx2` are the results of its first and second
`recvfrom`; a receive that runs into the one-second timeout returns -1. -/
def four_way_handshake_close (server_seq : Nat) (is_initiator : Bool) (rx1 rx2 : Received) :
    Close :=
  if is_initiator then
    let fin : sham_header :=
      { seq_num := server_seq, ack_num := 0, flags := FIN_FLAG, window_size := BUFFER_SIZE }
    let c1 : Close := { trace := [connection_state_t.FIN_WAIT_1], sent := [fin] }
    let c2 : Close :=
      if 0 < rx1.bytes_recv ∧ rx1.header.flags &&& ACK_FLAG ≠ 0 then
        { c1 with trace := c1.trace ++ [connection_state_t.FIN_WAIT_2] }
      else c1
    if 0 < rx2.bytes_recv ∧ rx2.header.flags &&& FIN_FLAG ≠ 0 then
      let ack : sham_header :=
        { seq_num := server_seq, ack_num := u32 (rx2.header.seq_num + 1), flags := ACK_FLAG,
          window_size := BUFFER_SIZE }
      { trace := c2.trace ++ [connection_state_t.TIME_WAIT], sent := c2.sent ++ [ack] }
    else c2
  else if 0 < rx1.bytes_recv ∧ rx1.header.flags &&& FIN_FLAG ≠ 0 then
    let ack : sham_header :=
      { seq_num := server_seq, ack_num := u32 (rx1.header.seq_num + 1), flags := ACK_FLAG,
        window_size := BUFFER_SIZE }
    let fin : sham_header :=
      { seq_num := server_seq, ack_num := 0, flags := FIN_FLAG, window_size := BUFFER_SIZE }
    let c1 : Close :=
      { trace := [connection_state_t.CLOSE_WAIT, connection_state_t.LAST_ACK], sent := [ack, fin] }
    if 0 < rx2.bytes_recv ∧ rx2.header.flags &&& ACK_FLAG ≠ 0 then
      { c1 with trace := c1.trace ++ [connection_state_t.CLOSED] }
    else c1
  else { trace := [], sent := [] }

/-- The bytes of the string literal `"/quit"`. -/
def quit_text : List Nat := [47, 113, 117, 105, 116]

/-- The string a `char` array holds: its bytes before the first NUL. -/
def c_string (bytes : List Nat) : List Nat := bytes.takeWhile (fun b => b != 0)

/-- Lines 295-300 of `client.c` (185-190 of `server.c`): the trailing newline
of the line is cut off. -/
def strip_newline (msg : List Nat) : List Nat :=
  if msg.getLast? = some 10 then msg.dropLast else msg

/-- The value of `data_len` in the network branch of `chat_mode` when the ACK
is built: `bytes_recv - sizeof(struct sham_header)`, cut to 1023 if it is
1024 or more. -/
def chat_data_len (rx : Received) : Int :=
  let data_len : Int := rx.bytes_recv - HEADER_SIZE
  if 0 < data_len ∧ (MAX_DATA_SIZE : Int) ≤ data_len then (MAX_DATA_SIZE : Int) - 1 else data_len

/-- The string in `packet.data` after `packet.data[data_len] = 0`. -/
def chat_text (rx : Received) : List Nat :=
  c_string (rx.data.take (chat_data_len rx).toNat)

/-- Which file an endpoint runs: `client.c` or `server.c`. -/
inductive Side where
  | client
  | server
deriving DecidableEq, Repr

/-- How the loop of `chat_mode` was left. -/
inductive ChatEnd where
  | select_failed
  | local_quit
  | peer_fin
  | peer_quit
deriving DecidableEq, Repr

/-- An endpoint in `chat_mode`: the statics `state`, `client_seq` and
`server_seq` of its file, the datagrams handed to `send_packet`, the strings
printed after `received: `, and how the loop ended once it has. -/
structure Chat where
  side : Side
  state : connection_state_t
  client_seq : Nat
  server_seq : Nat
  sent : List Datagram
  shown : List (List Nat)
  ended : Option ChatEnd
deriving DecidableEq, Repr

/-- The sequence cursor `chat_mode` sends with: the static `client_seq` in
`client.c`, the static `server_seq` in `server.c`. -/
def Chat.cursor (c : Chat) : Nat :=
  match c.side with
  | Side.client => c.client_seq
  | Side.server => c.server_seq

/-- The statement `client_seq += msg_len` of `client.c`, `server_seq += msg_len`
of `server.c`. -/
def Chat.advance (c : Chat) (n : Nat) : Chat :=
  match c.side with
  | Side.client => { c with client_seq := u32 (c.client_seq + n) }
  | Side.server => { c with server_seq := u32 (c.server_seq + n) }

/-- What one pass of the loop of `chat_mode` meets: whether `select`
succeeds, the string `fgets` stored if standard input is readable, the result
of `recvfrom` if the socket is readable, and the results of the two receives
of `four_way_handshake_close` should the pass call it. -/
structure ChatPass where
  select_ok : Bool
  line : Option (List Nat)
  frame : Option Received
  rx1 : Received
  rx2 : Received
deriving DecidableEq, Repr

/-- A call of `four_way_handshake_close` from `chat_mode`, followed by `break`. -/
def Chat.close (c : Chat) (is_initiator : Bool) (rx1 rx2 : Received) (how : ChatEnd) : Chat :=
  let cl := four_way_handshake_close c.server_seq is_initiator rx1 rx2
  { c with state := cl.state c.state
           sent := c.sent ++ cl.sent.map (fun h => { header := h, payload := [] })
           ended := some how }

/-- The branch `FD_ISSET(0, &readfds)` of `chat_mode`. `fgets` stores at most
1023 characters, so the `memcpy` guard `msg_len < MAX_DATA_SIZE` holds. -/
def chat_stdin (c : Chat) (p : ChatPass) : Chat :=
  match p.line with
  | none => c
  | some line =>
    let msg := strip_newline ((c_string line).take (MAX_DATA_SIZE - 1))
    if msg = quit_text then c.close true p.rx1 p.rx2 ChatEnd.local_quit
    else
      let hdr : sham_header :=
        { seq_num := c.cursor, ack_num := 0, flags := 0, window_size := BUFFER_SIZE }
      Chat.advance { c with sent := c.sent ++ [{ header := hdr, payload := msg }] } msg.length

/-- The branch `FD_ISSET(sockfd, &readfds)` of `chat_mode`. -/
def chat_network (c : Chat) (p : ChatPass) : Chat :=
  match p.frame with
  | none => c
  | some rx =>
    if 0 < rx.bytes_recv then
      if rx.header.flags &&& FIN_FLAG ≠ 0 then c.close false p.rx1 p.rx2 ChatEnd.peer_fin
      else if 0 < rx.bytes_recv - HEADER_SIZE ∧ chat_text rx = quit_text then
        { c with ended := some ChatEnd.peer_quit }
      else
        let ack : sham_header :=
          { seq_num := c.cursor, ack_num := u32 (rx.header.seq_num + chat_data_len rx),
            flags := ACK_FLAG, window_size := BUFFER_SIZE }
        { c with
          shown := if 0 < rx.bytes_recv - HEADER_SIZE then c.shown ++ [chat_text rx] else c.shown
          sent := c.sent ++ [{ header := ack, payload := [] }] }
    else c

/-- One pass of the loop of `chat_mode`. -/
def chat_pass (c : Chat) (p : ChatPass) : Chat :=
  if c.ended.isSome then c
  else if !p.select_ok then { c with ended := some ChatEnd.select_failed }
  else
    let c1 := chat_stdin c p
    if c1.ended.isSome then c1 else chat_network c1 p

/-- The function `chat_mode` of `client.c`, entered with the statics `g`. -/
def chat_mode_client (g : ClientStatics) (passes : List ChatPass) : Chat :=
  passes.foldl chat_pass
    { side := Side.client, state := g.state, client_seq := g.client_seq,
      server_seq := g.server_seq, sent := [], shown := [], ended := none }

/-- The function `chat_mode` of `server.c`, entered with the statics `g`. -/
def chat_mode_server (g : ServerStatics) (passes : List ChatPass) : Chat :=
  passes.foldl chat_pass
    { side := Side.server, state := g.state, client_seq := g.client_seq,
      server_seq := g.server_seq, sent := [], shown := [], ended := none }

/-- A receive that fails or runs into its timeout: `recvfrom` returns -1. -/
def no_frame : Received :=
  { bytes_recv := -1,
    header := { seq_num := 0, ack_num := 0, flags := 0, window_size := 0 }, data := [] }

/-! ## The window of `send_file` -/

/-- The in-flight records of `send_file`, oldest first: `window[i % WINDOW_SIZE]`
for `i` from `window_start` to `window_end - 1`. -/
def Sender.in_flight (s : Sender) : List packet_info :=
  (List.range (s.window_end - s.window_start)).map (fun k => s.slot (s.window_start + k))

/-- The in-flight records are contiguous and ordered in sequence space, with
positive lengths and no 32-bit wraparound: every record has `data_len >= 1`
and `seq_num + data_len < 2^32`, and the next record starts where it ends. -/
def Contiguous (s : Sender) : Prop :=
  ∀ i, s.window_start ≤ i → i < s.window_end →
    1 ≤ (s.slot i).data_len ∧ (s.slot i).seq_num + (s.slot i).data_len < 4294967296 ∧
    (i + 1 < s.window_end →
      (s.slot (i + 1)).seq_num = (s.slot i).seq_num + (s.slot i).data_len)

/-- A property of the state of `send_file` that each elementary step of the
function keeps: a pass of the fill loop entered under its guard, a pass of the
ACK loop entered under its guard, a pass of the retransmission loop, a
`recvfrom` into `packet`, a `gettimeofday`, and the steps after the loop. -/
structure Kept (env : Env) (F : List Nat) (P : Sender → Prop) : Prop where
  fill : ∀ s, P s → s.window_end < s.window_start + WINDOW_SIZE → P (fill_body env F s).1
  ack : ∀ a s, P s → s.window_start < s.window_end → P (ack_body a s).1
  retransmit : ∀ now s i, P s → P (retransmit_one env F now s i)
  packet : ∀ s h, P s → P { s with packet := h }
  ticks : ∀ s, P s → P { s with ticks := s.ticks + 1 }
  fin : ∀ s, P s → P (send_fin s)
  last : ∀ rx s, P s → P (send_last rx s)
  stage : ∀ s, P s → P { s with stage := Stage.await_fin }

/-- The array `window` has its `WINDOW_SIZE` slots and the window bound holds. -/
def Shaped (s : Sender) : Prop :=
  s.window.length = WINDOW_SIZE ∧ WindowBound s

/-- What `send_file` keeps about its bookkeeping for a file `F` sent from the
sequence number `base`: the cursor is `base + file_pos` modulo 2^32, and every
in-flight record describes a frame that was sent, the up to 1024 bytes of `F`
at `file_offset`, with `seq_num = base + file_offset` modulo 2^32; the records
cover consecutive pieces of the file that end at `file_pos`. -/
structure Tracked (F : List Nat) (base : Nat) (s : Sender) : Prop where
  wlen : s.window.length = WINDOW_SIZE
  bound : WindowBound s
  cursor : s.client_seq = u32 (base + s.file_pos)
  pos : s.file_pos ≤ F.length
  entry : ∀ i, s.window_start ≤ i → i < s.window_end →
    1 ≤ (s.slot i).data_len ∧
    (s.slot i).data_len = ((F.drop (s.slot i).file_offset).take MAX_DATA_SIZE).length ∧
    (s.slot i).seq_num = u32 (base + (s.slot i).file_offset) ∧
    (∃ d ∈ s.sent, d.header.seq_num = (s.slot i).seq_num ∧
        d.payload = (F.drop (s.slot i).file_offset).take MAX_DATA_SIZE) ∧
    (i + 1 < s.window_end →
      (s.slot (i + 1)).file_offset = (s.slot i).file_offset + (s.slot i).data_len) ∧
    (i + 1 = s.window_end → s.file_pos = (s.slot i).file_offset + (s.slot i).data_len)

/-- The age of a record in microseconds: the current time minus the send
timestamp of the record, both given as seconds and microseconds. -/
def age_us (now sent_time : timeval) : Int :=
  (now.tv_sec - sent_time.tv_sec) * 1000000 + (now.tv_usec - sent_time.tv_usec)

/-- The test `elapsed_ms > RTO_MS` of line 205 for the record `e`. -/
def timed_out (now : timeval) (e : packet_info) : Bool :=
  decide (elapsed_ms now e.sent_time > RTO_MS)

/-- The frame that lines 208-216 send for the record `e` when `packet` holds
the header `p`. -/
def retx_frame (F : List Nat) (p : sham_header) (e : packet_info) : Datagram :=
  { header := { p with seq_num := e.seq_num, ack_num := 0 },
    payload := (F.drop e.file_offset).take e.data_len }

/-- An environment in which every `send_packet` succeeds and the clock shows
0 s at the first `gettimeofday` and 0.5005 s from then on. -/
def late_clock : Env :=
  { clock := fun n =>
      if n = 0 then { tv_sec := 0, tv_usec := 0 } else { tv_sec := 0, tv_usec := 500500 },
    sendto_ok := fun _ => true }

/-- A state of `send_file` with three records in flight: 4, 4 and 2 bytes
from sequence number 1001, all ten bytes of the file read. -/
def three_in_flight : Sender :=
  { client_seq := 1011,
    packet := { seq_num := 1009, ack_num := 0, flags := 0, window_size := BUFFER_SIZE },
    window :=
      [{ seq_num := 1001, data_len := 4, file_offset := 0,
         sent_time := { tv_sec := 0, tv_usec := 0 }, retransmitted := 0 },
       { seq_num := 1005, data_len := 4, file_offset := 4,
         sent_time := { tv_sec := 0, tv_usec := 0 }, retransmitted := 0 },
       { seq_num := 1009, data_len := 2, file_offset := 8,
         sent_time := { tv_sec := 0, tv_usec := 0 }, retransmitted := 0 }]
      ++ List.replicate 7 packet_info_zero,
    window_start := 0, window_end := 3, file_pos := 10, bytes_read := 0, sent := [],
    ticks := 3, stage := Stage.transfer, ret := none }

/-! ## A transfer over a channel with delay -/

/-- A move of a transfer over a channel that delivers every frame once and in
order, after any delay: the listener receives the oldest frame of the opener
not yet delivered; or the wait of the opener ends with the oldest frame of the
listener not yet read; or the wait of the opener ends without a frame
(`select` returns 0 in the loop, and after the FIN `recvfrom` runs into the
receive timeout of the socket). -/
inductive Move where
  | deliver
  | read
  | timeout
deriving DecidableEq, Repr

/-- The effect of a move; a move that finds no frame to deliver or to read
does nothing. -/
def Transfer.move (env : Env) (F : List Nat) (server_seq : Nat) (t : Transfer) :
    Move → Transfer
  | Move.deliver =>
    match t.snd.sent.drop t.delivered with
    | [] => t
    | d :: _ =>
      { t with rcv := receive_step server_seq 0 t.rcv (arrive d), delivered := t.delivered + 1 }
  | Move.read =>
    match t.rcv.sent.drop t.taken with
    | [] => t
    | h :: _ =>
      { t with snd := send_step env F (Select.readable (control_frame h)) t.snd
               taken := t.taken + 1 }
  | Move.timeout => { t with snd := send_step env F Select.timeout t.snd }

/-- The transfer of file `F` after a sequence of moves. Both handshakes are
over: `rand()` gave `r` at the opener, whose `client_seq` is `C0 + 1`, and the
`client_seq` of the listener is `C0 = generate_initial_seq r`. -/
def transfer_run (env : Env) (F : List Nat) (r server_seq : Nat) (moves : List Move) :
    Transfer :=
  moves.foldl (Transfer.move env F server_seq)
    { snd := send_start env F (generate_initial_seq r + 1) true,
      rcv := receive_file true (generate_initial_seq r) server_seq 0 [],
      delivered := 0, taken := 0 }

/-- An environment in which every `send_packet` succeeds and the clock shows
0 s at the first `gettimeofday` and 1 s from then on. -/
def second_later : Env :=
  { clock := fun n =>
      if n = 0 then { tv_sec := 0, tv_usec := 0 } else { tv_sec := 1, tv_usec := 0 },
    sendto_ok := fun _ => true }

/-- Invariant of the receive loop on uncorrupted data of the file `F`. -/
def ReceiveInv (F : List Nat) (C0 : Nat) (s : Receiver) : Prop :=
  s.ret = none ∧ s.fin_wait = false ∧ s.overrun = false ∧
  C0 + 1 ≤ s.expected_seq ∧ s.expected_seq ≤ C0 + 1 + F.length ∧
  s.sink = F.take (s.expected_seq - (C0 + 1))

/-! ## Theorems -/

/-! ### Arithmetic of the embedding -/

theorem u32_of_lt (x : Nat) (h : x < 4294967296) : u32 (x : Int) = x := by
  unfold u32
  omega

theorem size_t_of_small (x : Int) (h0 : 0 ≤ x) (h1 : x ≤ 1024) : size_t x = x.toNat := by
  unfold size_t
  omega

/-! ### `receive_file` -/

theorem receive_init_inv (F : List Nat) (C0 : Nat) (hF : C0 + 1 + F.length < 4294967296) :
    ReceiveInv F C0 (receive_init C0) := by
  have h : u32 ((C0 : Int) + 1) = C0 + 1 := by
    have := u32_of_lt (C0 + 1) (by omega)
    simpa using this
  simp [ReceiveInv, receive_init, h]

theorem receive_step_data (server_seq : Nat) (loss_rate : ℚ) (s : Receiver) (a : Arrival)
    (hret : s.ret = none) (hfw : s.fin_wait = false) (hrecv : 0 ≤ a.rx.bytes_recv)
    (hfin : a.rx.header.flags &&& FIN_FLAG = 0)
    (hkeep : is_packet_lost loss_rate a.random_val = false) :
    receive_step server_seq loss_rate s a = receive_data server_seq s a.rx := by
  have hnneg : ¬ a.rx.bytes_recv < 0 := by omega
  simp [receive_step, hret, hfw, hnneg, hfin, hkeep]

theorem receive_step_lost (server_seq : Nat) (loss_rate : ℚ) (s : Receiver) (a : Arrival)
    (hret : s.ret = none) (hfw : s.fin_wait = false) (hrecv : 0 ≤ a.rx.bytes_recv)
    (hfin : a.rx.header.flags &&& FIN_FLAG = 0)
    (hlost : is_packet_lost loss_rate a.random_val = true) :
    receive_step server_seq loss_rate s a = s := by
  have hnneg : ¬ a.rx.bytes_recv < 0 := by omega
  simp [receive_step, hret, hfw, hnneg, hfin, hlost]

theorem receive_data_other (server_seq : Nat) (s : Receiver) (p : Received)
    (hne : p.header.seq_num ≠ s.expected_seq) :
    receive_data server_seq s p
      = { s with sent := s.sent ++ [data_ack server_seq s.expected_seq] } := by
  simp [receive_data, hne]

theorem receive_data_next (server_seq : Nat) (s : Receiver) (p : Received)
    (he : p.header.seq_num = s.expected_seq) :
    receive_data server_seq s p
      = { s with
          sink := s.sink ++ p.data.take (size_t (p.bytes_recv - HEADER_SIZE))
          overrun := s.overrun || decide (MAX_DATA_SIZE < size_t (p.bytes_recv - HEADER_SIZE))
          expected_seq := u32 (s.expected_seq + (p.bytes_recv - HEADER_SIZE))
          sent := s.sent ++
            [data_ack server_seq (u32 (s.expected_seq + (p.bytes_recv - HEADER_SIZE)))] } := by
  simp [receive_data, he]

theorem receive_step_inv (F : List Nat) (C0 server_seq : Nat) (loss_rate : ℚ)
    (hF : C0 + 1 + F.length < 4294967296) (s : Receiver) (a : Arrival)
    (hs : ReceiveInv F C0 s) (ha : carries F C0 a) :
    ReceiveInv F C0 (receive_step server_seq loss_rate s a) := by
  obtain ⟨hret, hfw, hov, hlo, hhi, hsink⟩ := hs
  obtain ⟨h12, hmax, hfin, hseq, hlen, hpay⟩ := ha
  simp only [HEADER_SIZE, MAX_DATA_SIZE, Nat.cast_ofNat, Nat.reduceAdd] at h12 hmax hlen hpay
  cases hl : is_packet_lost loss_rate a.random_val with
  | true =>
    rw [receive_step_lost server_seq loss_rate s a hret hfw (by omega) hfin hl]
    exact ⟨hret, hfw, hov, hlo, hhi, hsink⟩
  | false =>
    rw [receive_step_data server_seq loss_rate s a hret hfw (by omega) hfin hl]
    by_cases he : a.rx.header.seq_num = s.expected_seq
    · have hsz : size_t (a.rx.bytes_recv - (HEADER_SIZE : Nat)) = (a.rx.bytes_recv - 12).toNat := by
        simp only [HEADER_SIZE, Nat.cast_ofNat]
        exact size_t_of_small _ (by omega) (by omega)
      have hu : u32 ((s.expected_seq : Int) + (a.rx.bytes_recv - (HEADER_SIZE : Nat)))
          = s.expected_seq + (a.rx.bytes_recv - 12).toNat := by
        simp only [HEADER_SIZE, Nat.cast_ofNat]
        unfold u32
        omega
      rw [receive_data_next server_seq s a.rx he, hsz, hu]
      refine ⟨hret, hfw, ?_, ?_, ?_, ?_⟩
      · simp only [hov, Bool.false_or, decide_eq_false_iff_not, MAX_DATA_SIZE]
        omega
      · show C0 + 1 ≤ s.expected_seq + (a.rx.bytes_recv - 12).toNat
        omega
      · show s.expected_seq + (a.rx.bytes_recv - 12).toNat ≤ C0 + 1 + F.length
        omega
      · show s.sink ++ List.take (a.rx.bytes_recv - 12).toNat a.rx.data
          = List.take (s.expected_seq + (a.rx.bytes_recv - 12).toNat - (C0 + 1)) F
        rw [hsink, hpay, he]
        have : s.expected_seq + (a.rx.bytes_recv - 12).toNat - (C0 + 1)
            = (s.expected_seq - (C0 + 1)) + (a.rx.bytes_recv - 12).toNat := by omega
        rw [this, List.take_add]
    · rw [receive_data_other server_seq s a.rx he]
      exact ⟨hret, hfw, hov, hlo, hhi, hsink⟩

theorem receive_loop_inv (F : List Nat) (C0 server_seq : Nat) (loss_rate : ℚ)
    (hF : C0 + 1 + F.length < 4294967296) (arrivals : List Arrival) :
    ∀ s : Receiver, ReceiveInv F C0 s → (∀ a ∈ arrivals, carries F C0 a) →
      ReceiveInv F C0 (receive_loop server_seq loss_rate s arrivals) := by
  induction arrivals with
  | nil => intro s hs _; exact hs
  | cons a rest ih =>
    intro s hs hall
    simp only [receive_loop]
    apply ih
    · exact receive_step_inv F C0 server_seq loss_rate hF s a hs (hall a (List.mem_cons_self _ _))
    · intro b hb
      exact hall b (List.mem_cons_of_mem _ hb)

/-- C1: for a file `F` with `C0 + 1 + |F| < 2^32` and any sequence of arriving
data datagrams of `F` (any order, duplication or omission, each one possibly
dropped by the loss hook), after each datagram the bytes written by
`receive_file` are the first `expected_seq - (C0 + 1)` bytes of `F`, no
`fwrite` left the buffer, and once `expected_seq` is `C0 + 1 + |F|` the sink
equals `F`. -/
theorem receive_file_sink_is_initial_segment (F : List Nat) (C0 server_seq : Nat)
    (loss_rate : ℚ) (arrivals : List Arrival)
    (hF : C0 + 1 + F.length < 4294967296)
    (hall : ∀ a ∈ arrivals, carries F C0 a) (k : Nat) :
    (receive_file true C0 server_seq loss_rate (arrivals.take k)).sink
        = F.take ((receive_file true C0 server_seq loss_rate (arrivals.take k)).expected_seq
            - (C0 + 1)) ∧
      C0 + 1 ≤ (receive_file true C0 server_seq loss_rate (arrivals.take k)).expected_seq ∧
      (receive_file true C0 server_seq loss_rate (arrivals.take k)).overrun = false ∧
      ((receive_file true C0 server_seq loss_rate (arrivals.take k)).expected_seq
          = C0 + 1 + F.length →
        (receive_file true C0 server_seq loss_rate (arrivals.take k)).sink = F) := by
  have hinv := receive_loop_inv F C0 server_seq loss_rate hF (arrivals.take k)
    (receive_init C0) (receive_init_inv F C0 hF)
    (fun a ha => hall a (List.mem_of_mem_take ha))
  simp only [receive_file, if_true]
  obtain ⟨_, _, hov, hlo, _, hsink⟩ := hinv
  refine ⟨hsink, hlo, hov, ?_⟩
  intro hfull
  rw [hsink, hfull]
  simp

/-- Witness of C1: the file `AB` with `C0 = 1000`, its second byte arriving
first, then the first byte twice, then the second byte again. -/
theorem receive_file_sink_is_initial_segment_witness :
    (receive_file true 1000 5000 0
        ([data_arrival 1002 [66], data_arrival 1001 [65], data_arrival 1001 [65],
          data_arrival 1002 [66]].take 4)).sink
        = [65, 66].take ((receive_file true 1000 5000 0
            ([data_arrival 1002 [66], data_arrival 1001 [65], data_arrival 1001 [65],
              data_arrival 1002 [66]].take 4)).expected_seq - (1000 + 1)) ∧
      1000 + 1 ≤ (receive_file true 1000 5000 0
        ([data_arrival 1002 [66], data_arrival 1001 [65], data_arrival 1001 [65],
          data_arrival 1002 [66]].take 4)).expected_seq ∧
      (receive_file true 1000 5000 0
        ([data_arrival 1002 [66], data_arrival 1001 [65], data_arrival 1001 [65],
          data_arrival 1002 [66]].take 4)).overrun = false ∧
      ((receive_file true 1000 5000 0
        ([data_arrival 1002 [66], data_arrival 1001 [65], data_arrival 1001 [65],
          data_arrival 1002 [66]].take 4)).expected_seq = 1000 + 1 + [65, 66].length →
        (receive_file true 1000 5000 0
          ([data_arrival 1002 [66], data_arrival 1001 [65], data_arrival 1001 [65],
            data_arrival 1002 [66]].take 4)).sink = [65, 66]) :=
  receive_file_sink_is_initial_segment [65, 66] 1000 5000 0
    [data_arrival 1002 [66], data_arrival 1001 [65], data_arrival 1001 [65],
      data_arrival 1002 [66]] (by decide) (by decide) 4

/-- C4: for every received frame without the FIN flag that the loss hook does
not drop, `receive_file` hands exactly one frame to `send_packet`, namely
`{flags = ACK, seq_num = server_seq, ack_num = expected_seq after the frame,
window_size = 8192}`. -/
theorem receive_step_emits_one_ack (server_seq : Nat) (loss_rate : ℚ) (s : Receiver)
    (a : Arrival) (hret : s.ret = none) (hfw : s.fin_wait = false)
    (hrecv : 0 ≤ a.rx.bytes_recv) (hfin : a.rx.header.flags &&& FIN_FLAG = 0)
    (hkeep : is_packet_lost loss_rate a.random_val = false) :
    (receive_step server_seq loss_rate s a).sent
      = s.sent ++ [{ flags := ACK_FLAG, seq_num := server_seq,
                     ack_num := (receive_step server_seq loss_rate s a).expected_seq,
                     window_size := 8192 }] := by
  rw [receive_step_data server_seq loss_rate s a hret hfw hrecv hfin hkeep]
  by_cases he : a.rx.header.seq_num = s.expected_seq
  · rw [receive_data_next server_seq s a.rx he]
    rfl
  · rw [receive_data_other server_seq s a.rx he]
    rfl

/-- Witness of C4: the first data frame after a SYN with sequence number 1000. -/
theorem receive_step_emits_one_ack_witness :
    (receive_step 5000 0 (receive_init 1000) (data_arrival 1001 [65, 66])).sent
      = (receive_init 1000).sent ++ [{ flags := ACK_FLAG, window_size := 8192, seq_num := 5000, ack_num :=
          (receive_step 5000 0 (receive_init 1000) (data_arrival 1001 [65, 66])).expected_seq }] :=
  receive_step_emits_one_ack 5000 0 (receive_init 1000) (data_arrival 1001 [65, 66])
    rfl rfl (by decide) (by decide) (by simp [is_packet_lost])

/-- Counterexample to C5 as stated: `expected_seq` decreases on a ten-byte
datagram whose `seq_num` equals it (from 1001 to 999), and it decreases when
the 32-bit addition wraps (from 4294967295 to 1). -/
theorem receive_file_expected_seq_decreases :
    (receive_file true 1000 5000 0 [ten_byte_arrival 1001 []]).expected_seq
        < (receive_file true 1000 5000 0 []).expected_seq ∧
      (receive_file true 4294967294 5000 0 [data_arrival 4294967295 [65, 66]]).expected_seq
        < (receive_file true 4294967294 5000 0 []).expected_seq := by
  constructor <;>
    simp [receive_file, receive_loop, receive_step, receive_init, receive_data,
      ten_byte_arrival, data_arrival, Datagram.received, is_packet_lost, u32, FIN_FLAG,
      HEADER_SIZE]

/-- C5 as amended: on a datagram that reaches the 12-byte header, with any
header contents, `expected_seq` does not decrease, provided the addition
`expected_seq + data_len` of an accepted frame stays below `2^32`. -/
theorem receive_step_expected_seq_mono (server_seq : Nat) (loss_rate : ℚ) (s : Receiver)
    (a : Arrival) (h12 : (HEADER_SIZE : Int) ≤ a.rx.bytes_recv)
    (hwrap : a.rx.header.seq_num = s.expected_seq →
      (s.expected_seq : Int) + (a.rx.bytes_recv - HEADER_SIZE) < 4294967296) :
    s.expected_seq ≤ (receive_step server_seq loss_rate s a).expected_seq := by
  simp only [HEADER_SIZE, Nat.cast_ofNat] at h12 hwrap
  unfold receive_step receive_fin
  split_ifs with h1 h2 h3 h4 h5
  all_goals try exact le_refl _
  by_cases he : a.rx.header.seq_num = s.expected_seq
  · rw [receive_data_next server_seq s a.rx he]
    show s.expected_seq ≤ u32 (s.expected_seq + (a.rx.bytes_recv - (HEADER_SIZE : Nat)))
    have := hwrap he
    simp only [HEADER_SIZE, Nat.cast_ofNat]
    unfold u32
    omega
  · rw [receive_data_other server_seq s a.rx he]

/-- Witness of C5 as amended. -/
theorem receive_step_expected_seq_mono_witness :
    (receive_init 1000).expected_seq
      ≤ (receive_step 5000 0 (receive_init 1000) (data_arrival 1001 [65, 66])).expected_seq :=
  receive_step_expected_seq_mono 5000 0 (receive_init 1000) (data_arrival 1001 [65, 66])
    (by decide) (by intro _; decide)

/-- C6: a received frame without the FIN flag whose `seq_num` differs from
`expected_seq` leaves the sink and `expected_seq` unchanged, and the ACK sent
in reply (one, unless the loss hook drops the frame) carries the unchanged
`expected_seq`. -/
theorem receive_step_out_of_order (server_seq : Nat) (loss_rate : ℚ) (s : Receiver)
    (a : Arrival) (hret : s.ret = none) (hfw : s.fin_wait = false)
    (hrecv : 0 ≤ a.rx.bytes_recv) (hfin : a.rx.header.flags &&& FIN_FLAG = 0)
    (hne : a.rx.header.seq_num ≠ s.expected_seq) :
    (receive_step server_seq loss_rate s a).sink = s.sink ∧
      (receive_step server_seq loss_rate s a).expected_seq = s.expected_seq ∧
      (receive_step server_seq loss_rate s a).sent
        = if is_packet_lost loss_rate a.random_val then s.sent
          else s.sent ++ [{ flags := ACK_FLAG, seq_num := server_seq,
                            ack_num := s.expected_seq, window_size := 8192 }] := by
  cases hl : is_packet_lost loss_rate a.random_val with
  | true =>
    rw [receive_step_lost server_seq loss_rate s a hret hfw hrecv hfin hl]
    simp
  | false =>
    rw [receive_step_data server_seq loss_rate s a hret hfw hrecv hfin hl,
      receive_data_other server_seq s a.rx hne]
    refine ⟨rfl, rfl, ?_⟩
    simp [data_ack, BUFFER_SIZE]

/-- Witness of C6: a frame ahead of `expected_seq` and a duplicate behind it. -/
theorem receive_step_out_of_order_witness :
    ((receive_step 5000 0 (receive_init 1000) (data_arrival 1002 [66])).sink
        = (receive_init 1000).sink ∧
      (receive_step 5000 0 (receive_init 1000) (data_arrival 1002 [66])).expected_seq
        = (receive_init 1000).expected_seq ∧
      (receive_step 5000 0 (receive_init 1000) (data_arrival 1002 [66])).sent
        = if is_packet_lost 0 (data_arrival 1002 [66]).random_val then (receive_init 1000).sent
          else (receive_init 1000).sent ++ [{ flags := ACK_FLAG, window_size := 8192, seq_num := 5000, ack_num :=
            (receive_init 1000).expected_seq }]) :=
  receive_step_out_of_order 5000 0 (receive_init 1000) (data_arrival 1002 [66])
    rfl rfl (by decide) (by decide) (by decide)

/-- C7, the code at the failing input: after the data frame `AB` a datagram of
ten bytes with `seq_num = expected_seq = 1003` and no flag is not discarded;
`fwrite` is called with the count `(size_t)(-2)`, bytes of the stale buffer
reach the sink, and `expected_seq` becomes 1001. -/
theorem receive_file_ten_byte_datagram :
    (receive_file true 1000 5000 0 [data_arrival 1001 [65, 66]]).expected_seq = 1003 ∧
      (receive_file true 1000 5000 0 [data_arrival 1001 [65, 66]]).sink = [65, 66] ∧
      (receive_file true 1000 5000 0
        [data_arrival 1001 [65, 66], ten_byte_arrival 1003 [65, 66]]).expected_seq = 1001 ∧
      (receive_file true 1000 5000 0
        [data_arrival 1001 [65, 66], ten_byte_arrival 1003 [65, 66]]).sink = [65, 66, 65, 66] ∧
      (receive_file true 1000 5000 0
        [data_arrival 1001 [65, 66], ten_byte_arrival 1003 [65, 66]]).overrun = true := by
  simp [receive_file, receive_loop, receive_step, receive_init, receive_data,
    ten_byte_arrival, data_arrival, Datagram.received, is_packet_lost, u32, size_t, FIN_FLAG,
    HEADER_SIZE, MAX_DATA_SIZE]

/-! ### Handshakes -/

theorem generate_initial_seq_range (r : Nat) :
    1000 ≤ generate_initial_seq r ∧ generate_initial_seq r < 1001000 := by
  unfold generate_initial_seq
  omega

theorem u32_initial_seq_succ (r : Nat) :
    u32 ((generate_initial_seq r : Int) + 1) = generate_initial_seq r + 1 := by
  have h := generate_initial_seq_range r
  unfold u32
  omega

/-- C8, the code at the failing input: a reply to the SYN that carries only
the ACK flag (or only the SYN flag) and `ack_num = C0 + 1` is accepted; the
function returns 0, the state is ESTABLISHED and the ACK is sent. Here
`rand()` returns 0, so `C0 = 1000`. -/
theorem three_way_handshake_client_accepts_single_flag :
    (three_way_handshake_client client_statics_init 0 true 1
        (control_frame { seq_num := 7000, ack_num := 1001, flags := ACK_FLAG,
                         window_size := 8192 }) true).ret = 0 ∧
      (three_way_handshake_client client_statics_init 0 true 1
        (control_frame { seq_num := 7000, ack_num := 1001, flags := ACK_FLAG,
                         window_size := 8192 }) true).statics.state
        = connection_state_t.ESTABLISHED ∧
      (three_way_handshake_client client_statics_init 0 true 1
        (control_frame { seq_num := 7000, ack_num := 1001, flags := ACK_FLAG,
                         window_size := 8192 }) true).sent
        = [{ seq_num := 1000, ack_num := 0, flags := SYN_FLAG, window_size := 8192 },
           { seq_num := 1000, ack_num := 7001, flags := ACK_FLAG, window_size := 8192 }] ∧
      (three_way_handshake_client client_statics_init 0 true 1
        (control_frame { seq_num := 7000, ack_num := 1001, flags := SYN_FLAG,
                         window_size := 8192 }) true).ret = 0 := by
  decide

/-- C9: when `three_way_handshake_client` returns 0 for a SYN sent with
sequence number `C0` and a reply with `seq_num = S0`, the reply had
`ack_num = C0 + 1`, the last frame sent is `{ACK, seq_num = C0, ack_num = S0 + 1}`
(32-bit addition), the state is ESTABLISHED, and both `*initial_seq` and
`client_seq` are `C0 + 1`; a reply whose `ack_num` is not `C0 + 1` gives -1. -/
theorem three_way_handshake_client_success (g : ClientStatics) (r : Nat) (syn_ok : Bool)
    (sel : Int) (rx : Received) (ack_ok : Bool) :
    ((three_way_handshake_client g r syn_ok sel rx ack_ok).ret = 0 →
      rx.header.ack_num = generate_initial_seq r + 1 ∧
      (three_way_handshake_client g r syn_ok sel rx ack_ok).sent.getLast?
        = some { flags := ACK_FLAG, seq_num := generate_initial_seq r,
                 ack_num := (rx.header.seq_num + 1) % 4294967296, window_size := 8192 } ∧
      (three_way_handshake_client g r syn_ok sel rx ack_ok).sent.head?
        = some { flags := SYN_FLAG, seq_num := generate_initial_seq r,
                 ack_num := 0, window_size := 8192 } ∧
      (three_way_handshake_client g r syn_ok sel rx ack_ok).statics.state
        = connection_state_t.ESTABLISHED ∧
      (three_way_handshake_client g r syn_ok sel rx ack_ok).initial_seq
        = some (generate_initial_seq r + 1) ∧
      (three_way_handshake_client g r syn_ok sel rx ack_ok).statics.client_seq
        = generate_initial_seq r + 1) ∧
    (rx.header.ack_num ≠ generate_initial_seq r + 1 →
      (three_way_handshake_client g r syn_ok sel rx ack_ok).ret = -1) := by
  have hu := u32_initial_seq_succ r
  have hs : u32 ((rx.header.seq_num : Int) + 1) = (rx.header.seq_num + 1) % 4294967296 := by
    unfold u32
    omega
  unfold three_way_handshake_client
  simp only [hu, hs]
  split_ifs <;> simp_all [BUFFER_SIZE]

/-- Witness of C9: `rand()` returns 0 (`C0 = 1000`), the reply is
`{SYN|ACK, seq_num = 7000, ack_num = 1001}`. -/
theorem three_way_handshake_client_success_witness :
    (three_way_handshake_client client_statics_init 0 true 1
      (control_frame { seq_num := 7000, ack_num := 1001, flags := 3,
                       window_size := 8192 }) true).ret = 0 ∧
    (three_way_handshake_client client_statics_init 0 true 1
      (control_frame { seq_num := 7000, ack_num := 1001, flags := 3,
                       window_size := 8192 }) true).sent.getLast?
      = some { flags := ACK_FLAG, seq_num := generate_initial_seq 0,
               ack_num := (7000 + 1) % 4294967296, window_size := 8192 } :=
  ⟨by decide,
   ((three_way_handshake_client_success client_statics_init 0 true 1
      (control_frame { seq_num := 7000, ack_num := 1001, flags := 3,
                       window_size := 8192 }) true).1 (by decide)).2.1⟩

/-- C10: when both `recvfrom` calls and the `send_packet` call succeed,
`three_way_handshake_server` returns 0 with state ESTABLISHED exactly when the
first frame has the SYN flag and the second has the ACK flag and
`ack_num = S0 + 1`; the SYN-ACK sent after a SYN with `seq_num = C0` is
`{SYN|ACK, seq_num = S0, ack_num = C0 + 1}` (32-bit addition); in every other
case the function returns -1 and the state is not ESTABLISHED. -/
theorem three_way_handshake_server_iff (g : ServerStatics) (rx1 : Received) (r : Nat)
    (rx2 : Received) (hstate : g.state ≠ connection_state_t.ESTABLISHED)
    (hrx1 : 0 ≤ rx1.bytes_recv) (hrx2 : 0 ≤ rx2.bytes_recv) :
    (((three_way_handshake_server g rx1 r true rx2).ret = 0 ∧
        (three_way_handshake_server g rx1 r true rx2).statics.state
          = connection_state_t.ESTABLISHED) ↔
      (rx1.header.flags &&& SYN_FLAG ≠ 0 ∧ rx2.header.flags &&& ACK_FLAG ≠ 0 ∧
        rx2.header.ack_num = generate_initial_seq r + 1)) ∧
    (rx1.header.flags &&& SYN_FLAG ≠ 0 →
      (three_way_handshake_server g rx1 r true rx2).sent
        = [{ flags := 3, seq_num := generate_initial_seq r,
             ack_num := (rx1.header.seq_num + 1) % 4294967296, window_size := 8192 }]) ∧
    (¬ (rx1.header.flags &&& SYN_FLAG ≠ 0 ∧ rx2.header.flags &&& ACK_FLAG ≠ 0 ∧
        rx2.header.ack_num = generate_initial_seq r + 1) →
      (three_way_handshake_server g rx1 r true rx2).ret = -1 ∧
        (three_way_handshake_server g rx1 r true rx2).statics.state
          ≠ connection_state_t.ESTABLISHED) := by
  have hu := u32_initial_seq_succ r
  have hs : u32 ((rx1.header.seq_num : Int) + 1) = (rx1.header.seq_num + 1) % 4294967296 := by
    unfold u32
    omega
  have h1 : ¬ rx1.bytes_recv < 0 := by omega
  have h2 : ¬ rx2.bytes_recv < 0 := by omega
  have h3 : SYN_FLAG ||| ACK_FLAG = 3 := by decide
  unfold three_way_handshake_server
  simp only [hu, hs, h1, h2, h3]
  by_cases hsyn : rx1.header.flags &&& SYN_FLAG = 0
  · simp [hsyn, hstate]
  · by_cases hack : rx2.header.flags &&& ACK_FLAG = 0
    · simp [hsyn, hack, BUFFER_SIZE]
    · by_cases hnum : rx2.header.ack_num = generate_initial_seq r + 1
      · simp [hsyn, hack, hnum, BUFFER_SIZE]
      · simp [hsyn, hack, hnum, BUFFER_SIZE]

/-- Witness of C10: SYN with `seq_num = 1000`, `rand()` returns 0 (`S0 = 1000`),
then an ACK with `ack_num = 1001`. -/
theorem three_way_handshake_server_iff_witness :
    (three_way_handshake_server server_statics_init
        (control_frame { seq_num := 1000, ack_num := 0, flags := SYN_FLAG, window_size := 8192 })
        0 true
        (control_frame { seq_num := 1000, ack_num := 1001, flags := ACK_FLAG,
                         window_size := 8192 })).ret = 0 ∧
      (three_way_handshake_server server_statics_init
        (control_frame { seq_num := 1000, ack_num := 0, flags := SYN_FLAG, window_size := 8192 })
        0 true
        (control_frame { seq_num := 1000, ack_num := 1001, flags := ACK_FLAG,
                         window_size := 8192 })).statics.state
        = connection_state_t.ESTABLISHED :=
  (three_way_handshake_server_iff server_statics_init
    (control_frame { seq_num := 1000, ack_num := 0, flags := SYN_FLAG, window_size := 8192 })
    0
    (control_frame { seq_num := 1000, ack_num := 1001, flags := ACK_FLAG, window_size := 8192 })
    (by decide) (by decide) (by decide)).1.2 ⟨by decide, by decide, by decide⟩

/-! ### `send_file`: the window bound -/

theorem fill_body_window (env : Env) (F : List Nat) (s : Sender) :
    ((fill_body env F s).2 = false ∧ (fill_body env F s).1.window_start = s.window_start ∧
        (fill_body env F s).1.window_end = s.window_end) ∨
      ((fill_body env F s).2 = true ∧ (fill_body env F s).1.window_start = s.window_start ∧
        (fill_body env F s).1.window_end = s.window_end + 1) := by
  unfold fill_body
  dsimp only
  split_ifs <;> simp

theorem fill_loop_window (env : Env) (F : List Nat) :
    ∀ (n : Nat) (s : Sender), WindowBound s → n + s.window_end ≤ s.window_start + WINDOW_SIZE →
      WindowBound (fill_loop env F n s) := by
  intro n
  induction n with
  | zero => intro s hs _; exact hs
  | succ n ih =>
    intro s hs hn
    simp only [fill_loop]
    rcases fill_body_window env F s with ⟨h2, hws, hwe⟩ | ⟨h2, hws, hwe⟩
    · simp only [h2, Bool.false_eq_true, if_false]
      unfold WindowBound at hs ⊢
      omega
    · simp only [h2, if_true]
      apply ih
      · unfold WindowBound at hs ⊢
        omega
      · omega

theorem fill_window_bound (env : Env) (F : List Nat) (s : Sender) (hs : WindowBound s) :
    WindowBound (fill_window env F s) := by
  unfold fill_window
  apply fill_loop_window env F _ s hs
  unfold WindowBound at hs
  omega

theorem ack_body_window (a : Nat) (s : Sender) :
    ((ack_body a s).2 = false ∧ (ack_body a s).1 = s) ∨
      ((ack_body a s).2 = true ∧ (ack_body a s).1.window_start = s.window_start + 1 ∧
        (ack_body a s).1.window_end = s.window_end) := by
  unfold ack_body
  split_ifs <;> simp

theorem ack_loop_window (a : Nat) :
    ∀ (n : Nat) (s : Sender), WindowBound s → s.window_start + n ≤ s.window_end →
      WindowBound (ack_loop a n s) := by
  intro n
  induction n with
  | zero => intro s hs _; exact hs
  | succ n ih =>
    intro s hs hn
    simp only [ack_loop]
    rcases ack_body_window a s with ⟨h2, h1⟩ | ⟨h2, hws, hwe⟩
    · simp only [h2, Bool.false_eq_true, if_false, h1]
      exact hs
    · simp only [h2, if_true]
      apply ih
      · unfold WindowBound at hs ⊢
        omega
      · omega

theorem process_ack_bound (a : Nat) (s : Sender) (hs : WindowBound s) :
    WindowBound (process_ack a s) := by
  unfold process_ack
  apply ack_loop_window a _ s hs
  unfold WindowBound at hs
  omega

theorem on_readable_bound (rx : Received) (s : Sender) (hs : WindowBound s) :
    WindowBound (on_readable rx s) := by
  unfold on_readable
  by_cases hb : 0 < rx.bytes_recv
  · simp only [hb, if_true, true_and]
    split_ifs
    · exact process_ack_bound _ _ hs
    · exact hs
  · simp only [hb, if_false, false_and]
    exact hs

theorem retransmit_one_window (env : Env) (F : List Nat) (now : timeval) (s : Sender) (i : Nat) :
    (retransmit_one env F now s i).window_start = s.window_start ∧
      (retransmit_one env F now s i).window_end = s.window_end := by
  unfold retransmit_one
  dsimp only
  split_ifs <;> simp

theorem retransmit_loop_window (env : Env) (F : List Nat) (now : timeval) :
    ∀ (n i : Nat) (s : Sender),
      (retransmit_loop env F now n i s).window_start = s.window_start ∧
        (retransmit_loop env F now n i s).window_end = s.window_end := by
  intro n
  induction n with
  | zero => intro i s; exact ⟨rfl, rfl⟩
  | succ n ih =>
    intro i s
    simp only [retransmit_loop]
    have h1 := ih (i + 1) (retransmit_one env F now s i)
    have h2 := retransmit_one_window env F now s i
    exact ⟨h1.1.trans h2.1, h1.2.trans h2.2⟩

theorem on_timeout_bound (env : Env) (F : List Nat) (s : Sender) (hs : WindowBound s) :
    WindowBound (on_timeout env F s) := by
  have h := retransmit_loop_window env F (env.clock s.ticks) (s.window_end - s.window_start)
    s.window_start { s with ticks := s.ticks + 1 }
  unfold WindowBound at hs ⊢
  unfold on_timeout
  rw [h.1, h.2]
  exact hs

theorem send_step_bound (env : Env) (F : List Nat) (ev : Select) (s : Sender)
    (hs : WindowBound s) : WindowBound (send_step env F ev s) := by
  unfold send_step
  cases hst : s.stage with
  | transfer =>
    have h1 : WindowBound (match ev with
        | Select.readable rx => on_readable rx s
        | Select.timeout => on_timeout env F s
        | Select.failed => s) := by
      cases ev with
      | readable rx => exact on_readable_bound rx s hs
      | timeout => exact on_timeout_bound env F s hs
      | failed => exact hs
    dsimp only
    split_ifs
    · exact h1
    · exact fill_window_bound env F _ h1
  | await_ack =>
    dsimp only
    split_ifs
    · exact hs
    · exact hs
  | await_fin =>
    dsimp only
    unfold send_last
    dsimp only
    split_ifs <;> exact hs
  | returned => exact hs

theorem apply_bound (env : Env) (F : List Nat) (s : Sender) (op : SendOp)
    (hs : WindowBound s) : WindowBound (op.apply env F s) := by
  cases op with
  | fill_one =>
    simp only [SendOp.apply]
    split_ifs with hg
    · rcases fill_body_window env F s with ⟨_, hws, hwe⟩ | ⟨_, hws, hwe⟩ <;>
        (unfold WindowBound at hs ⊢; omega)
    · exact hs
  | ack_one a =>
    simp only [SendOp.apply]
    split_ifs with hg
    · rcases ack_body_window a s with ⟨_, h1⟩ | ⟨_, hws, hwe⟩
      · rw [h1]; exact hs
      · unfold WindowBound at hs ⊢; omega
    · exact hs
  | retransmit now i =>
    have h := retransmit_one_window env F now s i
    simp only [SendOp.apply]
    unfold WindowBound at hs ⊢
    rw [h.1, h.2]
    exact hs
  | fill => exact fill_window_bound env F s hs
  | ack a => exact process_ack_bound a s hs
  | readable rx => exact on_readable_bound rx s hs
  | timeout => exact on_timeout_bound env F s hs
  | step ev => exact send_step_bound env F ev s hs

theorem foldl_apply_bound (env : Env) (F : List Nat) (ops : List SendOp) :
    ∀ s : Sender, WindowBound s → WindowBound (ops.foldl (SendOp.apply env F) s) := by
  induction ops with
  | nil => intro s hs; exact hs
  | cons op rest ih =>
    intro s hs
    simp only [List.foldl_cons]
    exact ih _ (apply_bound env F s op hs)

/-- C3: in every state that `send_file` reaches in its loop, after any
interleaving of window-fill steps, ACK-processing steps with arbitrary
`ack_num` and timeout/retransmission steps (single loop passes or whole
loops, in any environment), `0 <= window_end - window_start <= 10`. -/
theorem send_file_window_bound (env : Env) (F : List Nat) (client_seq : Nat)
    (ops : List SendOp) :
    (0 : Int) ≤ ((send_run env F client_seq ops).window_end : Int)
        - (send_run env F client_seq ops).window_start ∧
      ((send_run env F client_seq ops).window_end : Int)
        - (send_run env F client_seq ops).window_start ≤ 10 := by
  have h : WindowBound (send_run env F client_seq ops) := by
    unfold send_run
    apply foldl_apply_bound
    unfold WindowBound send_init WINDOW_SIZE
    simp
  unfold WindowBound WINDOW_SIZE at h
  omega

/-! ### A transfer without loss -/

theorem getD_set_self_of_lt {α : Type} (l : List α) (i : Nat) (a d : α) (h : i < l.length) :
    (l.set i a).getD i d = a := by
  rw [List.getD_eq_getElem?_getD, List.getElem?_set_self h]
  rfl

theorem getD_set_of_ne {α : Type} (l : List α) (i j : Nat) (a d : α) (h : i ≠ j) :
    (l.set i a).getD j d = l.getD j d := by
  rw [List.getD_eq_getElem?_getD, List.getD_eq_getElem?_getD, List.getElem?_set_ne h]

theorem take_append_chunk (F : List Nat) (a b : Nat) :
    F.take a ++ (F.drop a).take b = F.take (a + ((F.drop a).take b).length) := by
  rw [List.take_add]
  congr 1
  rw [List.take_eq_take]
  simp

theorem chunk_length_le (F : List Nat) (a b : Nat) :
    ((F.drop a).take b).length ≤ b ∧ a + ((F.drop a).take b).length ≤ max a F.length := by
  simp only [List.length_take, List.length_drop]
  omega

theorem chunk_length_zero (F : List Nat) (a : Nat)
    (h : ((F.drop a).take MAX_DATA_SIZE).length = 0) : F.length ≤ a := by
  simp only [List.length_take, List.length_drop, MAX_DATA_SIZE] at h
  omega

theorem fill_body_eof (env : Env) (F : List Nat) (s : Sender)
    (h : (next_chunk F s).length = 0) :
    fill_body env F s = ({ s with bytes_read := 0 }, false) := by
  unfold next_chunk at h
  unfold fill_body
  simp [h]

theorem fill_body_send (env : Env) (F : List Nat) (s : Sender)
    (hok : env.sendto_ok s.sent.length = true) (h : 0 < (next_chunk F s).length) :
    fill_body env F s =
      ({ s with
          bytes_read := ((next_chunk F s).length : Int)
          packet := (next_frame F s).header
          sent := s.sent ++ [next_frame F s]
          window := s.window.set (s.window_end % WINDOW_SIZE)
            { seq_num := s.client_seq, data_len := (next_chunk F s).length,
              file_offset := s.file_pos, sent_time := env.clock s.ticks, retransmitted := 0 }
          ticks := s.ticks + 1
          client_seq := u32 (s.client_seq + ((next_chunk F s).length : Int))
          file_pos := s.file_pos + (next_chunk F s).length
          window_end := s.window_end + 1 }, true) := by
  unfold next_frame
  unfold next_chunk at h ⊢
  have h1 : ¬ (((List.take MAX_DATA_SIZE (List.drop s.file_pos F)).length : Int) ≤ 0) := by
    omega
  unfold fill_body
  simp only [h1, hok, if_false, Bool.not_true, Bool.false_eq_true]

theorem receive_step_arrive (server_seq : Nat) (r : Receiver) (d : Datagram)
    (hret : r.ret = none) (hfw : r.fin_wait = false)
    (hfin : d.header.flags &&& FIN_FLAG = 0) (hseq : d.header.seq_num = r.expected_seq)
    (hlen : d.payload.length ≤ MAX_DATA_SIZE)
    (hwrap : r.expected_seq + d.payload.length < 4294967296) :
    receive_step server_seq 0 r (arrive d) =
      { r with
        sink := r.sink ++ d.payload
        expected_seq := r.expected_seq + d.payload.length
        sent := r.sent ++ [data_ack server_seq (r.expected_seq + d.payload.length)] } := by
  have hkeep : is_packet_lost 0 (arrive d).random_val = false := by simp [is_packet_lost]
  have hrecv : 0 ≤ (arrive d).rx.bytes_recv := by
    simp only [arrive, Datagram.received]
    omega
  rw [receive_step_data server_seq 0 r (arrive d) hret hfw hrecv hfin hkeep,
    receive_data_next server_seq r (arrive d).rx hseq]
  simp only [MAX_DATA_SIZE] at hlen
  have hsz : size_t ((arrive d).rx.bytes_recv - (HEADER_SIZE : Nat)) = d.payload.length := by
    simp only [arrive, Datagram.received, HEADER_SIZE, size_t]
    omega
  have hu : u32 ((r.expected_seq : Int) + ((arrive d).rx.bytes_recv - (HEADER_SIZE : Nat)))
      = r.expected_seq + d.payload.length := by
    simp only [arrive, Datagram.received, HEADER_SIZE, u32]
    omega
  have hov : (r.overrun || decide (MAX_DATA_SIZE < d.payload.length)) = r.overrun := by
    have : ¬ (MAX_DATA_SIZE < d.payload.length) := by
      simp only [MAX_DATA_SIZE]
      omega
    simp [this]
  rw [hsz, hu, hov]
  have htake : List.take d.payload.length (arrive d).rx.data = d.payload := by
    simp [arrive, Datagram.received]
  rw [htake]

theorem fill_body_in_flight (env : Env) (F : List Nat) (base server_seq taken : Nat)
    (s : Sender) (r : Receiver) (hI : InFlight F base server_seq taken s r)
    (hwrap : base + F.length < 4294967296) (hok : env.sendto_ok s.sent.length = true)
    (hguard : s.window_end < s.window_start + WINDOW_SIZE)
    (hchunk : 0 < (next_chunk F s).length) :
    InFlight F base server_seq taken (fill_body env F s).1
      (receive_step server_seq 0 r (arrive (next_frame F s))) := by
  have hcl := chunk_length_le F s.file_pos MAX_DATA_SIZE
  have hpos := hI.pos
  have hcur := hI.cursor
  have hexp := hI.expected
  have hb := hI.bound
  have hq := hI.queue
  have hwl := hI.wlen
  unfold WindowBound at hb
  simp only [WINDOW_SIZE] at hguard hb hwl
  have hlen1 : (next_chunk F s).length ≤ MAX_DATA_SIZE := hcl.1
  have hlen2 : s.file_pos + (next_chunk F s).length ≤ F.length := by
    have := hcl.2
    unfold next_chunk
    omega
  have hu : u32 ((s.client_seq : Int) + ((next_chunk F s).length : Int))
      = s.client_seq + (next_chunk F s).length := by
    unfold u32
    omega
  rw [fill_body_send env F s hok hchunk,
    receive_step_arrive server_seq r (next_frame F s) hI.rret hI.rfin hI.flags hexp.symm hlen1
      (by rw [hexp, hcur]; show base + s.file_pos + (next_chunk F s).length < 4294967296; omega)]
  simp only [hu]
  have hpay : (next_frame F s).payload = next_chunk F s := rfl
  refine ⟨hI.stage, hI.sret, hI.rret, hI.rfin, hI.rover, hI.flags, ?_, ?_, hlen2, ?_, ?_, ?_, ?_, ?_⟩
  · show r.expected_seq + (next_frame F s).payload.length = s.client_seq + (next_chunk F s).length
    rw [hexp, hpay]
  · show s.client_seq + (next_chunk F s).length = base + (s.file_pos + (next_chunk F s).length)
    omega
  · show r.sink ++ (next_frame F s).payload = F.take (s.file_pos + (next_chunk F s).length)
    rw [hI.sink, hpay]
    exact take_append_chunk F s.file_pos MAX_DATA_SIZE
  · show (s.window.set _ _).length = WINDOW_SIZE
    rw [List.length_set]
    exact hI.wlen
  · show s.window_start ≤ s.window_end + 1 ∧ s.window_end + 1 ≤ s.window_start + WINDOW_SIZE
    simp only [WINDOW_SIZE]
    omega
  · show taken + (s.window_end + 1 - s.window_start) = (r.sent ++ [_]).length
    rw [List.length_append, List.length_singleton]
    omega
  · intro i (hi1 : s.window_start ≤ i) (hi2 : i < s.window_end + 1)
    have hslot_old : ∀ j, j < s.window_end → s.window_end < j + 10 →
        (s.window.set (s.window_end % WINDOW_SIZE)
          { seq_num := s.client_seq, data_len := (next_chunk F s).length,
            file_offset := s.file_pos, sent_time := env.clock s.ticks,
            retransmitted := 0 }).getD (j % WINDOW_SIZE) packet_info_zero = s.slot j := by
      intro j hj1 hj2
      unfold Sender.slot
      apply getD_set_of_ne
      simp only [WINDOW_SIZE]
      omega
    have hslot_new :
        (s.window.set (s.window_end % WINDOW_SIZE)
          { seq_num := s.client_seq, data_len := (next_chunk F s).length,
            file_offset := s.file_pos, sent_time := env.clock s.ticks,
            retransmitted := 0 }).getD (s.window_end % WINDOW_SIZE) packet_info_zero
          = { seq_num := s.client_seq, data_len := (next_chunk F s).length,
              file_offset := s.file_pos, sent_time := env.clock s.ticks,
              retransmitted := 0 } := by
      apply getD_set_self_of_lt
      simp only [WINDOW_SIZE]
      omega
    simp only [Sender.slot, packet_info.fin]
    by_cases hlast : i = s.window_end
    · subst hlast
      rw [hslot_new]
      refine ⟨hchunk, le_refl _, ?_, ?_⟩
      · have hidx : taken + (s.window_end - s.window_start) = r.sent.length := hq
        rw [hidx, List.getElem?_concat_length, hexp, hpay]
      · intro (h : s.window_end + 1 < s.window_end + 1)
        omega
    · have hlt : i < s.window_end := by omega
      obtain ⟨h1, h2, h3, h4⟩ := hI.slot i hi1 hlt
      simp only [packet_info.fin] at h1 h2 h3 h4
      rw [hslot_old i hlt (by omega)]
      refine ⟨h1, ?_, ?_, ?_⟩
      · show (s.slot i).seq_num + (s.slot i).data_len ≤ s.client_seq + (next_chunk F s).length
        omega
      · rw [List.getElem?_append_left (by omega)]
        exact h3
      · intro (hnext : i + 1 < s.window_end + 1)
        by_cases hn : i + 1 = s.window_end
        · rw [hn, hslot_new]
          show (s.slot i).seq_num + (s.slot i).data_len < s.client_seq + (next_chunk F s).length
          omega
        · rw [hslot_old (i + 1) (by omega) (by omega)]
          exact h4 (by omega)

theorem in_flight_bytes_read (F : List Nat) (base server_seq taken : Nat) (s : Sender)
    (r : Receiver) (b : Int) (hI : InFlight F base server_seq taken s r) :
    InFlight F base server_seq taken { s with bytes_read := b } r :=
  ⟨hI.stage, hI.sret, hI.rret, hI.rfin, hI.rover, hI.flags, hI.expected, hI.cursor, hI.pos,
    hI.sink, hI.wlen, hI.bound, hI.queue, hI.slot⟩

theorem fill_loop_deliver (env : Env) (F : List Nat) (base server_seq taken : Nat)
    (hwrap : base + F.length < 4294967296) (hok : ∀ k, env.sendto_ok k = true) :
    ∀ (n : Nat) (s : Sender) (r : Receiver), InFlight F base server_seq taken s r →
      n + s.window_end = s.window_start + WINDOW_SIZE →
      (n = 0 → s.bytes_read ≤ 0 → F.length ≤ s.file_pos) →
      ∃ frames : List Datagram,
        (fill_loop env F n s).sent = s.sent ++ frames ∧
        InFlight F base server_seq taken (fill_loop env F n s)
          (receive_loop server_seq 0 r (frames.map arrive)) ∧
        Filled F (fill_loop env F n s) ∧
        (fill_loop env F n s).window_start = s.window_start ∧
        s.window_end ≤ (fill_loop env F n s).window_end ∧
        (F.length - (fill_loop env F n s).file_pos) + (fill_loop env F n s).window_end
          ≤ (F.length - s.file_pos) + s.window_end ∧
        (0 < n → s.file_pos < F.length → s.window_end < (fill_loop env F n s).window_end) := by
  intro n
  induction n with
  | zero =>
    intro s r hI hn heof
    refine ⟨[], by simp [fill_loop], ?_, ?_, rfl, le_refl _, le_refl _, ?_⟩
    · simpa [fill_loop, receive_loop] using hI
    · refine ⟨Or.inl ?_, heof rfl⟩
      show s.window_end = s.window_start + WINDOW_SIZE
      omega
    · intro h
      omega
  | succ n ih =>
    intro s r hI hn _
    simp only [fill_loop]
    by_cases hz : (next_chunk F s).length = 0
    · rw [fill_body_eof env F s hz]
      have hlen : F.length ≤ s.file_pos := chunk_length_zero F s.file_pos hz
      refine ⟨[], by simp, ?_, ?_, rfl, le_refl _, le_refl _, ?_⟩
      · simpa [receive_loop] using in_flight_bytes_read F base server_seq taken s r 0 hI
      · exact ⟨Or.inr (le_refl _), fun _ => hlen⟩
      · intro _ hlt
        omega
    · have hpos : 0 < (next_chunk F s).length := Nat.pos_of_ne_zero hz
      have hb := fill_body_send env F s (hok _) hpos
      have hI1 := fill_body_in_flight env F base server_seq taken s r hI hwrap (hok _)
        (by omega) hpos
      have h2 : (fill_body env F s).2 = true := by rw [hb]
      have hsent : (fill_body env F s).1.sent = s.sent ++ [next_frame F s] := by rw [hb]
      have hws : (fill_body env F s).1.window_start = s.window_start := by rw [hb]
      have hwe : (fill_body env F s).1.window_end = s.window_end + 1 := by rw [hb]
      have hfp : (fill_body env F s).1.file_pos = s.file_pos + (next_chunk F s).length := by
        rw [hb]
      have hbr : (fill_body env F s).1.bytes_read = ((next_chunk F s).length : Int) := by
        rw [hb]
      have hcl := chunk_length_le F s.file_pos MAX_DATA_SIZE
      have hfit : s.file_pos + (next_chunk F s).length ≤ F.length := by
        have := hI.pos
        have := hcl.2
        unfold next_chunk
        omega
      simp only [h2, if_true]
      obtain ⟨frames, hf1, hf2, hf3, hf4, hf5, hf6, _⟩ :=
        ih (fill_body env F s).1 (receive_step server_seq 0 r (arrive (next_frame F s))) hI1
          (by omega) (by intro _ h; rw [hbr] at h; omega)
      refine ⟨next_frame F s :: frames, ?_, ?_, hf3, ?_, ?_, ?_, ?_⟩
      · rw [hf1, hsent]
        simp
      · simpa [receive_loop] using hf2
      · rw [hf4, hws]
      · omega
      · omega
      · intro _ _
        omega

theorem u32_add_of_lt (a b : Nat) (h : a + b < 4294967296) : u32 ((a : Int) + (b : Int)) = a + b := by
  unfold u32
  omega

theorem ack_body_pop (a : Nat) (s : Sender)
    (h : (s.slot s.window_start).fin ≤ a) (hlt : (s.slot s.window_start).fin < 4294967296) :
    ack_body a s = ({ s with window_start := s.window_start + 1 }, true) := by
  unfold packet_info.fin at h hlt
  unfold ack_body
  rw [u32_add_of_lt _ _ hlt]
  simp [h]

theorem ack_body_stop (a : Nat) (s : Sender)
    (h : a < (s.slot s.window_start).fin) (hlt : (s.slot s.window_start).fin < 4294967296) :
    ack_body a s = (s, false) := by
  unfold packet_info.fin at h hlt
  unfold ack_body
  rw [u32_add_of_lt _ _ hlt]
  have : ¬ ((s.slot s.window_start).seq_num + (s.slot s.window_start).data_len ≤ a) := by omega
  simp [this]

theorem process_ack_head (a : Nat) (s : Sender) (hne : s.window_start < s.window_end)
    (h0 : (s.slot s.window_start).fin = a) (hlt : a < 4294967296)
    (hnext : s.window_start + 1 < s.window_end →
      a < (s.slot (s.window_start + 1)).fin ∧ (s.slot (s.window_start + 1)).fin < 4294967296) :
    process_ack a s = { s with window_start := s.window_start + 1 } := by
  obtain ⟨k, hk⟩ : ∃ k, s.window_end - s.window_start = k + 1 :=
    ⟨s.window_end - s.window_start - 1, by omega⟩
  unfold process_ack
  rw [hk]
  simp only [ack_loop]
  rw [ack_body_pop a s (le_of_eq h0) (by rw [h0]; exact hlt)]
  simp only [if_true]
  cases k with
  | zero => rfl
  | succ k =>
    simp only [ack_loop]
    have hn := hnext (by omega)
    rw [ack_body_stop a { s with window_start := s.window_start + 1 } hn.1 hn.2]
    simp

theorem on_readable_head (F : List Nat) (base server_seq taken : Nat) (s : Sender)
    (r : Receiver) (hI : InFlight F base server_seq taken s r)
    (hwrap : base + F.length < 4294967296) (hne : s.window_start < s.window_end) :
    on_readable (control_frame (data_ack server_seq (s.slot s.window_start).fin)) s
      = { s with packet := data_ack server_seq (s.slot s.window_start).fin,
                 window_start := s.window_start + 1 } := by
  have hpos := hI.pos
  have hcur := hI.cursor
  obtain ⟨_, h2, _, h4⟩ := hI.slot s.window_start (le_refl _) hne
  have hrecv : (0 : Int) <
      (control_frame (data_ack server_seq (s.slot s.window_start).fin)).bytes_recv := by
    simp [control_frame, Datagram.received, HEADER_SIZE]
  have hflag : (data_ack server_seq (s.slot s.window_start).fin).flags &&& ACK_FLAG ≠ 0 := by
    simp [data_ack, ACK_FLAG]
  have hhdr : (control_frame (data_ack server_seq (s.slot s.window_start).fin)).header
      = data_ack server_seq (s.slot s.window_start).fin := rfl
  unfold on_readable
  simp only [hrecv, if_true, hhdr, hflag, ne_eq, not_false_eq_true, and_self]
  exact process_ack_head (s.slot s.window_start).fin
    { s with packet := data_ack server_seq (s.slot s.window_start).fin } hne rfl (by omega)
    (fun hlt => by
      obtain ⟨_, h2', _, _⟩ := hI.slot (s.window_start + 1) (by omega) hlt
      exact ⟨h4 hlt, by
        show (s.slot (s.window_start + 1)).fin < 4294967296
        omega⟩)

theorem sender_turn_of_head (env : Env) (F : List Nat) (t : Transfer) (h : sham_header)
    (hh : t.rcv.sent[t.taken]? = some h) :
    sender_turn env F t =
      { t with snd := send_step env F (Select.readable (control_frame h)) t.snd,
               taken := t.taken + 1 } := by
  unfold sender_turn
  cases hd : t.rcv.sent.drop t.taken with
  | nil =>
    have := List.getElem?_drop t.rcv.sent t.taken 0
    rw [hd] at this
    simp [hh] at this
  | cons x rest =>
    have := List.getElem?_drop t.rcv.sent t.taken 0
    rw [hd] at this
    simp only [List.getElem?_cons_zero, Nat.add_zero, hh, Option.some.injEq] at this
    rw [this]

theorem deliver_all_append (server_seq : Nat) (t : Transfer) (old frames : List Datagram)
    (hs : t.snd.sent = old ++ frames) (hd : t.delivered = old.length) :
    deliver_all server_seq t =
      { t with rcv := receive_loop server_seq 0 t.rcv (frames.map arrive),
               delivered := t.snd.sent.length } := by
  unfold deliver_all
  rw [hs, hd, List.drop_left]

theorem pop_in_flight (F : List Nat) (base server_seq taken : Nat) (s : Sender) (r : Receiver)
    (hI : InFlight F base server_seq taken s r) (hne : s.window_start < s.window_end) :
    InFlight F base server_seq (taken + 1)
      { s with packet := data_ack server_seq (s.slot s.window_start).fin,
               window_start := s.window_start + 1 } r := by
  have hb := hI.bound
  have hq := hI.queue
  unfold WindowBound at hb
  refine ⟨hI.stage, hI.sret, hI.rret, hI.rfin, hI.rover, ?_, hI.expected, hI.cursor, hI.pos,
    hI.sink, hI.wlen, ?_, ?_, ?_⟩
  · show (data_ack server_seq (s.slot s.window_start).fin).flags &&& FIN_FLAG = 0
    simp only [data_ack, ACK_FLAG, FIN_FLAG]
    decide
  · show s.window_start + 1 ≤ s.window_end ∧ s.window_end ≤ s.window_start + 1 + WINDOW_SIZE
    omega
  · show taken + 1 + (s.window_end - (s.window_start + 1)) = r.sent.length
    omega
  · intro i (hi1 : s.window_start + 1 ≤ i) (hi2 : i < s.window_end)
    obtain ⟨h1, h2, h3, h4⟩ := hI.slot i (by omega) hi2
    refine ⟨h1, h2, ?_, h4⟩
    show r.sent[taken + 1 + (i - (s.window_start + 1))]? = _
    have : taken + 1 + (i - (s.window_start + 1)) = taken + (i - s.window_start) := by omega
    rw [this]
    exact h3

/-- The measure that decreases with every turn of the opener: bytes not yet
read plus records in flight. -/
theorem flowing_round (env : Env) (F : List Nat) (base server_seq : Nat) (t : Transfer)
    (hwrap : base + F.length < 4294967296) (hok : ∀ k, env.sendto_ok k = true)
    (hFl : Flowing F base server_seq t)
    (hmore : t.snd.window_start + 1 < t.snd.window_end) :
    Flowing F base server_seq (transfer_round env F server_seq t) ∧
      (F.length - (transfer_round env F server_seq t).snd.file_pos)
          + ((transfer_round env F server_seq t).snd.window_end
              - (transfer_round env F server_seq t).snd.window_start)
        < (F.length - t.snd.file_pos) + (t.snd.window_end - t.snd.window_start) := by
  have hI := hFl.inv
  have hb := hI.bound
  unfold WindowBound at hb
  obtain ⟨_, _, hack, _⟩ := hI.slot t.snd.window_start (le_refl _) hFl.nonempty
  simp only [Nat.sub_self, Nat.add_zero] at hack
  have hpop := on_readable_head F base server_seq t.taken t.snd t.rcv hI hwrap hFl.nonempty
  have hI1 := pop_in_flight F base server_seq t.taken t.snd t.rcv hI hFl.nonempty
  have hstep : send_step env F
      (Select.readable (control_frame (data_ack server_seq (t.snd.slot t.snd.window_start).fin)))
      t.snd
      = fill_window env F
          { t.snd with packet := data_ack server_seq (t.snd.slot t.snd.window_start).fin,
                       window_start := t.snd.window_start + 1 } := by
    unfold send_step
    rw [hI.stage]
    simp only [hpop]
    have : ¬ (t.snd.window_start + 1 = t.snd.window_end) := by omega
    simp [this]
  obtain ⟨frames, hf1, hf2, hf3, hf4, hf5, hf6, _⟩ :=
    fill_loop_deliver env F base server_seq (t.taken + 1) hwrap hok
      (t.snd.window_start + 1 + WINDOW_SIZE - t.snd.window_end)
      { t.snd with packet := data_ack server_seq (t.snd.slot t.snd.window_start).fin,
                   window_start := t.snd.window_start + 1 }
      t.rcv hI1
      (by
        show t.snd.window_start + 1 + WINDOW_SIZE - t.snd.window_end + t.snd.window_end
          = t.snd.window_start + 1 + WINDOW_SIZE
        omega)
      (by
        intro h0
        simp only [WINDOW_SIZE] at h0 hb
        omega)
  have hfw : fill_window env F
      { t.snd with packet := data_ack server_seq (t.snd.slot t.snd.window_start).fin,
                   window_start := t.snd.window_start + 1 }
      = fill_loop env F (t.snd.window_start + 1 + WINDOW_SIZE - t.snd.window_end)
          { t.snd with packet := data_ack server_seq (t.snd.slot t.snd.window_start).fin,
                       window_start := t.snd.window_start + 1 } := rfl
  rw [← hfw] at hf1 hf2 hf3 hf4 hf5 hf6
  have hround : transfer_round env F server_seq t =
      { snd := fill_window env F
          { t.snd with packet := data_ack server_seq (t.snd.slot t.snd.window_start).fin,
                       window_start := t.snd.window_start + 1 },
        rcv := receive_loop server_seq 0 t.rcv (frames.map arrive),
        delivered := (fill_window env F
          { t.snd with packet := data_ack server_seq (t.snd.slot t.snd.window_start).fin,
                       window_start := t.snd.window_start + 1 }).sent.length,
        taken := t.taken + 1 } := by
    unfold transfer_round
    rw [sender_turn_of_head env F t _ hack, hstep]
    exact deliver_all_append server_seq
      { t with snd := fill_window env F
                 { t.snd with packet := data_ack server_seq (t.snd.slot t.snd.window_start).fin,
                              window_start := t.snd.window_start + 1 },
               taken := t.taken + 1 }
      t.snd.sent frames hf1 hFl.delivered
  rw [hround]
  refine ⟨⟨hf2, hf3, ?_, rfl⟩, ?_⟩
  · show (fill_window env F _).window_start < (fill_window env F _).window_end
    rw [hf4]
    have : t.snd.window_end ≤ (fill_window env F
      { t.snd with packet := data_ack server_seq (t.snd.slot t.snd.window_start).fin,
                   window_start := t.snd.window_start + 1 }).window_end := hf5
    show t.snd.window_start + 1 < _
    omega
  · show (F.length - (fill_window env F _).file_pos)
        + ((fill_window env F _).window_end - (fill_window env F _).window_start) < _
    rw [hf4]
    have h5 : t.snd.window_end ≤ (fill_window env F
      { t.snd with packet := data_ack server_seq (t.snd.slot t.snd.window_start).fin,
                   window_start := t.snd.window_start + 1 }).window_end := hf5
    have h6 : (F.length - (fill_window env F
      { t.snd with packet := data_ack server_seq (t.snd.slot t.snd.window_start).fin,
                   window_start := t.snd.window_start + 1 }).file_pos) + (fill_window env F
      { t.snd with packet := data_ack server_seq (t.snd.slot t.snd.window_start).fin,
                   window_start := t.snd.window_start + 1 }).window_end
        ≤ (F.length - t.snd.file_pos) + t.snd.window_end := hf6
    show (F.length - (fill_window env F _).file_pos)
        + ((fill_window env F _).window_end - (t.snd.window_start + 1)) < _
    omega

theorem closing_rounds (env : Env) (F : List Nat) (server_seq : Nat) (t : Transfer)
    (a f : sham_header) (hf : f.flags = FIN_FLAG)
    (hstage : t.snd.stage = Stage.await_ack)
    (hret : t.rcv.ret = none) (hwait : t.rcv.fin_wait = true)
    (hdrop : t.rcv.sent.drop t.taken = [a, f])
    (hdel : t.delivered = t.snd.sent.length) :
    (transfer_round env F server_seq (transfer_round env F server_seq t)).snd.ret = some 0 ∧
      (transfer_round env F server_seq (transfer_round env F server_seq t)).rcv.ret = some 0 ∧
      (transfer_round env F server_seq (transfer_round env F server_seq t)).rcv.sink
        = t.rcv.sink := by
  have h1 : transfer_round env F server_seq t =
      { snd := { t.snd with packet := a, stage := Stage.await_fin },
        rcv := t.rcv, delivered := t.snd.sent.length, taken := t.taken + 1 } := by
    unfold transfer_round sender_turn
    rw [hdrop]
    simp only [send_step, hstage, Select.received, control_frame, Datagram.received,
      HEADER_SIZE, List.length_nil, Nat.add_zero, Nat.cast_ofNat]
    simp only [deliver_all, hdel, List.drop_length, List.map_nil, receive_loop, show (0 : Int) < 12 by decide, if_true]
  have hdrop1 : t.rcv.sent.drop (t.taken + 1) = [f] := by
    rw [← List.drop_drop, hdrop]
    rfl
  rw [h1]
  unfold transfer_round sender_turn
  simp only [hdrop1]
  simp only [send_step, send_last, Select.received, control_frame, Datagram.received,
    HEADER_SIZE, List.length_nil, Nat.add_zero, Nat.cast_ofNat, show (0 : Int) < 12 by decide,
    if_true, hf, FIN_FLAG, true_and]
  simp only [show ((4 : Nat) &&& 4 ≠ 0) = True by decide, if_true]
  simp only [deliver_all, List.drop_left, List.map_cons, List.map_nil, receive_loop,
    receive_step, hret, hwait, Option.isSome_none, if_true, Bool.false_eq_true, if_false]
  exact ⟨trivial, trivial, trivial⟩

theorem last_ack_round (env : Env) (F : List Nat) (base server_seq : Nat) (t : Transfer)
    (hwrap : base + F.length < 4294967296)
    (hFl : Flowing F base server_seq t)
    (hlast : t.snd.window_end = t.snd.window_start + 1) :
    ∃ a f : sham_header, f.flags = FIN_FLAG ∧
      (transfer_round env F server_seq t).snd.stage = Stage.await_ack ∧
      (transfer_round env F server_seq t).rcv.ret = none ∧
      (transfer_round env F server_seq t).rcv.fin_wait = true ∧
      (transfer_round env F server_seq t).rcv.sent.drop (transfer_round env F server_seq t).taken
        = [a, f] ∧
      (transfer_round env F server_seq t).delivered
        = (transfer_round env F server_seq t).snd.sent.length ∧
      (transfer_round env F server_seq t).rcv.sink = F := by
  have hI := hFl.inv
  obtain ⟨_, _, hack, _⟩ := hI.slot t.snd.window_start (le_refl _) hFl.nonempty
  simp only [Nat.sub_self, Nat.add_zero] at hack
  have hpop := on_readable_head F base server_seq t.taken t.snd t.rcv hI hwrap hFl.nonempty
  have hbr : t.snd.bytes_read ≤ 0 := by
    rcases hFl.filled.1 with h | h
    · simp only [WINDOW_SIZE] at h
      omega
    · exact h
  have hsink : t.rcv.sink = F := by
    rw [hI.sink]
    exact List.take_of_length_le (hFl.filled.2 hbr)
  have hq : t.rcv.sent.length = t.taken + 1 := by
    have := hI.queue
    omega
  have hstep : send_step env F
      (Select.readable (control_frame (data_ack server_seq (t.snd.slot t.snd.window_start).fin)))
      t.snd
      = send_fin
          { t.snd with packet := data_ack server_seq (t.snd.slot t.snd.window_start).fin,
                       window_start := t.snd.window_start + 1 } := by
    unfold send_step
    rw [hI.stage]
    simp only [hpop]
    simp [hlast, hbr]
  have hround : transfer_round env F server_seq t =
      { snd := send_fin
          { t.snd with packet := data_ack server_seq (t.snd.slot t.snd.window_start).fin,
                       window_start := t.snd.window_start + 1 },
        rcv := receive_fin server_seq t.rcv
          (Datagram.received
            { header := { seq_num := t.snd.client_seq, ack_num := 0, flags := FIN_FLAG,
                          window_size := BUFFER_SIZE },
              payload := [] }),
        delivered := t.snd.sent.length + 1,
        taken := t.taken + 1 } := by
    unfold transfer_round
    rw [sender_turn_of_head env F t _ hack, hstep]
    rw [deliver_all_append server_seq
      { t with snd := send_fin
                 { t.snd with packet := data_ack server_seq (t.snd.slot t.snd.window_start).fin,
                              window_start := t.snd.window_start + 1 },
               taken := t.taken + 1 }
      t.snd.sent
      [{ header := { seq_num := t.snd.client_seq, ack_num := 0, flags := FIN_FLAG,
                     window_size := BUFFER_SIZE },
         payload := [] }] rfl hFl.delivered]
    simp only [List.map_cons, List.map_nil, receive_loop, receive_step, arrive, hI.rret,
      hI.rfin, Option.isSome_none, Bool.false_eq_true, if_false, Datagram.received,
      HEADER_SIZE, List.length_nil, Nat.add_zero, Nat.cast_ofNat, FIN_FLAG, send_fin,
      List.length_append, List.length_singleton]
    simp only [show ¬ ((12 : Int) < 0) by decide, show ((4 : Nat) &&& 4 ≠ 0) = True by decide,
      if_true, if_false]
  rw [hround]
  refine ⟨{ seq_num := server_seq, ack_num := u32 ((t.snd.client_seq : Int) + 1),
            flags := ACK_FLAG, window_size := BUFFER_SIZE },
          { seq_num := server_seq, ack_num := u32 ((t.snd.client_seq : Int) + 1),
            flags := FIN_FLAG, window_size := BUFFER_SIZE },
          rfl, rfl, hI.rret, rfl, ?_, ?_, hsink⟩
  · exact List.drop_left' hq
  · simp [send_fin]

theorem transfer_start (env : Env) (F : List Nat) (r server_seq : Nat)
    (hwrap : generate_initial_seq r + 1 + F.length < 4294967296)
    (hok : ∀ k, env.sendto_ok k = true) (hF : F ≠ []) :
    Flowing F (generate_initial_seq r + 1) server_seq (transfer env F r server_seq 0) := by
  have hlen : 0 < F.length := List.length_pos.mpr hF
  have hI0 : InFlight F (generate_initial_seq r + 1) server_seq 0
      (send_init (generate_initial_seq r + 1)) (receive_init (generate_initial_seq r)) := by
    refine ⟨rfl, rfl, rfl, rfl, rfl, ?_, ?_, rfl, Nat.zero_le _, rfl, ?_, ?_, rfl, ?_⟩
    · simp [send_init]
    · exact u32_initial_seq_succ r
    · simp [send_init]
    · simp [WindowBound, send_init]
    · intro i (hi1 : 0 ≤ i) (hi2 : i < 0)
      omega
  obtain ⟨frames, hf1, hf2, hf3, hf4, _, _, hf7⟩ :=
    fill_loop_deliver env F (generate_initial_seq r + 1) server_seq 0 hwrap hok WINDOW_SIZE
      (send_init (generate_initial_seq r + 1)) (receive_init (generate_initial_seq r)) hI0
      (by simp [send_init]) (by simp [WINDOW_SIZE])
  have hfw : fill_window env F (send_init (generate_initial_seq r + 1))
      = fill_loop env F WINDOW_SIZE (send_init (generate_initial_seq r + 1)) := rfl
  rw [← hfw] at hf1 hf2 hf3 hf4 hf7
  have hstart : send_start env F (generate_initial_seq r + 1) true
      = fill_window env F (send_init (generate_initial_seq r + 1)) := by
    unfold send_start
    have : F.length ≠ 0 := by omega
    simp [this]
  have h0 : transfer env F r server_seq 0 =
      { snd := fill_window env F (send_init (generate_initial_seq r + 1)),
        rcv := receive_loop server_seq 0 (receive_init (generate_initial_seq r))
                 (frames.map arrive),
        delivered := (fill_window env F (send_init (generate_initial_seq r + 1))).sent.length,
        taken := 0 } := by
    unfold transfer
    rw [hstart]
    exact deliver_all_append server_seq
      { snd := fill_window env F (send_init (generate_initial_seq r + 1)),
        rcv := receive_file true (generate_initial_seq r) server_seq 0 [],
        delivered := 0, taken := 0 }
      [] frames hf1 rfl
  rw [h0]
  refine ⟨hf2, hf3, ?_, rfl⟩
  show (fill_window env F _).window_start < (fill_window env F _).window_end
  rw [hf4]
  exact hf7 (by simp [WINDOW_SIZE]) hlen

theorem flowing_completes (env : Env) (F : List Nat) (r server_seq : Nat)
    (hwrap : generate_initial_seq r + 1 + F.length < 4294967296)
    (hok : ∀ k, env.sendto_ok k = true) :
    ∀ (m n : Nat),
      Flowing F (generate_initial_seq r + 1) server_seq (transfer env F r server_seq n) →
      (F.length - (transfer env F r server_seq n).snd.file_pos)
        + ((transfer env F r server_seq n).snd.window_end
            - (transfer env F r server_seq n).snd.window_start) ≤ m →
      ∃ k, (transfer env F r server_seq k).rcv.sink = F ∧
        (transfer env F r server_seq k).snd.ret = some 0 ∧
        (transfer env F r server_seq k).rcv.ret = some 0 := by
  intro m
  induction m with
  | zero =>
    intro n hFl hm
    have := hFl.nonempty
    omega
  | succ m ih =>
    intro n hFl hm
    have hne := hFl.nonempty
    by_cases hlast : (transfer env F r server_seq n).snd.window_end
        = (transfer env F r server_seq n).snd.window_start + 1
    · obtain ⟨a, f, hf, h1, h2, h3, h4, h5, h6⟩ :=
        last_ack_round env F (generate_initial_seq r + 1) server_seq
          (transfer env F r server_seq n) hwrap hFl hlast
      obtain ⟨c1, c2, c3⟩ :=
        closing_rounds env F server_seq
          (transfer_round env F server_seq (transfer env F r server_seq n)) a f hf h1 h2 h3 h4 h5
      exact ⟨n + 3, c3.trans h6, c1, c2⟩
    · have hmore : (transfer env F r server_seq n).snd.window_start + 1
          < (transfer env F r server_seq n).snd.window_end := by omega
      obtain ⟨hFl1, hlt⟩ :=
        flowing_round env F (generate_initial_seq r + 1) server_seq
          (transfer env F r server_seq n) hwrap hok hFl hmore
      exact ih (n + 1) hFl1 (by
        show (F.length - (transfer_round env F server_seq (transfer env F r server_seq n)).snd.file_pos)
          + ((transfer_round env F server_seq (transfer env F r server_seq n)).snd.window_end
              - (transfer_round env F server_seq (transfer env F r server_seq n)).snd.window_start)
          ≤ m
        omega)

/-! ### A transfer without loss, sequence numbers modulo 2^32 -/

theorem receive_step_arrive_mod (server_seq : Nat) (r : Receiver) (d : Datagram)
    (hret : r.ret = none) (hfw : r.fin_wait = false)
    (hfin : d.header.flags &&& FIN_FLAG = 0) (hseq : d.header.seq_num = r.expected_seq)
    (hlen : d.payload.length ≤ MAX_DATA_SIZE) :
    receive_step server_seq 0 r (arrive d) =
      { r with
        sink := r.sink ++ d.payload
        overrun := r.overrun
        expected_seq := u32 ((r.expected_seq : Int) + (d.payload.length : Int))
        sent := r.sent ++
          [data_ack server_seq (u32 ((r.expected_seq : Int) + (d.payload.length : Int)))] } := by
  have hkeep : is_packet_lost 0 (arrive d).random_val = false := by simp [is_packet_lost]
  have hrecv : 0 ≤ (arrive d).rx.bytes_recv := by
    simp only [arrive, Datagram.received]
    omega
  rw [receive_step_data server_seq 0 r (arrive d) hret hfw hrecv hfin hkeep,
    receive_data_next server_seq r (arrive d).rx hseq]
  simp only [MAX_DATA_SIZE] at hlen
  have hsz : size_t ((arrive d).rx.bytes_recv - (HEADER_SIZE : Nat)) = d.payload.length := by
    simp only [arrive, Datagram.received, HEADER_SIZE, size_t]
    omega
  have hu : (r.expected_seq : Int) + ((arrive d).rx.bytes_recv - (HEADER_SIZE : Nat))
      = (r.expected_seq : Int) + (d.payload.length : Int) := by
    simp only [arrive, Datagram.received, HEADER_SIZE]
    omega
  have hov : (r.overrun || decide (MAX_DATA_SIZE < d.payload.length)) = r.overrun := by
    have : ¬ (MAX_DATA_SIZE < d.payload.length) := by
      simp only [MAX_DATA_SIZE]
      omega
    simp [this]
  rw [hsz, hu, hov]
  have htake : List.take d.payload.length (arrive d).rx.data = d.payload := by
    simp [arrive, Datagram.received]
  rw [htake]

theorem fill_body_streaming (env : Env) (F : List Nat) (server_seq off : Nat)
    (s : Sender) (r : Receiver) (hI : Streaming F server_seq off s r)
    (hok : env.sendto_ok s.sent.length = true)
    (hguard : s.window_end < s.window_start + WINDOW_SIZE)
    (hchunk : 0 < (next_chunk F s).length) :
    Streaming F server_seq off (fill_body env F s).1
      (receive_step server_seq 0 r (arrive (next_frame F s))) := by
  have hcl := chunk_length_le F s.file_pos MAX_DATA_SIZE
  have hpos := hI.pos
  have hexp := hI.expected
  have hb := hI.bound
  have hq := hI.queue
  have hwl := hI.wlen
  unfold WindowBound at hb
  simp only [WINDOW_SIZE] at hguard hb hwl
  have hlen1 : (next_chunk F s).length ≤ MAX_DATA_SIZE := hcl.1
  have hlen2 : s.file_pos + (next_chunk F s).length ≤ F.length := by
    have := hcl.2
    unfold next_chunk
    omega
  rw [fill_body_send env F s hok hchunk,
    receive_step_arrive_mod server_seq r (next_frame F s) hI.rret hI.rfin hI.flags hexp.symm hlen1]
  have hpay : (next_frame F s).payload = next_chunk F s := rfl
  refine ⟨hI.stage, hI.rret, hI.rfin, hI.flags, ?_, hlen2, ?_, ?_, ?_, ?_, ?_, ?_⟩
  · show u32 ((r.expected_seq : Int) + ((next_frame F s).payload.length : Int))
      = u32 ((s.client_seq : Int) + ((next_chunk F s).length : Int))
    rw [hexp, hpay]
  · show r.sink ++ (next_frame F s).payload = F.take (s.file_pos + (next_chunk F s).length)
    rw [hI.sink, hpay]
    exact take_append_chunk F s.file_pos MAX_DATA_SIZE
  · show (s.window.set _ _).length = WINDOW_SIZE
    rw [List.length_set]
    exact hI.wlen
  · show s.window_start ≤ s.window_end + 1 ∧ s.window_end + 1 ≤ s.window_start + WINDOW_SIZE
    simp only [WINDOW_SIZE]
    omega
  · intro h (hh : h ∈ r.sent ++ [_])
    rcases List.mem_append.mp hh with h1 | h1
    · exact hI.acks h h1
    · rw [List.mem_singleton.mp h1]
      rfl
  · show off + (s.window_end + 1 - s.window_start) = (r.sent ++ [_]).length
    rw [List.length_append, List.length_singleton]
    omega
  · intro i (hi1 : s.window_start ≤ i) (hi2 : i < s.window_end + 1)
    have hslot_old : ∀ j, j < s.window_end → s.window_end < j + 10 →
        (s.window.set (s.window_end % WINDOW_SIZE)
          { seq_num := s.client_seq, data_len := (next_chunk F s).length,
            file_offset := s.file_pos, sent_time := env.clock s.ticks,
            retransmitted := 0 }).getD (j % WINDOW_SIZE) packet_info_zero = s.slot j := by
      intro j hj1 hj2
      unfold Sender.slot
      apply getD_set_of_ne
      simp only [WINDOW_SIZE]
      omega
    have hslot_new :
        (s.window.set (s.window_end % WINDOW_SIZE)
          { seq_num := s.client_seq, data_len := (next_chunk F s).length,
            file_offset := s.file_pos, sent_time := env.clock s.ticks,
            retransmitted := 0 }).getD (s.window_end % WINDOW_SIZE) packet_info_zero
          = { seq_num := s.client_seq, data_len := (next_chunk F s).length,
              file_offset := s.file_pos, sent_time := env.clock s.ticks,
              retransmitted := 0 } := by
      apply getD_set_self_of_lt
      simp only [WINDOW_SIZE]
      omega
    simp only [Sender.slot]
    by_cases hlast : i = s.window_end
    · subst hlast
      rw [hslot_new]
      have hidx : off + (s.window_end - s.window_start) = r.sent.length := hq
      rw [hidx, List.getElem?_concat_length, hexp, hpay]
    · have hlt : i < s.window_end := by omega
      have h3 := hI.slot i hi1 hlt
      rw [hslot_old i hlt (by omega)]
      rw [List.getElem?_append_left (by omega)]
      exact h3

theorem streaming_bytes_read (F : List Nat) (server_seq off : Nat) (s : Sender)
    (r : Receiver) (b : Int) (hI : Streaming F server_seq off s r) :
    Streaming F server_seq off { s with bytes_read := b } r :=
  ⟨hI.stage, hI.rret, hI.rfin, hI.flags, hI.expected, hI.pos, hI.sink, hI.wlen, hI.bound,
    hI.acks, hI.queue, hI.slot⟩

theorem fill_loop_streaming (env : Env) (F : List Nat) (server_seq off : Nat)
    (hok : ∀ k, env.sendto_ok k = true) :
    ∀ (n : Nat) (s : Sender) (r : Receiver), Streaming F server_seq off s r →
      n + s.window_end = s.window_start + WINDOW_SIZE →
      (n = 0 → s.bytes_read ≤ 0 → F.length ≤ s.file_pos) →
      ∃ frames : List Datagram,
        (fill_loop env F n s).sent = s.sent ++ frames ∧
        Streaming F server_seq off (fill_loop env F n s)
          (receive_loop server_seq 0 r (frames.map arrive)) ∧
        Filled F (fill_loop env F n s) ∧
        (receive_loop server_seq 0 r (frames.map arrive)).sent.length
          = r.sent.length + frames.length ∧
        (F.length - (fill_loop env F n s).file_pos) + frames.length
          ≤ F.length - s.file_pos ∧
        (0 < n → s.file_pos < F.length → 0 < frames.length) := by
  intro n
  induction n with
  | zero =>
    intro s r hI hn heof
    refine ⟨[], by simp [fill_loop], ?_, ?_, rfl, le_refl _, ?_⟩
    · simpa [fill_loop, receive_loop] using hI
    · refine ⟨Or.inl ?_, heof rfl⟩
      show s.window_end = s.window_start + WINDOW_SIZE
      omega
    · intro h
      omega
  | succ n ih =>
    intro s r hI hn _
    simp only [fill_loop]
    by_cases hz : (next_chunk F s).length = 0
    · rw [fill_body_eof env F s hz]
      have hlen : F.length ≤ s.file_pos := chunk_length_zero F s.file_pos hz
      refine ⟨[], by simp, ?_, ?_, rfl, le_refl _, ?_⟩
      · simpa [receive_loop] using streaming_bytes_read F server_seq off s r 0 hI
      · exact ⟨Or.inr (le_refl _), fun _ => hlen⟩
      · intro _ hlt
        omega
    · have hpos : 0 < (next_chunk F s).length := Nat.pos_of_ne_zero hz
      have hb := fill_body_send env F s (hok _) hpos
      have hI1 := fill_body_streaming env F server_seq off s r hI (hok _) (by omega) hpos
      have h2 : (fill_body env F s).2 = true := by rw [hb]
      have hsent : (fill_body env F s).1.sent = s.sent ++ [next_frame F s] := by rw [hb]
      have hws : (fill_body env F s).1.window_start = s.window_start := by rw [hb]
      have hwe : (fill_body env F s).1.window_end = s.window_end + 1 := by rw [hb]
      have hfp : (fill_body env F s).1.file_pos = s.file_pos + (next_chunk F s).length := by
        rw [hb]
      have hbr : (fill_body env F s).1.bytes_read = ((next_chunk F s).length : Int) := by
        rw [hb]
      have hrs : (receive_step server_seq 0 r (arrive (next_frame F s))).sent.length
          = r.sent.length + 1 := by
        rw [receive_step_arrive_mod server_seq r (next_frame F s) hI.rret hI.rfin hI.flags
          hI.expected.symm (chunk_length_le F s.file_pos MAX_DATA_SIZE).1]
        simp
      have hcl := chunk_length_le F s.file_pos MAX_DATA_SIZE
      have hfit : s.file_pos + (next_chunk F s).length ≤ F.length := by
        have := hI.pos
        have := hcl.2
        unfold next_chunk
        omega
      simp only [h2, if_true]
      obtain ⟨frames, hf1, hf2, hf3, hf4, hf5, _⟩ :=
        ih (fill_body env F s).1 (receive_step server_seq 0 r (arrive (next_frame F s))) hI1
          (by omega) (by intro _ h; rw [hbr] at h; omega)
      refine ⟨next_frame F s :: frames, ?_, ?_, hf3, ?_, ?_, ?_⟩
      · rw [hf1, hsent]
        simp
      · simpa [receive_loop] using hf2
      · simp only [List.map_cons, receive_loop, List.length_cons]
        rw [hf4, hrs]
        omega
      · simp only [List.length_cons]
        omega
      · intro _ _
        simp

theorem ack_loop_pops (a : Nat) :
    ∀ (n : Nat) (s : Sender), s.window_start ≤ s.window_end →
      n ≤ s.window_end - s.window_start →
      ∃ w, ack_loop a n s = { s with window_start := w } ∧ s.window_start ≤ w ∧
        w ≤ s.window_end ∧
        (0 < n →
          u32 ((s.slot s.window_start).seq_num + (s.slot s.window_start).data_len) ≤ a →
          s.window_start < w) := by
  intro n
  induction n with
  | zero =>
    intro s h0 _
    exact ⟨s.window_start, rfl, le_refl _, h0, fun h => absurd h (by omega)⟩
  | succ n ih =>
    intro s h0 hn
    simp only [ack_loop]
    by_cases hle :
        u32 ((s.slot s.window_start).seq_num + (s.slot s.window_start).data_len) ≤ a
    · have hb : ack_body a s = ({ s with window_start := s.window_start + 1 }, true) := by
        unfold ack_body
        simp [hle]
      rw [hb]
      simp only [if_true]
      obtain ⟨w, h1, h2, h3, _⟩ := ih { s with window_start := s.window_start + 1 }
        (by
          show s.window_start + 1 ≤ s.window_end
          omega)
        (by
          show n ≤ s.window_end - (s.window_start + 1)
          omega)
      refine ⟨w, ?_, ?_, h3, ?_⟩
      · rw [h1]
      · have : s.window_start + 1 ≤ w := h2
        omega
      · intro _ _
        have : s.window_start + 1 ≤ w := h2
        omega
    · have hb : ack_body a s = (s, false) := by
        unfold ack_body
        simp [hle]
      rw [hb]
      exact ⟨s.window_start, by simp, le_refl _, h0, fun _ h => absurd h hle⟩

theorem on_readable_ack (h : sham_header) (s : Sender) (hf : h.flags = ACK_FLAG) :
    on_readable (control_frame h) s = process_ack h.ack_num { s with packet := h } := by
  unfold on_readable
  simp [control_frame, Datagram.received, HEADER_SIZE, hf, ACK_FLAG]

theorem fin_round_settled (env : Env) (F : List Nat) (server_seq : Nat) (t : Transfer)
    (s1 : Sender) (tk : Nat)
    (hturn : sender_turn env F t = { t with snd := send_fin s1, taken := tk })
    (hsent : s1.sent = t.snd.sent) (hdel : t.delivered = t.snd.sent.length)
    (hret : t.rcv.ret = none) (hfw : t.rcv.fin_wait = false) (hsink : t.rcv.sink = F) :
    Settled F (transfer_round env F server_seq t) := by
  unfold transfer_round
  rw [hturn]
  rw [deliver_all_append server_seq { t with snd := send_fin s1, taken := tk } t.snd.sent
    [{ header := { seq_num := s1.client_seq, ack_num := 0, flags := FIN_FLAG,
                   window_size := BUFFER_SIZE },
       payload := [] }] (by simp [send_fin, hsent]) hdel]
  simp only [List.map_cons, List.map_nil, receive_loop, receive_step, arrive, hret,
    hfw, Option.isSome_none, Bool.false_eq_true, if_false, Datagram.received,
    HEADER_SIZE, List.length_nil, Nat.add_zero, Nat.cast_ofNat, FIN_FLAG]
  simp only [show ¬ ((12 : Int) < 0) by decide, show ((4 : Nat) &&& 4 ≠ 0) = True by decide,
    if_true, if_false]
  exact ⟨hsink, Or.inl rfl⟩

theorem pop_streaming (F : List Nat) (server_seq off w : Nat) (h : sham_header) (s : Sender)
    (r : Receiver) (hI : Streaming F server_seq off s r) (hf : h.flags = ACK_FLAG)
    (hw1 : s.window_start ≤ w) (hw2 : w ≤ s.window_end) :
    Streaming F server_seq (off + (w - s.window_start))
      { s with packet := h, window_start := w } r := by
  have hb := hI.bound
  have hq := hI.queue
  unfold WindowBound at hb
  refine ⟨hI.stage, hI.rret, hI.rfin, ?_, hI.expected, hI.pos, hI.sink, hI.wlen, ?_, hI.acks,
    ?_, ?_⟩
  · show h.flags &&& FIN_FLAG = 0
    rw [hf]
    decide
  · show w ≤ s.window_end ∧ s.window_end ≤ w + WINDOW_SIZE
    omega
  · show off + (w - s.window_start) + (s.window_end - w) = r.sent.length
    omega
  · intro i (hi1 : w ≤ i) (hi2 : i < s.window_end)
    have h3 := hI.slot i (by omega) hi2
    show r.sent[off + (w - s.window_start) + (i - w)]? = _
    have : off + (w - s.window_start) + (i - w) = off + (i - s.window_start) := by omega
    rw [this]
    exact h3

theorem pumping_round_read (env : Env) (F : List Nat) (server_seq off : Nat) (t : Transfer)
    (hok : ∀ k, env.sendto_ok k = true) (hP : Pumping F server_seq off t)
    (hq0 : t.taken < t.rcv.sent.length) :
    Settled F (transfer_round env F server_seq t) ∨
      ∃ off1, Pumping F server_seq off1 (transfer_round env F server_seq t) ∧
        backlog F (transfer_round env F server_seq t) < backlog F t := by
  have hI := hP.inv
  have hb := hI.bound
  have hq := hI.queue
  have hahead := hP.ahead
  unfold WindowBound at hb
  have hh : t.rcv.sent[t.taken]? = some (t.rcv.sent[t.taken]) := List.getElem?_eq_getElem hq0
  have hflag : (t.rcv.sent[t.taken]).flags = ACK_FLAG := hI.acks _ (List.getElem?_mem hh)
  obtain ⟨w, hw0, hw1a, hw2a, hw3⟩ :=
    ack_loop_pops (t.rcv.sent[t.taken]).ack_num (t.snd.window_end - t.snd.window_start)
      { t.snd with packet := t.rcv.sent[t.taken] } hb.1 (le_refl _)
  have hw1 : t.snd.window_start ≤ w := hw1a
  have hw2 : w ≤ t.snd.window_end := hw2a
  have hrd : on_readable (control_frame (t.rcv.sent[t.taken])) t.snd
      = { t.snd with packet := t.rcv.sent[t.taken], window_start := w } := by
    rw [on_readable_ack _ _ hflag]
    exact hw0
  have hadv : t.taken + 1 ≤ off + (w - t.snd.window_start) := by
    by_cases hoff : off = t.taken
    · have hne : t.snd.window_start < t.snd.window_end := by omega
      have hs := hI.slot t.snd.window_start (le_refl _) hne
      simp only [Nat.sub_self, Nat.add_zero, hoff, hh, Option.some.injEq] at hs
      have hlt : t.snd.window_start < w := by
        apply hw3 (Nat.sub_pos_of_lt hne)
        show u32 (((t.snd.slot t.snd.window_start).seq_num : Int)
          + ((t.snd.slot t.snd.window_start).data_len : Int)) ≤ (t.rcv.sent[t.taken]).ack_num
        rw [hs]
        exact le_refl _
      omega
    · omega
  have hI1 := pop_streaming F server_seq off w (t.rcv.sent[t.taken]) t.snd t.rcv hI hflag hw1 hw2
  by_cases hexit : w = t.snd.window_end ∧ t.snd.bytes_read ≤ 0
  · left
    have hstep : send_step env F (Select.readable (control_frame (t.rcv.sent[t.taken]))) t.snd
        = send_fin { t.snd with packet := t.rcv.sent[t.taken], window_start := w } := by
      unfold send_step
      rw [hI.stage]
      simp only [hrd]
      simp [hexit.1, hexit.2]
    apply fin_round_settled env F server_seq t
      { t.snd with packet := t.rcv.sent[t.taken], window_start := w } (t.taken + 1)
      (by rw [sender_turn_of_head env F t _ hh, hstep]) rfl hP.delivered hI.rret hI.rfin
    rw [hI.sink]
    exact List.take_of_length_le (hP.filled.2 hexit.2)
  · right
    have hstep : send_step env F (Select.readable (control_frame (t.rcv.sent[t.taken]))) t.snd
        = fill_window env F { t.snd with packet := t.rcv.sent[t.taken], window_start := w } := by
      unfold send_step
      rw [hI.stage]
      simp only [hrd]
      simp only [hexit, if_false]
    obtain ⟨frames, hf1, hf2, hf3, hf4, hf5, _⟩ :=
      fill_loop_streaming env F server_seq (off + (w - t.snd.window_start)) hok
        (w + WINDOW_SIZE - t.snd.window_end)
        { t.snd with packet := t.rcv.sent[t.taken], window_start := w } t.rcv hI1
        (by
          show w + WINDOW_SIZE - t.snd.window_end + t.snd.window_end = w + WINDOW_SIZE
          omega)
        (fun _ h => hP.filled.2 h)
    have hfw : fill_window env F { t.snd with packet := t.rcv.sent[t.taken], window_start := w }
        = fill_loop env F (w + WINDOW_SIZE - t.snd.window_end)
            { t.snd with packet := t.rcv.sent[t.taken], window_start := w } := rfl
    rw [← hfw] at hf1 hf2 hf3 hf5
    have hround : transfer_round env F server_seq t =
        { snd := fill_window env F
            { t.snd with packet := t.rcv.sent[t.taken], window_start := w },
          rcv := receive_loop server_seq 0 t.rcv (frames.map arrive),
          delivered := (fill_window env F
            { t.snd with packet := t.rcv.sent[t.taken], window_start := w }).sent.length,
          taken := t.taken + 1 } := by
      unfold transfer_round
      rw [sender_turn_of_head env F t _ hh, hstep]
      exact deliver_all_append server_seq
        { t with snd := fill_window env F
                   { t.snd with packet := t.rcv.sent[t.taken], window_start := w },
                 taken := t.taken + 1 }
        t.snd.sent frames hf1 hP.delivered
    rw [hround]
    refine ⟨off + (w - t.snd.window_start), ⟨hf2, hadv, hf3, rfl⟩, ?_⟩
    show (F.length - (fill_window env F _).file_pos)
        + ((receive_loop server_seq 0 t.rcv (frames.map arrive)).sent.length - (t.taken + 1))
      < (F.length - t.snd.file_pos) + (t.rcv.sent.length - t.taken)
    rw [hf4]
    have h5 : (F.length - (fill_window env F
        { t.snd with packet := t.rcv.sent[t.taken], window_start := w }).file_pos) + frames.length
          ≤ F.length - t.snd.file_pos := hf5
    omega

theorem pumping_round_idle (env : Env) (F : List Nat) (server_seq off : Nat) (t : Transfer)
    (hP : Pumping F server_seq off t) (hq0 : t.rcv.sent.length ≤ t.taken) :
    Settled F (transfer_round env F server_seq t) := by
  have hI := hP.inv
  have hb := hI.bound
  have hq := hI.queue
  have hahead := hP.ahead
  unfold WindowBound at hb
  have hz : t.snd.window_end - t.snd.window_start = 0 := by omega
  have hwe : t.snd.window_start = t.snd.window_end := by omega
  have hbr : t.snd.bytes_read ≤ 0 := by
    rcases hP.filled.1 with h | h
    · simp only [WINDOW_SIZE] at h
      omega
    · exact h
  have hstep : send_step env F Select.timeout t.snd
      = send_fin { t.snd with ticks := t.snd.ticks + 1 } := by
    unfold send_step
    rw [hI.stage]
    simp only [on_timeout, hz, retransmit_loop]
    simp [hwe, hbr]
  have hturn : sender_turn env F t
      = { t with snd := send_fin { t.snd with ticks := t.snd.ticks + 1 }, taken := t.taken } := by
    unfold sender_turn
    rw [List.drop_eq_nil_of_le hq0, ← hstep]
  apply fin_round_settled env F server_seq t { t.snd with ticks := t.snd.ticks + 1 } t.taken
    hturn rfl hP.delivered hI.rret hI.rfin
  rw [hI.sink]
  exact List.take_of_length_le (hP.filled.2 hbr)

theorem receive_loop_closed (server_seq : Nat) (loss_rate : ℚ) :
    ∀ (l : List Arrival) (r : Receiver), (r.fin_wait = true ∨ r.ret.isSome = true) →
      (receive_loop server_seq loss_rate r l).sink = r.sink ∧
        ((receive_loop server_seq loss_rate r l).fin_wait = true ∨
          (receive_loop server_seq loss_rate r l).ret.isSome = true) := by
  intro l
  induction l with
  | nil =>
    intro r h
    exact ⟨rfl, h⟩
  | cons a rest ih =>
    intro r h
    simp only [receive_loop]
    have hstep : (receive_step server_seq loss_rate r a).sink = r.sink ∧
        ((receive_step server_seq loss_rate r a).fin_wait = true ∨
          (receive_step server_seq loss_rate r a).ret.isSome = true) := by
      unfold receive_step
      by_cases h1 : r.ret.isSome = true
      · simp [h1]
      · have h2 : r.fin_wait = true := by
          rcases h with h | h
          · exact h
          · exact absurd h h1
        simp [h1, h2]
    obtain ⟨i1, i2⟩ := ih (receive_step server_seq loss_rate r a) hstep.2
    exact ⟨i1.trans hstep.1, i2⟩

theorem sender_turn_rcv (env : Env) (F : List Nat) (t : Transfer) :
    (sender_turn env F t).rcv = t.rcv := by
  unfold sender_turn
  split <;> rfl

theorem sender_turn_returned (env : Env) (F : List Nat) (t : Transfer)
    (h : t.snd.stage = Stage.returned) : (sender_turn env F t).snd = t.snd := by
  unfold sender_turn
  split <;> simp [send_step, h]

theorem settled_round (env : Env) (F : List Nat) (server_seq : Nat) (t : Transfer)
    (h : Settled F t) : Settled F (transfer_round env F server_seq t) := by
  obtain ⟨hsink, hc⟩ := h
  have hclosed : (t.rcv.fin_wait = true ∨ t.rcv.ret.isSome = true) →
      Settled F (transfer_round env F server_seq t) := by
    intro hcl
    obtain ⟨c1, c2⟩ := receive_loop_closed server_seq 0
      (((sender_turn env F t).snd.sent.drop (sender_turn env F t).delivered).map arrive)
      (sender_turn env F t).rcv (by rw [sender_turn_rcv]; exact hcl)
    refine ⟨?_, ?_⟩
    · show (receive_loop server_seq 0 (sender_turn env F t).rcv _).sink = F
      rw [c1, sender_turn_rcv]
      exact hsink
    · rcases c2 with c2 | c2
      · exact Or.inl c2
      · exact Or.inr (Or.inl c2)
  rcases hc with hc | hc | ⟨hst, hdel⟩
  · exact hclosed (Or.inl hc)
  · exact hclosed (Or.inr hc)
  · have hsnd := sender_turn_returned env F t hst
    have hd : (sender_turn env F t).delivered = t.delivered := by
      unfold sender_turn
      split <;> rfl
    refine ⟨?_, Or.inr (Or.inr ⟨?_, rfl⟩)⟩
    · show (receive_loop server_seq 0 (sender_turn env F t).rcv
        (((sender_turn env F t).snd.sent.drop (sender_turn env F t).delivered).map arrive)).sink = F
      rw [hsnd, hd, hdel, List.drop_length, sender_turn_rcv]
      exact hsink
    · show (sender_turn env F t).snd.stage = Stage.returned
      rw [hsnd]
      exact hst

theorem pumping_start (env : Env) (F : List Nat) (r server_seq : Nat)
    (hok : ∀ k, env.sendto_ok k = true) (hF : F ≠ []) :
    Pumping F server_seq 0 (transfer env F r server_seq 0) := by
  have hlen : 0 < F.length := List.length_pos.mpr hF
  have hI0 : Streaming F server_seq 0
      (send_init (generate_initial_seq r + 1)) (receive_init (generate_initial_seq r)) := by
    refine ⟨rfl, rfl, rfl, ?_, ?_, Nat.zero_le _, rfl, ?_, ?_, ?_, rfl, ?_⟩
    · simp [send_init]
    · exact u32_initial_seq_succ r
    · simp [send_init]
    · simp [WindowBound, send_init]
    · intro h (hh : h ∈ [])
      simp at hh
    · intro i (hi1 : 0 ≤ i) (hi2 : i < 0)
      omega
  obtain ⟨frames, hf1, hf2, hf3, _, _, _⟩ :=
    fill_loop_streaming env F server_seq 0 hok WINDOW_SIZE
      (send_init (generate_initial_seq r + 1)) (receive_init (generate_initial_seq r)) hI0
      (by simp [send_init]) (by simp [WINDOW_SIZE])
  have hfw : fill_window env F (send_init (generate_initial_seq r + 1))
      = fill_loop env F WINDOW_SIZE (send_init (generate_initial_seq r + 1)) := rfl
  rw [← hfw] at hf1 hf2 hf3
  have hstart : send_start env F (generate_initial_seq r + 1) true
      = fill_window env F (send_init (generate_initial_seq r + 1)) := by
    unfold send_start
    have : F.length ≠ 0 := by omega
    simp [this]
  have h0 : transfer env F r server_seq 0 =
      { snd := fill_window env F (send_init (generate_initial_seq r + 1)),
        rcv := receive_loop server_seq 0 (receive_init (generate_initial_seq r))
                 (frames.map arrive),
        delivered := (fill_window env F (send_init (generate_initial_seq r + 1))).sent.length,
        taken := 0 } := by
    unfold transfer
    rw [hstart]
    exact deliver_all_append server_seq
      { snd := fill_window env F (send_init (generate_initial_seq r + 1)),
        rcv := receive_file true (generate_initial_seq r) server_seq 0 [],
        delivered := 0, taken := 0 }
      [] frames hf1 rfl
  rw [h0]
  exact ⟨hf2, le_refl _, hf3, rfl⟩

theorem empty_start (env : Env) (r server_seq : Nat) :
    Settled [] (transfer env [] r server_seq 0) := by
  refine ⟨rfl, Or.inr (Or.inr ⟨rfl, rfl⟩)⟩

theorem pumping_settles (env : Env) (F : List Nat) (r server_seq : Nat)
    (hok : ∀ k, env.sendto_ok k = true) :
    ∀ (m n off : Nat), Pumping F server_seq off (transfer env F r server_seq n) →
      backlog F (transfer env F r server_seq n) ≤ m →
      ∃ k, Settled F (transfer env F r server_seq k) := by
  intro m
  induction m with
  | zero =>
    intro n off hP hm
    by_cases hq0 : (transfer env F r server_seq n).taken
        < (transfer env F r server_seq n).rcv.sent.length
    · rcases pumping_round_read env F server_seq off _ hok hP hq0 with h | ⟨_, _, hlt⟩
      · exact ⟨n + 1, h⟩
      · omega
    · exact ⟨n + 1, pumping_round_idle env F server_seq off _ hP (by omega)⟩
  | succ m ih =>
    intro n off hP hm
    by_cases hq0 : (transfer env F r server_seq n).taken
        < (transfer env F r server_seq n).rcv.sent.length
    · rcases pumping_round_read env F server_seq off _ hok hP hq0 with h | ⟨off1, hP1, hlt⟩
      · exact ⟨n + 1, h⟩
      · exact ih (n + 1) off1 hP1 (by
          show backlog F (transfer_round env F server_seq (transfer env F r server_seq n)) ≤ m
          omega)
    · exact ⟨n + 1, pumping_round_idle env F server_seq off _ hP (by omega)⟩

theorem settled_stable (env : Env) (F : List Nat) (r server_seq n : Nat)
    (h : Settled F (transfer env F r server_seq n)) :
    ∀ m, n ≤ m → Settled F (transfer env F r server_seq m) := by
  intro m
  induction m with
  | zero =>
    intro hm
    have : n = 0 := by omega
    rw [← this]
    exact h
  | succ m ih =>
    intro hm
    by_cases hn : n = m + 1
    · rw [← hn]
      exact h
    · exact settled_round env F server_seq _ (ih (by omega))

/-- A transfer evaluated: the six bytes of "hello\n" with `rand() = 0` are
written after three turns of the opener, which sent the data frame 1001, the
FIN 1007 and the last ACK, and both functions have returned 0. -/
theorem transfer_six_bytes :
    (transfer calm [104, 101, 108, 108, 111, 10] 0 5000 3).rcv.sink
        = [104, 101, 108, 108, 111, 10] ∧
      (transfer calm [104, 101, 108, 108, 111, 10] 0 5000 3).snd.ret = some 0 ∧
      (transfer calm [104, 101, 108, 108, 111, 10] 0 5000 3).rcv.ret = some 0 ∧
      (transfer calm [104, 101, 108, 108, 111, 10] 0 5000 3).snd.sent.map
          (fun d => (d.header.seq_num, d.header.flags, d.payload.length))
        = [(1001, 0, 6), (1007, 4, 0), (1007, 2, 0)] := by
  decide

/-- The transfer without delay: for any input file `F`, when every
`send_packet` succeeds and every frame is delivered before the next turn of
the opener (so that no retransmission timeout fires), `send_file` against
`receive_file` reaches a turn from which on the bytes written to the output
file are exactly `F`. If moreover `F` is not empty and `C0 + 1 + |F| < 2^32`,
both functions have returned 0 at that turn. -/
theorem transfer_delivers_file (env : Env) (F : List Nat) (r server_seq : Nat)
    (hok : ∀ k, env.sendto_ok k = true) :
    ∃ n, (∀ m, n ≤ m → (transfer env F r server_seq m).rcv.sink = F) ∧
      (generate_initial_seq r + 1 + F.length < 4294967296 → F ≠ [] →
        (transfer env F r server_seq n).snd.ret = some 0 ∧
        (transfer env F r server_seq n).rcv.ret = some 0) := by
  by_cases hc : generate_initial_seq r + 1 + F.length < 4294967296 ∧ F ≠ []
  · obtain ⟨k, h1, h2, h3⟩ :=
      flowing_completes env F r server_seq hc.1 hok _ 0
        (transfer_start env F r server_seq hc.1 hok hc.2) (le_refl _)
    have hS : Settled F (transfer env F r server_seq k) :=
      ⟨h1, Or.inr (Or.inl (by rw [h3]; rfl))⟩
    exact ⟨k, fun m hm => (settled_stable env F r server_seq k hS m hm).1, fun _ _ => ⟨h2, h3⟩⟩
  · have hex : ∃ k, Settled F (transfer env F r server_seq k) := by
      by_cases hF : F = []
      · subst hF
        exact ⟨0, empty_start env r server_seq⟩
      · exact pumping_settles env F r server_seq hok _ 0 0
          (pumping_start env F r server_seq hok hF) (le_refl _)
    obtain ⟨k, hS⟩ := hex
    exact ⟨k, fun m hm => (settled_stable env F r server_seq k hS m hm).1,
      fun h1 h2 => absurd ⟨h1, h2⟩ hc⟩

theorem transfer_delivers_file_witness :
    (∀ k, calm.sendto_ok k = true) ∧
      ∃ n, (∀ m, n ≤ m → (transfer calm [104, 101, 108, 108, 111, 10] 0 5000 m).rcv.sink
            = [104, 101, 108, 108, 111, 10]) ∧
        (generate_initial_seq 0 + 1 + [104, 101, 108, 108, 111, 10].length < 4294967296 →
          [104, 101, 108, 108, 111, 10] ≠ [] →
          (transfer calm [104, 101, 108, 108, 111, 10] 0 5000 n).snd.ret = some 0 ∧
          (transfer calm [104, 101, 108, 108, 111, 10] 0 5000 n).rcv.ret = some 0) :=
  ⟨fun _ => rfl, transfer_delivers_file calm [104, 101, 108, 108, 111, 10] 0 5000 (fun _ => rfl)⟩

/-! ### The end of `send_file`, `four_way_handshake_close` and `chat_mode` -/

/-- C11, the code at the failing input: the six bytes of "hello\n" sent with
`C0 = 1000` to a listener with `server_seq = 5000`. The listener's FIN has
`seq_num = 5000`, so the ACK that answers it should carry 5001; `send_file`
overwrites `packet.header.seq_num` with `client_seq = 1007` before it adds one,
and replies with `ack_num = 1008`. -/
theorem send_file_final_ack_number :
    (transfer calm [104, 101, 108, 108, 111, 10] 0 5000 3).rcv.sent.getLast?
        = some { seq_num := 5000, ack_num := 1008, flags := FIN_FLAG,
                 window_size := BUFFER_SIZE } ∧
      (transfer calm [104, 101, 108, 108, 111, 10] 0 5000 3).snd.sent.getLast?
        = some { header := { seq_num := 1007, ack_num := 1008, flags := ACK_FLAG,
                             window_size := BUFFER_SIZE },
                 payload := [] } ∧
      u32 (5000 + 1) = 5001 := by
  decide

/-- C12, the code at the failing input: the opener's
`four_way_handshake_close` sends its one FIN (`seq_num = 5000`) and gets no
answer; the listener in chat mode (`server_seq = 5000`) reads this FIN in
`chat_mode`, so the responder branch of its `four_way_handshake_close` waits
for another FIN and its `recvfrom` times out: nothing is sent and `state`
stays ESTABLISHED. -/
theorem chat_mode_responder_close_waits_for_second_fin :
    (four_way_handshake_close 5000 true no_frame no_frame).sent
        = [{ seq_num := 5000, ack_num := 0, flags := FIN_FLAG, window_size := BUFFER_SIZE }] ∧
      (chat_mode_server
          { state := connection_state_t.ESTABLISHED, server_seq := 5000, client_seq := 1000 }
          [{ select_ok := true, line := none,
             frame := some (control_frame
               { seq_num := 5000, ack_num := 0, flags := FIN_FLAG, window_size := BUFFER_SIZE }),
             rx1 := no_frame, rx2 := no_frame }])
        = { side := Side.server, state := connection_state_t.ESTABLISHED, client_seq := 1000,
            server_seq := 5000, sent := [], shown := [], ended := some ChatEnd.peer_fin } := by
  decide

/-- C13, the code at the failing input: the opener (`rand() = 0`, so
`C0 = 1000`) completes the handshake with a listener whose sequence number is
5000, sends the line "hi" and then reads "/quit". Its cursor `client_seq` is
1003, but the FIN of `four_way_handshake_close` carries `seq_num = 5000`, the
static `server_seq` of `client.c`, which holds the peer's number. The listener
sending the same lines puts its own cursor 5002 in its FIN. -/
theorem four_way_handshake_close_client_fin_seq :
    (three_way_handshake_client client_statics_init 0 true 1
        (control_frame { seq_num := 5000, ack_num := 1001, flags := 3,
                         window_size := BUFFER_SIZE }) true).statics
        = { state := connection_state_t.ESTABLISHED, client_seq := 1001, server_seq := 5000 } ∧
      ((chat_mode_client
          { state := connection_state_t.ESTABLISHED, client_seq := 1001, server_seq := 5000 }
          [{ select_ok := true, line := some [104, 105, 10], frame := none,
             rx1 := no_frame, rx2 := no_frame },
           { select_ok := true, line := some [47, 113, 117, 105, 116, 10], frame := none,
             rx1 := no_frame, rx2 := no_frame }]).sent.map
          (fun d => (d.header.seq_num, d.header.flags, d.payload)))
        = [(1001, 0, [104, 105]), (5000, 4, [])] ∧
      (chat_mode_client
          { state := connection_state_t.ESTABLISHED, client_seq := 1001, server_seq := 5000 }
          [{ select_ok := true, line := some [104, 105, 10], frame := none,
             rx1 := no_frame, rx2 := no_frame },
           { select_ok := true, line := some [47, 113, 117, 105, 116, 10], frame := none,
             rx1 := no_frame, rx2 := no_frame }]).client_seq = 1003 ∧
      ((chat_mode_server
          { state := connection_state_t.ESTABLISHED, server_seq := 5000, client_seq := 1000 }
          [{ select_ok := true, line := some [104, 105, 10], frame := none,
             rx1 := no_frame, rx2 := no_frame },
           { select_ok := true, line := some [47, 113, 117, 105, 116, 10], frame := none,
             rx1 := no_frame, rx2 := no_frame }]).sent.map
          (fun d => (d.header.seq_num, d.header.flags, d.payload)))
        = [(5000, 0, [104, 105]), (5002, 4, [])] := by
  decide

/-- C20, counterexample: the initiator's first receive times out and the
second returns the peer's FIN. No frame with the ACK flag was received and
the state was never FIN_WAIT_2, yet the final ACK is sent and the state goes
from FIN_WAIT_1 to TIME_WAIT. -/
theorem four_way_handshake_close_skips_fin_wait_2 :
    four_way_handshake_close 5000 true no_frame
        (control_frame { seq_num := 1001, ack_num := 0, flags := FIN_FLAG,
                         window_size := BUFFER_SIZE })
      = { trace := [connection_state_t.FIN_WAIT_1, connection_state_t.TIME_WAIT],
          sent := [{ seq_num := 5000, ack_num := 0, flags := FIN_FLAG,
                     window_size := BUFFER_SIZE },
                   { seq_num := 5000, ack_num := 1002, flags := ACK_FLAG,
                     window_size := BUFFER_SIZE }] } := by
  decide

/-- C20, amended: as initiator, `four_way_handshake_close` sends its FIN and
enters FIN_WAIT_1; the state becomes FIN_WAIT_2 exactly if the first receive
returns a frame with the ACK flag; the final ACK (of the peer's `seq_num + 1`)
is sent and the state becomes TIME_WAIT exactly if the second receive returns
a frame with the FIN flag, from FIN_WAIT_2 or from FIN_WAIT_1. -/
theorem four_way_handshake_close_initiator_trace (server_seq : Nat) (rx1 rx2 : Received) :
    (four_way_handshake_close server_seq true rx1 rx2).trace
        = [connection_state_t.FIN_WAIT_1]
          ++ (if 0 < rx1.bytes_recv ∧ rx1.header.flags &&& ACK_FLAG ≠ 0
              then [connection_state_t.FIN_WAIT_2] else [])
          ++ (if 0 < rx2.bytes_recv ∧ rx2.header.flags &&& FIN_FLAG ≠ 0
              then [connection_state_t.TIME_WAIT] else []) ∧
      (four_way_handshake_close server_seq true rx1 rx2).sent
        = [{ seq_num := server_seq, ack_num := 0, flags := FIN_FLAG,
             window_size := BUFFER_SIZE }]
          ++ (if 0 < rx2.bytes_recv ∧ rx2.header.flags &&& FIN_FLAG ≠ 0
              then [{ seq_num := server_seq, ack_num := u32 (rx2.header.seq_num + 1),
                      flags := ACK_FLAG, window_size := BUFFER_SIZE }]
              else []) := by
  unfold four_way_handshake_close
  by_cases h1 : 0 < rx1.bytes_recv ∧ rx1.header.flags &&& ACK_FLAG ≠ 0 <;>
    by_cases h2 : 0 < rx2.bytes_recv ∧ rx2.header.flags &&& FIN_FLAG ≠ 0 <;>
    simp [h1, h2]

theorem chat_data_len_received (d : Datagram) :
    chat_data_len d.received = ((min d.payload.length 1023 : Nat) : Int) := by
  unfold chat_data_len Datagram.received
  simp only [HEADER_SIZE, MAX_DATA_SIZE]
  split_ifs <;> omega

theorem chat_text_received (d : Datagram) :
    chat_text d.received = c_string (d.payload.take 1023) := by
  unfold chat_text
  rw [chat_data_len_received]
  have hdata : d.received.data = d.payload := rfl
  rw [hdata, Int.toNat_ofNat]
  by_cases h : d.payload.length ≤ 1023
  · rw [Nat.min_eq_left h, List.take_of_length_le (le_refl _), List.take_of_length_le h]
  · rw [Nat.min_eq_right (by omega)]

/-- C18, counterexample: a frame without the FIN flag whose payload is the
seven bytes "/quit", NUL, "!" ends the session as a disconnect, on the
listener and on the opener: nothing is displayed and no ACK is sent, although
the payload is not the five bytes "/quit". -/
theorem chat_mode_quit_with_trailing_bytes :
    chat_mode_server
        { state := connection_state_t.ESTABLISHED, server_seq := 5000, client_seq := 1000 }
        [{ select_ok := true, line := none,
           frame := some (Datagram.received
             { header := { seq_num := 1001, ack_num := 0, flags := 0,
                           window_size := BUFFER_SIZE },
               payload := [47, 113, 117, 105, 116, 0, 33] }),
           rx1 := no_frame, rx2 := no_frame }]
      = { side := Side.server, state := connection_state_t.ESTABLISHED, client_seq := 1000,
          server_seq := 5000, sent := [], shown := [], ended := some ChatEnd.peer_quit } ∧
      chat_mode_client
        { state := connection_state_t.ESTABLISHED, client_seq := 1001, server_seq := 5000 }
        [{ select_ok := true, line := none,
           frame := some (Datagram.received
             { header := { seq_num := 5000, ack_num := 0, flags := 0,
                           window_size := BUFFER_SIZE },
               payload := [47, 113, 117, 105, 116, 0, 33] }),
           rx1 := no_frame, rx2 := no_frame }]
      = { side := Side.client, state := connection_state_t.ESTABLISHED, client_seq := 1001,
          server_seq := 5000, sent := [], shown := [], ended := some ChatEnd.peer_quit } ∧
      [47, 113, 117, 105, 116, 0, 33] ≠ quit_text := by
  decide

/-- C18, amended: in a pass of `chat_mode` (either file) that reads a frame
without the FIN flag and with a non-empty payload, the session ends as an
application-level disconnect (no close handshake, nothing displayed, no ACK)
if and only if the payload, cut to 1023 bytes and read as a C string (its
bytes before the first NUL), is "/quit"; the five bytes "/quit" are such a
payload. Every other non-empty payload is displayed as that string, an ACK of
`seq_num + data_len` is sent and the loop continues. -/
theorem chat_pass_quit_iff (c : Chat) (p : ChatPass) (d : Datagram)
    (hc : c.ended = none) (hsel : p.select_ok = true) (hline : p.line = none)
    (hframe : p.frame = some d.received) (hfin : d.header.flags &&& FIN_FLAG = 0)
    (hne : d.payload ≠ []) :
    ((chat_pass c p).ended = some ChatEnd.peer_quit ↔
        c_string (d.payload.take 1023) = quit_text) ∧
      (c_string (d.payload.take 1023) = quit_text →
        chat_pass c p = { c with ended := some ChatEnd.peer_quit }) ∧
      (c_string (d.payload.take 1023) ≠ quit_text →
        chat_pass c p =
          { c with
            shown := c.shown ++ [c_string (d.payload.take 1023)]
            sent := c.sent ++
              [{ header := { seq_num := c.cursor,
                             ack_num := u32 (d.header.seq_num + min d.payload.length 1023),
                             flags := ACK_FLAG, window_size := BUFFER_SIZE },
                 payload := [] }] }) ∧
      (d.payload = quit_text → c_string (d.payload.take 1023) = quit_text) := by
  have hlen : 0 < d.payload.length := List.length_pos.mpr hne
  have hrecv : (0 : Int) < d.received.bytes_recv := by
    simp only [Datagram.received]
    omega
  have hdl : (0 : Int) < d.received.bytes_recv - (HEADER_SIZE : Nat) := by
    simp only [Datagram.received, HEADER_SIZE]
    omega
  have hhdr : d.received.header = d.header := rfl
  have hquit : c_string (d.payload.take 1023) = quit_text →
      chat_pass c p = { c with ended := some ChatEnd.peer_quit } := by
    intro hq
    unfold chat_pass
    simp only [hc, hsel, chat_stdin, hline, chat_network, hframe, hrecv, hhdr, hfin, hdl,
      chat_text_received, hq]
    simp
  have hshow : c_string (d.payload.take 1023) ≠ quit_text →
      chat_pass c p =
        { c with
          shown := c.shown ++ [c_string (d.payload.take 1023)]
          sent := c.sent ++
            [{ header := { seq_num := c.cursor,
                           ack_num := u32 (d.header.seq_num + min d.payload.length 1023),
                           flags := ACK_FLAG, window_size := BUFFER_SIZE },
               payload := [] }] } := by
    intro hq
    unfold chat_pass
    simp only [hc, hsel, chat_stdin, hline, chat_network, hframe, hrecv, hhdr, hfin, hdl,
      chat_text_received, chat_data_len_received, hq]
    simp
  refine ⟨⟨?_, ?_⟩, hquit, hshow, ?_⟩
  · intro he
    by_contra hq
    rw [hshow hq] at he
    simp [hc] at he
  · intro hq
    rw [hquit hq]
  · intro hp
    rw [hp]
    decide

theorem chat_pass_quit_iff_witness :
    ((chat_pass
          { side := Side.server, state := connection_state_t.ESTABLISHED, client_seq := 1000,
            server_seq := 5000, sent := [], shown := [], ended := none }
          { select_ok := true, line := none,
            frame := some (Datagram.received
              { header := { seq_num := 1001, ack_num := 0, flags := 0,
                            window_size := BUFFER_SIZE },
                payload := [104, 105] }),
            rx1 := no_frame, rx2 := no_frame }).ended = some ChatEnd.peer_quit ↔
        c_string ([104, 105].take 1023) = quit_text) ∧
      (chat_pass
          { side := Side.server, state := connection_state_t.ESTABLISHED, client_seq := 1000,
            server_seq := 5000, sent := [], shown := [], ended := none }
          { select_ok := true, line := none,
            frame := some (Datagram.received
              { header := { seq_num := 1001, ack_num := 0, flags := 0,
                            window_size := BUFFER_SIZE },
                payload := [104, 105] }),
            rx1 := no_frame, rx2 := no_frame }).shown = [[104, 105]] := by
  have h := chat_pass_quit_iff
    { side := Side.server, state := connection_state_t.ESTABLISHED, client_seq := 1000,
      server_seq := 5000, sent := [], shown := [], ended := none }
    { select_ok := true, line := none,
      frame := some (Datagram.received
        { header := { seq_num := 1001, ack_num := 0, flags := 0,
                      window_size := BUFFER_SIZE },
          payload := [104, 105] }),
      rx1 := no_frame, rx2 := no_frame }
    { header := { seq_num := 1001, ack_num := 0, flags := 0, window_size := BUFFER_SIZE },
      payload := [104, 105] }
    rfl rfl rfl rfl (by decide) (by decide)
  refine ⟨h.1, ?_⟩
  rw [h.2.2.1 (by decide)]
  rfl

/-! ### `send_file`: processing of ACKs -/

theorem ack_loop_packet (a : Nat) (h : sham_header) :
    ∀ (n : Nat) (s : Sender),
      ack_loop a n { s with packet := h } = { ack_loop a n s with packet := h } := by
  intro n
  induction n with
  | zero => intro s; rfl
  | succ n ih =>
    intro s
    simp only [ack_loop]
    by_cases hle :
        u32 ((s.slot s.window_start).seq_num + (s.slot s.window_start).data_len) ≤ a
    · have h1 : ack_body a s = ({ s with window_start := s.window_start + 1 }, true) := by
        unfold ack_body
        simp [hle]
      have h2 : ack_body a { s with packet := h }
          = ({ s with packet := h, window_start := s.window_start + 1 }, true) := by
        unfold ack_body
        have : u32 (((({ s with packet := h } : Sender).slot s.window_start).seq_num : Int)
            + ((({ s with packet := h } : Sender).slot s.window_start).data_len : Int)) ≤ a := hle
        simp [this]
      rw [h1, h2]
      simp only [if_true]
      exact ih { s with window_start := s.window_start + 1 }
    · have h1 : ack_body a s = (s, false) := by
        unfold ack_body
        simp [hle]
      have h2 : ack_body a { s with packet := h } = ({ s with packet := h }, false) := by
        unfold ack_body
        have : ¬ u32 (((({ s with packet := h } : Sender).slot s.window_start).seq_num : Int)
            + ((({ s with packet := h } : Sender).slot s.window_start).data_len : Int)) ≤ a := hle
        simp [this]
      rw [h1, h2]
      simp

theorem process_ack_packet (a : Nat) (h : sham_header) (s : Sender) :
    process_ack a { s with packet := h } = { process_ack a s with packet := h } :=
  ack_loop_packet a h (s.window_end - s.window_start) s

theorem process_ack_step (a : Nat) (s : Sender) (n : Nat)
    (hn : s.window_end - s.window_start = n + 1) :
    process_ack a s =
      if u32 ((s.slot s.window_start).seq_num + (s.slot s.window_start).data_len) ≤ a then
        process_ack a { s with window_start := s.window_start + 1 }
      else s := by
  have hn1 : s.window_end - (s.window_start + 1) = n := by omega
  unfold process_ack
  rw [hn]
  show ack_loop a (n + 1) s = if _ then ack_loop a (s.window_end - (s.window_start + 1)) _ else s
  rw [hn1]
  simp only [ack_loop]
  by_cases hle :
      u32 ((s.slot s.window_start).seq_num + (s.slot s.window_start).data_len) ≤ a
  · have h1 : ack_body a s = ({ s with window_start := s.window_start + 1 }, true) := by
      unfold ack_body
      simp [hle]
    rw [h1]
    simp only [hle, if_true]
  · have h1 : ack_body a s = (s, false) := by
      unfold ack_body
      simp [hle]
    rw [h1]
    simp [hle]

theorem process_ack_empty (a : Nat) (s : Sender) (hn : s.window_end - s.window_start = 0) :
    process_ack a s = s := by
  unfold process_ack
  rw [hn]
  rfl

theorem process_ack_subsumes (a b : Nat) (hab : a ≤ b) :
    ∀ (n : Nat) (s : Sender), s.window_end - s.window_start = n →
      process_ack b (process_ack a s) = process_ack b s := by
  intro n
  induction n with
  | zero =>
    intro s hn
    rw [process_ack_empty a s hn]
  | succ n ih =>
    intro s hn
    rw [process_ack_step a s n hn]
    by_cases hle :
        u32 ((s.slot s.window_start).seq_num + (s.slot s.window_start).data_len) ≤ a
    · simp only [hle, if_true]
      rw [ih { s with window_start := s.window_start + 1 } (by
        show s.window_end - (s.window_start + 1) = n
        omega)]
      rw [process_ack_step b s n hn]
      have : u32 ((s.slot s.window_start).seq_num + (s.slot s.window_start).data_len) ≤ b :=
        le_trans hle hab
      simp only [this, if_true]
    · simp only [hle, if_false]

theorem on_readable_of_ack (rx : Received) (s : Sender) (hrecv : 0 < rx.bytes_recv)
    (hflag : rx.header.flags &&& ACK_FLAG ≠ 0) :
    on_readable rx s = process_ack rx.header.ack_num { s with packet := rx.header } := by
  unfold on_readable
  simp [hrecv, hflag]

theorem process_ack_sent (a : Nat) (s : Sender) : (process_ack a s).sent = s.sent := by
  by_cases h : s.window_start ≤ s.window_end
  · obtain ⟨w, hw, _⟩ := ack_loop_pops a (s.window_end - s.window_start) s h (le_refl _)
    unfold process_ack
    rw [hw]
  · rw [process_ack_empty a s (by omega)]

/-- C15: for every state of `send_file` and two frames with the ACK flag whose
numbers satisfy `a <= b`, reading the ACK for `a` and then the ACK for `b`
leaves the same state (`window_start`, `window_end`, the window records and
everything else) as reading the ACK for `b` alone; reading the same ACK twice
equals reading it once; no step hands a frame to `send_packet`. -/
theorem on_readable_cumulative (s : Sender) (rxa rxb : Received)
    (ha : 0 < rxa.bytes_recv) (hfa : rxa.header.flags &&& ACK_FLAG ≠ 0)
    (hb : 0 < rxb.bytes_recv) (hfb : rxb.header.flags &&& ACK_FLAG ≠ 0)
    (hab : rxa.header.ack_num ≤ rxb.header.ack_num) :
    on_readable rxb (on_readable rxa s) = on_readable rxb s ∧
      on_readable rxb (on_readable rxb s) = on_readable rxb s ∧
      (on_readable rxa s).sent = s.sent ∧
      (on_readable rxb (on_readable rxa s)).sent = s.sent := by
  have key : ∀ (rx : Received), 0 < rx.bytes_recv → rx.header.flags &&& ACK_FLAG ≠ 0 →
      rx.header.ack_num ≤ rxb.header.ack_num →
      on_readable rxb (on_readable rx s) = on_readable rxb s := by
    intro rx h1 h2 h3
    calc on_readable rxb (on_readable rx s)
        = process_ack rxb.header.ack_num
            { process_ack rx.header.ack_num { s with packet := rx.header } with
              packet := rxb.header } := by
          rw [on_readable_of_ack rx s h1 h2, on_readable_of_ack rxb _ hb hfb]
      _ = { process_ack rxb.header.ack_num
              (process_ack rx.header.ack_num { s with packet := rx.header }) with
            packet := rxb.header } := process_ack_packet _ _ _
      _ = { process_ack rxb.header.ack_num { s with packet := rx.header } with
            packet := rxb.header } := by
          rw [process_ack_subsumes rx.header.ack_num rxb.header.ack_num h3 _
            { s with packet := rx.header } rfl]
      _ = process_ack rxb.header.ack_num { s with packet := rxb.header } :=
          (process_ack_packet _ _ { s with packet := rx.header }).symm
      _ = on_readable rxb s := (on_readable_of_ack rxb s hb hfb).symm
  have hsa : (on_readable rxa s).sent = s.sent := by
    rw [on_readable_of_ack rxa s ha hfa, process_ack_sent]
  refine ⟨key rxa ha hfa hab, key rxb hb hfb (le_refl _), hsa, ?_⟩
  rw [key rxa ha hfa hab, on_readable_of_ack rxb s hb hfb, process_ack_sent]

theorem in_flight_empty (s : Sender) (hn : s.window_end - s.window_start = 0) :
    s.in_flight = [] := by
  unfold Sender.in_flight
  rw [hn]
  rfl

theorem in_flight_cons (s : Sender) (n : Nat) (hn : s.window_end - s.window_start = n + 1) :
    s.in_flight =
      s.slot s.window_start :: ({ s with window_start := s.window_start + 1 } : Sender).in_flight := by
  have hn1 : s.window_end - (s.window_start + 1) = n := by omega
  unfold Sender.in_flight
  show _ = _ :: List.map _ (List.range (s.window_end - (s.window_start + 1)))
  rw [hn, hn1, List.range_succ_eq_map, List.map_cons, List.map_map]
  congr 1
  apply List.map_congr_left
  intro k _
  show s.slot (s.window_start + (k + 1)) = s.slot (s.window_start + 1 + k)
  congr 1
  omega

theorem contiguous_tail (s : Sender) (hc : Contiguous s) :
    Contiguous { s with window_start := s.window_start + 1 } := by
  intro i (hi1 : s.window_start + 1 ≤ i) (hi2 : i < s.window_end)
  exact hc i (by omega) hi2

theorem contiguous_mono (s : Sender) (hc : Contiguous s) :
    ∀ (k : Nat), s.window_start + k < s.window_end →
      (s.slot s.window_start).seq_num + (s.slot s.window_start).data_len
        ≤ (s.slot (s.window_start + k)).seq_num + (s.slot (s.window_start + k)).data_len := by
  intro k
  induction k with
  | zero => intro _; exact le_refl _
  | succ k ih =>
    intro hk
    have h1 := ih (by omega)
    obtain ⟨_, _, h4⟩ := hc (s.window_start + k) (by omega) (by omega)
    have h5 := h4 (by omega)
    have h6 : s.window_start + (k + 1) = s.window_start + k + 1 := by omega
    rw [h6, h5]
    omega

theorem process_ack_in_flight (a : Nat) :
    ∀ (n : Nat) (s : Sender), s.window_end - s.window_start = n → Contiguous s →
      (process_ack a s).in_flight
          = s.in_flight.filter (fun e => decide (a < e.seq_num + e.data_len)) ∧
        (process_ack a s).window_end = s.window_end ∧
        (process_ack a s).window = s.window := by
  intro n
  induction n with
  | zero =>
    intro s hn _
    rw [process_ack_empty a s hn]
    refine ⟨?_, rfl, rfl⟩
    rw [in_flight_empty s hn]
    rfl
  | succ n ih =>
    intro s hn hc
    obtain ⟨_, hlt, _⟩ := hc s.window_start (le_refl _) (by omega)
    rw [process_ack_step a s n hn, u32_add_of_lt _ _ hlt]
    by_cases hle : (s.slot s.window_start).seq_num + (s.slot s.window_start).data_len ≤ a
    · rw [if_pos hle]
      obtain ⟨i1, i2, i3⟩ := ih { s with window_start := s.window_start + 1 }
        (by
          show s.window_end - (s.window_start + 1) = n
          omega)
        (contiguous_tail s hc)
      refine ⟨?_, i2, i3⟩
      rw [i1, in_flight_cons s n hn, List.filter_cons]
      have : ¬ (a < (s.slot s.window_start).seq_num + (s.slot s.window_start).data_len) := by
        omega
      simp [this]
    · rw [if_neg hle]
      refine ⟨?_, rfl, rfl⟩
      symm
      rw [List.filter_eq_self]
      intro e he
      unfold Sender.in_flight at he
      obtain ⟨k, hk, rfl⟩ := List.mem_map.mp he
      have hk1 : k < s.window_end - s.window_start := List.mem_range.mp hk
      have := contiguous_mono s hc k (by omega)
      simp only [decide_eq_true_eq]
      omega

theorem process_ack_below_base (a : Nat) (t : Sender) (hc : Contiguous t)
    (hbase : a ≤ (t.slot t.window_start).seq_num) : process_ack a t = t := by
  by_cases hn : t.window_end - t.window_start = 0
  · exact process_ack_empty a t hn
  · obtain ⟨n, hn1⟩ : ∃ n, t.window_end - t.window_start = n + 1 :=
      ⟨t.window_end - t.window_start - 1, by omega⟩
    obtain ⟨hpos, hlt, _⟩ := hc t.window_start (le_refl _) (by omega)
    rw [process_ack_step a t n hn1, u32_add_of_lt _ _ hlt]
    have hnot : ¬ ((t.slot t.window_start).seq_num + (t.slot t.window_start).data_len ≤ a) := by
      omega
    simp only [hnot, if_false]

/-- C14: for every window of `send_file` whose in-flight records are
contiguous and ordered by sequence number with positive lengths and no 32-bit
wraparound, and every frame with the ACK flag, after the frame is processed
the in-flight records are exactly the previous ones with
`seq_num + data_len > ack_num`, in the same order (`window_end` and the array
are unchanged); an ACK with `ack_num` at most the `seq_num` of the oldest
record removes nothing. -/
theorem on_readable_in_flight (s : Sender) (rx : Received) (hrecv : 0 < rx.bytes_recv)
    (hflag : rx.header.flags &&& ACK_FLAG ≠ 0) (hc : Contiguous s) :
    (on_readable rx s).in_flight
        = s.in_flight.filter (fun e => decide (rx.header.ack_num < e.seq_num + e.data_len)) ∧
      (on_readable rx s).window_end = s.window_end ∧
      (on_readable rx s).window = s.window ∧
      (rx.header.ack_num ≤ (s.slot s.window_start).seq_num →
        (on_readable rx s).in_flight = s.in_flight ∧
        (on_readable rx s).window_start = s.window_start) := by
  rw [on_readable_of_ack rx s hrecv hflag]
  have hc1 : Contiguous { s with packet := rx.header } := hc
  obtain ⟨h1, h2, h3⟩ := process_ack_in_flight rx.header.ack_num _
    { s with packet := rx.header } rfl hc1
  refine ⟨h1, h2, h3, ?_⟩
  intro hbase
  rw [process_ack_below_base rx.header.ack_num { s with packet := rx.header } hc1 hbase]
  exact ⟨rfl, rfl⟩

/-! ### `send_file`: properties kept by every step -/

theorem fill_loop_kept (env : Env) (F : List Nat) (P : Sender → Prop) (hK : Kept env F P) :
    ∀ (n : Nat) (s : Sender), P s → n ≤ s.window_start + WINDOW_SIZE - s.window_end →
      P (fill_loop env F n s) := by
  intro n
  induction n with
  | zero => intro s hs _; exact hs
  | succ n ih =>
    intro s hs hn
    simp only [fill_loop]
    have h1 := hK.fill s hs (by omega)
    rcases fill_body_window env F s with ⟨h2, _, _⟩ | ⟨h2, hws, hwe⟩
    · simp only [h2, Bool.false_eq_true, if_false]
      exact h1
    · simp only [h2, if_true]
      exact ih _ h1 (by omega)

theorem ack_loop_kept (env : Env) (F : List Nat) (P : Sender → Prop) (hK : Kept env F P)
    (a : Nat) :
    ∀ (n : Nat) (s : Sender), P s → n ≤ s.window_end - s.window_start →
      P (ack_loop a n s) := by
  intro n
  induction n with
  | zero => intro s hs _; exact hs
  | succ n ih =>
    intro s hs hn
    simp only [ack_loop]
    have h1 := hK.ack a s hs (by omega)
    rcases ack_body_window a s with ⟨h2, _⟩ | ⟨h2, hws, hwe⟩
    · simp only [h2, Bool.false_eq_true, if_false]
      exact h1
    · simp only [h2, if_true]
      exact ih _ h1 (by omega)

theorem retransmit_loop_kept (env : Env) (F : List Nat) (P : Sender → Prop)
    (hK : Kept env F P) (now : timeval) :
    ∀ (n i : Nat) (s : Sender), P s → P (retransmit_loop env F now n i s) := by
  intro n
  induction n with
  | zero => intro i s hs; exact hs
  | succ n ih =>
    intro i s hs
    simp only [retransmit_loop]
    exact ih (i + 1) _ (hK.retransmit now s i hs)

theorem on_readable_kept (env : Env) (F : List Nat) (P : Sender → Prop) (hK : Kept env F P)
    (rx : Received) (s : Sender) (hs : P s) : P (on_readable rx s) := by
  unfold on_readable
  by_cases hb : 0 < rx.bytes_recv
  · simp only [hb, if_true, true_and]
    split_ifs
    · exact ack_loop_kept env F P hK _ _ _ (hK.packet s rx.header hs) (le_refl _)
    · exact hK.packet s rx.header hs
  · simp only [hb, if_false, false_and]
    exact hs

theorem on_timeout_kept (env : Env) (F : List Nat) (P : Sender → Prop) (hK : Kept env F P)
    (s : Sender) (hs : P s) : P (on_timeout env F s) := by
  unfold on_timeout
  exact retransmit_loop_kept env F P hK _ _ _ _ (hK.ticks s hs)

theorem send_step_kept (env : Env) (F : List Nat) (P : Sender → Prop) (hK : Kept env F P)
    (ev : Select) (s : Sender) (hs : P s) : P (send_step env F ev s) := by
  unfold send_step
  cases hst : s.stage with
  | transfer =>
    have h1 : P (match ev with
        | Select.readable rx => on_readable rx s
        | Select.timeout => on_timeout env F s
        | Select.failed => s) := by
      cases ev with
      | readable rx => exact on_readable_kept env F P hK rx s hs
      | timeout => exact on_timeout_kept env F P hK s hs
      | failed => exact hs
    dsimp only
    split_ifs
    · exact hK.fin _ h1
    · exact fill_loop_kept env F P hK _ _ h1 (le_refl _)
  | await_ack =>
    dsimp only
    have h1 := hK.stage _ (hK.packet s (ev.received s).header hs)
    have h2 := hK.stage s hs
    split_ifs
    · exact h1
    · exact h2
  | await_fin => exact hK.last _ s hs
  | returned => exact hs

theorem apply_kept (env : Env) (F : List Nat) (P : Sender → Prop) (hK : Kept env F P)
    (s : Sender) (op : SendOp) (hs : P s) : P (op.apply env F s) := by
  cases op with
  | fill_one =>
    simp only [SendOp.apply]
    split_ifs with hg
    · exact hK.fill s hs hg
    · exact hs
  | ack_one a =>
    simp only [SendOp.apply]
    split_ifs with hg
    · exact hK.ack a s hs hg
    · exact hs
  | retransmit now i => exact hK.retransmit now s i hs
  | fill => exact fill_loop_kept env F P hK _ _ hs (le_refl _)
  | ack a => exact ack_loop_kept env F P hK a _ _ hs (le_refl _)
  | readable rx => exact on_readable_kept env F P hK rx s hs
  | timeout => exact on_timeout_kept env F P hK s hs
  | step ev => exact send_step_kept env F P hK ev s hs

theorem send_run_kept (env : Env) (F : List Nat) (P : Sender → Prop) (hK : Kept env F P)
    (client_seq : Nat) (h0 : P (send_init client_seq)) (ops : List SendOp) :
    P (send_run env F client_seq ops) := by
  unfold send_run
  generalize send_init client_seq = s at h0
  induction ops generalizing s with
  | nil => exact h0
  | cons op rest ih =>
    simp only [List.foldl_cons]
    exact ih _ (apply_kept env F P hK s op h0)

theorem tracked_of_keys (F : List Nat) (base : Nat) (s t : Sender) (hs : Tracked F base s)
    (hl : t.window.length = s.window.length) (hws : t.window_start = s.window_start)
    (hwe : t.window_end = s.window_end) (hcs : t.client_seq = s.client_seq)
    (hfp : t.file_pos = s.file_pos)
    (hkey : ∀ j, (t.slot j).seq_num = (s.slot j).seq_num ∧
      (t.slot j).data_len = (s.slot j).data_len ∧
      (t.slot j).file_offset = (s.slot j).file_offset)
    (hsent : ∀ d ∈ s.sent, d ∈ t.sent) : Tracked F base t := by
  refine ⟨hl.trans hs.wlen, ?_, ?_, ?_, ?_⟩
  · have := hs.bound
    unfold WindowBound at this ⊢
    rw [hws, hwe]
    exact this
  · rw [hcs, hfp]
    exact hs.cursor
  · rw [hfp]
    exact hs.pos
  · intro i hi1 hi2
    rw [hws] at hi1
    rw [hwe] at hi2
    obtain ⟨e1, e2, e3, ⟨d, hd, e4, e5⟩, e6, e7⟩ := hs.entry i hi1 hi2
    obtain ⟨k1, k2, k3⟩ := hkey i
    obtain ⟨n1, n2, n3⟩ := hkey (i + 1)
    rw [k1, k2, k3, n3, hwe, hfp]
    exact ⟨e1, e2, e3, ⟨d, hsent d hd, e4, e5⟩, e6, e7⟩

theorem retransmit_one_keys (env : Env) (F : List Nat) (now : timeval) (s : Sender) (i j : Nat) :
    ((retransmit_one env F now s i).slot j).seq_num = (s.slot j).seq_num ∧
      ((retransmit_one env F now s i).slot j).data_len = (s.slot j).data_len ∧
      ((retransmit_one env F now s i).slot j).file_offset = (s.slot j).file_offset := by
  unfold retransmit_one
  dsimp only
  split_ifs
  · by_cases hij : i % WINDOW_SIZE = j % WINDOW_SIZE
    · by_cases hlen : i % WINDOW_SIZE < s.window.length
      · have : ({ s with
            packet := { s.packet with seq_num := (s.slot i).seq_num, ack_num := 0 }
            sent := s.sent ++ [{ header := { s.packet with seq_num := (s.slot i).seq_num,
                                                           ack_num := 0 },
                                 payload := (F.drop (s.slot i).file_offset).take (s.slot i).data_len }]
            window := s.window.set (i % WINDOW_SIZE)
              { s.slot i with sent_time := env.clock s.ticks, retransmitted := 1 }
            ticks := s.ticks + 1 } : Sender).slot j
            = { s.slot i with sent_time := env.clock s.ticks, retransmitted := 1 } := by
          show (s.window.set (i % WINDOW_SIZE) _).getD (j % WINDOW_SIZE) packet_info_zero = _
          rw [← hij]
          exact getD_set_self_of_lt _ _ _ _ hlen
        rw [this]
        have hsl : s.slot j = s.slot i := by
          unfold Sender.slot
          rw [hij]
        rw [hsl]
        exact ⟨rfl, rfl, rfl⟩
      · have : s.window.set (i % WINDOW_SIZE)
            { s.slot i with sent_time := env.clock s.ticks, retransmitted := 1 } = s.window :=
          List.set_eq_of_length_le (by omega)
        show ((s.window.set (i % WINDOW_SIZE) _).getD (j % WINDOW_SIZE) packet_info_zero).seq_num
            = _ ∧
          ((s.window.set (i % WINDOW_SIZE) _).getD (j % WINDOW_SIZE) packet_info_zero).data_len
            = _ ∧
          ((s.window.set (i % WINDOW_SIZE) _).getD (j % WINDOW_SIZE) packet_info_zero).file_offset
            = _
        rw [this]
        exact ⟨rfl, rfl, rfl⟩
    · show ((s.window.set (i % WINDOW_SIZE) _).getD (j % WINDOW_SIZE) packet_info_zero).seq_num
          = _ ∧
        ((s.window.set (i % WINDOW_SIZE) _).getD (j % WINDOW_SIZE) packet_info_zero).data_len
          = _ ∧
        ((s.window.set (i % WINDOW_SIZE) _).getD (j % WINDOW_SIZE) packet_info_zero).file_offset
          = _
      rw [getD_set_of_ne _ _ _ _ _ hij]
      exact ⟨rfl, rfl, rfl⟩
  · exact ⟨rfl, rfl, rfl⟩

theorem fill_body_fail (env : Env) (F : List Nat) (s : Sender)
    (hok : env.sendto_ok s.sent.length = false) (h : 0 < (next_chunk F s).length) :
    fill_body env F s =
      ({ s with
          bytes_read := ((next_chunk F s).length : Int)
          packet := (next_frame F s).header
          sent := s.sent ++ [next_frame F s]
          stage := Stage.returned
          ret := some (-1) }, false) := by
  unfold next_frame
  unfold next_chunk at h ⊢
  have h1 : ¬ (((List.take MAX_DATA_SIZE (List.drop s.file_pos F)).length : Int) ≤ 0) := by
    omega
  unfold fill_body
  simp only [h1, hok, if_false, Bool.not_false, if_true]

theorem retransmit_one_rest (env : Env) (F : List Nat) (now : timeval) (s : Sender) (i : Nat) :
    (retransmit_one env F now s i).window.length = s.window.length ∧
      (retransmit_one env F now s i).client_seq = s.client_seq ∧
      (retransmit_one env F now s i).file_pos = s.file_pos ∧
      (∀ d ∈ s.sent, d ∈ (retransmit_one env F now s i).sent) := by
  unfold retransmit_one
  dsimp only
  split_ifs
  · refine ⟨List.length_set _ _ _, rfl, rfl, ?_⟩
    intro d hd
    exact List.mem_append_left _ hd
  · exact ⟨rfl, rfl, rfl, fun d hd => hd⟩

theorem tracked_fill (env : Env) (F : List Nat) (base : Nat) (s : Sender)
    (hs : Tracked F base s) (hguard : s.window_end < s.window_start + WINDOW_SIZE) :
    Tracked F base (fill_body env F s).1 := by
  by_cases hz : (next_chunk F s).length = 0
  · rw [fill_body_eof env F s hz]
    exact tracked_of_keys F base s _ hs rfl rfl rfl rfl rfl (fun _ => ⟨rfl, rfl, rfl⟩)
      (fun d hd => hd)
  · have hchunk : 0 < (next_chunk F s).length := Nat.pos_of_ne_zero hz
    by_cases hok : env.sendto_ok s.sent.length = true
    · rw [fill_body_send env F s hok hchunk]
      have hcl := chunk_length_le F s.file_pos MAX_DATA_SIZE
      have hpos := hs.pos
      have hb := hs.bound
      have hwl := hs.wlen
      have hcur := hs.cursor
      unfold WindowBound at hb
      simp only [WINDOW_SIZE] at hguard hb hwl
      have hlen2 : s.file_pos + (next_chunk F s).length ≤ F.length := by
        have := hcl.2
        unfold next_chunk
        omega
      have hslot_old : ∀ j, j < s.window_end → s.window_end < j + 10 →
          (s.window.set (s.window_end % WINDOW_SIZE)
            { seq_num := s.client_seq, data_len := (next_chunk F s).length,
              file_offset := s.file_pos, sent_time := env.clock s.ticks,
              retransmitted := 0 }).getD (j % WINDOW_SIZE) packet_info_zero = s.slot j := by
        intro j hj1 hj2
        unfold Sender.slot
        apply getD_set_of_ne
        simp only [WINDOW_SIZE]
        omega
      have hslot_new :
          (s.window.set (s.window_end % WINDOW_SIZE)
            { seq_num := s.client_seq, data_len := (next_chunk F s).length,
              file_offset := s.file_pos, sent_time := env.clock s.ticks,
              retransmitted := 0 }).getD (s.window_end % WINDOW_SIZE) packet_info_zero
            = { seq_num := s.client_seq, data_len := (next_chunk F s).length,
                file_offset := s.file_pos, sent_time := env.clock s.ticks,
                retransmitted := 0 } := by
        apply getD_set_self_of_lt
        simp only [WINDOW_SIZE]
        omega
      refine ⟨?_, ?_, ?_, hlen2, ?_⟩
      · show (s.window.set _ _).length = WINDOW_SIZE
        rw [List.length_set]
        exact hs.wlen
      · show s.window_start ≤ s.window_end + 1 ∧ s.window_end + 1 ≤ s.window_start + WINDOW_SIZE
        simp only [WINDOW_SIZE]
        omega
      · show u32 ((s.client_seq : Int) + ((next_chunk F s).length : Int))
          = u32 ((base : Int) + ((s.file_pos + (next_chunk F s).length : Nat) : Int))
        rw [hcur]
        unfold u32
        omega
      · intro i (hi1 : s.window_start ≤ i) (hi2 : i < s.window_end + 1)
        simp only [Sender.slot]
        by_cases hlast : i = s.window_end
        · subst hlast
          rw [hslot_new]
          refine ⟨hchunk, rfl, hcur, ⟨next_frame F s, ?_, rfl, rfl⟩, ?_, ?_⟩
          · exact List.mem_append_right _ (List.mem_singleton.mpr rfl)
          · intro (h : s.window_end + 1 < s.window_end + 1)
            omega
          · intro _
            rfl
        · have hlt : i < s.window_end := by omega
          obtain ⟨e1, e2, e3, ⟨d, hd, e4, e5⟩, e6, e7⟩ := hs.entry i hi1 hlt
          rw [hslot_old i hlt (by omega)]
          refine ⟨e1, e2, e3, ⟨d, List.mem_append_left _ hd, e4, e5⟩, ?_, ?_⟩
          · intro _
            by_cases hn : i + 1 = s.window_end
            · rw [hn, hslot_new]
              exact e7 hn
            · rw [hslot_old (i + 1) (by omega) (by omega)]
              exact e6 (by omega)
          · intro (h : i + 1 = s.window_end + 1)
            omega
    · have hfail : env.sendto_ok s.sent.length = false := by
        cases h : env.sendto_ok s.sent.length
        · rfl
        · exact absurd h hok
      rw [fill_body_fail env F s hfail hchunk]
      exact tracked_of_keys F base s _ hs rfl rfl rfl rfl rfl (fun _ => ⟨rfl, rfl, rfl⟩)
        (fun d hd => List.mem_append_left _ hd)

theorem tracked_ack (F : List Nat) (base a : Nat) (s : Sender)
    (hs : Tracked F base s) (hne : s.window_start < s.window_end) :
    Tracked F base (ack_body a s).1 := by
  unfold ack_body
  split_ifs
  · have hb := hs.bound
    unfold WindowBound at hb
    refine ⟨hs.wlen, ?_, hs.cursor, hs.pos, ?_⟩
    · show s.window_start + 1 ≤ s.window_end ∧ s.window_end ≤ s.window_start + 1 + WINDOW_SIZE
      omega
    · intro i (hi1 : s.window_start + 1 ≤ i) (hi2 : i < s.window_end)
      exact hs.entry i (by omega) hi2
  · exact hs

theorem tracked_kept (env : Env) (F : List Nat) (base : Nat) :
    Kept env F (Tracked F base) where
  fill := fun s hs hg => tracked_fill env F base s hs hg
  ack := fun a s hs hne => tracked_ack F base a s hs hne
  retransmit := fun now s i hs => by
    obtain ⟨h1, h2, h3, h4⟩ := retransmit_one_rest env F now s i
    obtain ⟨w1, w2⟩ := retransmit_one_window env F now s i
    exact tracked_of_keys F base s _ hs h1 w1 w2 h2 h3
      (fun j => retransmit_one_keys env F now s i j) h4
  packet := fun s h hs =>
    tracked_of_keys F base s _ hs rfl rfl rfl rfl rfl (fun _ => ⟨rfl, rfl, rfl⟩) (fun d hd => hd)
  ticks := fun s hs =>
    tracked_of_keys F base s _ hs rfl rfl rfl rfl rfl (fun _ => ⟨rfl, rfl, rfl⟩) (fun d hd => hd)
  fin := fun s hs =>
    tracked_of_keys F base s _ hs rfl rfl rfl rfl rfl (fun _ => ⟨rfl, rfl, rfl⟩)
      (fun d hd => List.mem_append_left _ hd)
  last := fun rx s hs => by
    unfold send_last
    dsimp only
    split_ifs <;>
      exact tracked_of_keys F base s _ hs rfl rfl rfl rfl rfl (fun _ => ⟨rfl, rfl, rfl⟩)
        (fun d hd => by first | exact hd | exact List.mem_append_left _ hd)
  stage := fun s hs =>
    tracked_of_keys F base s _ hs rfl rfl rfl rfl rfl (fun _ => ⟨rfl, rfl, rfl⟩) (fun d hd => hd)

theorem send_run_tracked (env : Env) (F : List Nat) (base : Nat) (hbase : base < 4294967296)
    (ops : List SendOp) : Tracked F base (send_run env F base ops) := by
  apply send_run_kept env F (Tracked F base) (tracked_kept env F base)
  refine ⟨?_, ?_, ?_, Nat.zero_le _, ?_⟩
  · simp [send_init]
  · simp [WindowBound, send_init]
  · show base = u32 ((base : Int) + ((0 : Nat) : Int))
    unfold u32
    omega
  · intro i (hi1 : 0 ≤ i) (hi2 : i < 0)
    omega

theorem tracked_entry_fits (F : List Nat) (base : Nat) (s : Sender) (hs : Tracked F base s)
    (i : Nat) (hi1 : s.window_start ≤ i) (hi2 : i < s.window_end) :
    (s.slot i).file_offset + (s.slot i).data_len ≤ F.length := by
  obtain ⟨e1, e2, _⟩ := hs.entry i hi1 hi2
  have hcl := (chunk_length_le F (s.slot i).file_offset MAX_DATA_SIZE).2
  rw [← e2] at hcl
  omega

/-- C19: in every state that `send_file` reaches in its loop for a file with
`base + |F| < 2^32`, where `base = C0 + 1` is the cursor on entry, the in-flight
records are contiguous in sequence space: each has `data_len >= 1`, each next
record has `seq_num` equal to the previous `seq_num + data_len`, and the last
record's `seq_num + data_len` is the sender cursor `client_seq`. -/
theorem send_file_in_flight_contiguous (env : Env) (F : List Nat) (base : Nat)
    (ops : List SendOp) (hwrap : base + F.length < 4294967296) (i : Nat)
    (hi1 : (send_run env F base ops).window_start ≤ i)
    (hi2 : i < (send_run env F base ops).window_end) :
    1 ≤ ((send_run env F base ops).slot i).data_len ∧
      (i + 1 < (send_run env F base ops).window_end →
        ((send_run env F base ops).slot (i + 1)).seq_num
          = ((send_run env F base ops).slot i).seq_num
            + ((send_run env F base ops).slot i).data_len) ∧
      (i + 1 = (send_run env F base ops).window_end →
        ((send_run env F base ops).slot i).seq_num + ((send_run env F base ops).slot i).data_len
          = (send_run env F base ops).client_seq) := by
  have hT := send_run_tracked env F base (by omega) ops
  generalize send_run env F base ops = s at hT hi1 hi2 ⊢
  obtain ⟨e1, _, e3, _, e6, e7⟩ := hT.entry i hi1 hi2
  have hfit := tracked_entry_fits F base s hT i hi1 hi2
  have hseq : (s.slot i).seq_num = base + (s.slot i).file_offset := by
    rw [e3]
    unfold u32
    omega
  refine ⟨e1, ?_, ?_⟩
  · intro hn
    obtain ⟨_, _, n3, _⟩ := hT.entry (i + 1) (by omega) hn
    have hfit1 := tracked_entry_fits F base s hT (i + 1) (by omega) hn
    have h6 := e6 hn
    rw [n3, hseq, h6]
    unfold u32
    omega
  · intro hn
    have h7 := e7 hn
    have hp := hT.pos
    rw [hT.cursor, hseq, h7]
    unfold u32
    omega

theorem send_file_in_flight_contiguous_witness :
    1001 + [104, 101, 108, 108, 111, 10].length < 4294967296 ∧
      (send_run calm [104, 101, 108, 108, 111, 10] 1001 [SendOp.fill]).window_start ≤ 0 ∧
      0 < (send_run calm [104, 101, 108, 108, 111, 10] 1001 [SendOp.fill]).window_end ∧
      ((send_run calm [104, 101, 108, 108, 111, 10] 1001 [SendOp.fill]).slot 0).seq_num
          + ((send_run calm [104, 101, 108, 108, 111, 10] 1001 [SendOp.fill]).slot 0).data_len
        = (send_run calm [104, 101, 108, 108, 111, 10] 1001 [SendOp.fill]).client_seq :=
  ⟨by decide, by decide, by decide,
    (send_file_in_flight_contiguous calm [104, 101, 108, 108, 111, 10] 1001 [SendOp.fill]
      (by decide) 0 (by decide) (by decide)).2.2 (by decide)⟩

theorem fill_body_wlen (env : Env) (F : List Nat) (s : Sender) :
    (fill_body env F s).1.window.length = s.window.length := by
  unfold fill_body
  dsimp only
  split_ifs <;> simp

theorem shaped_kept (env : Env) (F : List Nat) : Kept env F Shaped where
  fill := fun s hs hg => by
    refine ⟨(fill_body_wlen env F s).trans hs.1, ?_⟩
    have hb := hs.2
    rcases fill_body_window env F s with ⟨_, hws, hwe⟩ | ⟨_, hws, hwe⟩ <;>
      (unfold WindowBound at hb ⊢; omega)
  ack := fun a s hs hne => by
    have hb := hs.2
    rcases ack_body_window a s with ⟨_, h1⟩ | ⟨_, hws, hwe⟩
    · rw [h1]
      exact hs
    · refine ⟨?_, ?_⟩
      · have : (ack_body a s).1.window = s.window := by
          unfold ack_body
          split_ifs <;> rfl
        rw [this]
        exact hs.1
      · unfold WindowBound at hb ⊢
        omega
  retransmit := fun now s i hs => by
    obtain ⟨h1, _⟩ := retransmit_one_rest env F now s i
    obtain ⟨w1, w2⟩ := retransmit_one_window env F now s i
    refine ⟨h1.trans hs.1, ?_⟩
    have hb := hs.2
    unfold WindowBound at hb ⊢
    rw [w1, w2]
    exact hb
  packet := fun _ _ hs => hs
  ticks := fun _ hs => hs
  fin := fun _ hs => hs
  last := fun rx s hs => by
    unfold send_last
    dsimp only
    split_ifs <;> exact hs
  stage := fun _ hs => hs

theorem send_run_shaped (env : Env) (F : List Nat) (base : Nat) (ops : List SendOp) :
    Shaped (send_run env F base ops) := by
  apply send_run_kept env F Shaped (shaped_kept env F)
  refine ⟨?_, ?_⟩
  · simp [send_init]
  · simp [WindowBound, send_init]

theorem retransmit_one_sent (env : Env) (F : List Nat) (now : timeval) (s : Sender) (i : Nat) :
    (retransmit_one env F now s i).sent
      = s.sent ++ (if timed_out now (s.slot i) then [retx_frame F s.packet (s.slot i)] else []) := by
  unfold retransmit_one timed_out retx_frame
  by_cases h : elapsed_ms now (s.slot i).sent_time > RTO_MS
  · simp [h]
  · simp [h]

theorem retransmit_one_frame (env : Env) (F : List Nat) (now : timeval) (s : Sender) (i : Nat)
    (e : packet_info) :
    retx_frame F (retransmit_one env F now s i).packet e = retx_frame F s.packet e := by
  unfold retransmit_one retx_frame
  dsimp only
  split_ifs <;> rfl

theorem retransmit_one_slot_ne (env : Env) (F : List Nat) (now : timeval) (s : Sender)
    (i j : Nat) (h : i % WINDOW_SIZE ≠ j % WINDOW_SIZE) :
    (retransmit_one env F now s i).slot j = s.slot j := by
  unfold retransmit_one
  dsimp only
  split_ifs
  · show (s.window.set (i % WINDOW_SIZE) _).getD (j % WINDOW_SIZE) packet_info_zero = _
    rw [getD_set_of_ne _ _ _ _ _ h]
    rfl
  · rfl

theorem retransmit_loop_sent (env : Env) (F : List Nat) (now : timeval) :
    ∀ (n i : Nat) (s : Sender), n ≤ WINDOW_SIZE →
      (retransmit_loop env F now n i s).sent
        = s.sent ++ (((List.range n).map (fun k => s.slot (i + k))).filter (timed_out now)).map
            (retx_frame F s.packet) := by
  intro n
  induction n with
  | zero =>
    intro i s _
    simp [retransmit_loop]
  | succ n ih =>
    intro i s hn
    simp only [retransmit_loop]
    rw [ih (i + 1) (retransmit_one env F now s i) (by omega), retransmit_one_sent]
    have hslots : (List.range n).map (fun k => (retransmit_one env F now s i).slot (i + 1 + k))
        = (List.range n).map (fun k => s.slot (i + (k + 1))) := by
      apply List.map_congr_left
      intro k hk
      have hk1 : k < n := List.mem_range.mp hk
      have h1 : i + 1 + k = i + (k + 1) := by omega
      rw [h1]
      apply retransmit_one_slot_ne
      simp only [WINDOW_SIZE] at hn ⊢
      omega
    have hframes : retx_frame F (retransmit_one env F now s i).packet = retx_frame F s.packet := by
      funext e
      exact retransmit_one_frame env F now s i e
    rw [hslots, hframes, List.range_succ_eq_map, List.map_cons, List.map_map, List.filter_cons]
    have hcomp : ((fun k => s.slot (i + k)) ∘ Nat.succ) = (fun k => s.slot (i + (k + 1))) := rfl
    rw [hcomp]
    by_cases ht : timed_out now (s.slot i) = true
    · simp [ht]
    · simp [ht]

theorem elapsed_ms_of_age (now sent_time : timeval) :
    (501000 ≤ age_us now sent_time → elapsed_ms now sent_time > RTO_MS) ∧
      (age_us now sent_time ≤ 500000 → ¬ elapsed_ms now sent_time > RTO_MS) := by
  unfold age_us elapsed_ms RTO_MS
  by_cases h : 0 ≤ now.tv_usec - sent_time.tv_usec
  · rw [Int.tdiv_eq_ediv h (by decide)]
    constructor <;> intro _ <;> omega
  · have h1 : now.tv_usec - sent_time.tv_usec = -(sent_time.tv_usec - now.tv_usec) := by omega
    rw [h1, Int.neg_tdiv, Int.tdiv_eq_ediv (by omega) (by decide)]
    constructor <;> intro _ <;> omega

/-- C17, counterexample: one record is in flight, sent at 0 s; `select` times
out and the clock shows 0.5005 s. The age of the record, 500500 microseconds,
exceeds 500 ms, but `elapsed_ms` is `500500 / 1000 = 500`, not more than
`RTO_MS`, and nothing is retransmitted. -/
theorem on_timeout_skips_half_millisecond :
    (send_run late_clock [104, 101, 108, 108, 111, 10] 1001 [SendOp.fill]).in_flight.length = 1 ∧
      age_us
          (late_clock.clock (send_run late_clock [104, 101, 108, 108, 111, 10] 1001 [SendOp.fill]).ticks)
          ((send_run late_clock [104, 101, 108, 108, 111, 10] 1001 [SendOp.fill]).slot 0).sent_time
        = 500500 ∧
      (on_timeout late_clock [104, 101, 108, 108, 111, 10]
          (send_run late_clock [104, 101, 108, 108, 111, 10] 1001 [SendOp.fill])).sent
        = (send_run late_clock [104, 101, 108, 108, 111, 10] 1001 [SendOp.fill]).sent := by
  decide

/-- C17, amended: on a `select` timeout in any state that `send_file` reaches
in its loop, the frames sent are the retransmissions of exactly the in-flight
records with `elapsed_ms > RTO_MS`, oldest first, where `elapsed_ms` is the
difference of the seconds times 1000 plus the difference of the microseconds
divided by 1000 (C division). So every record whose age is 501 ms or more is
retransmitted and no record whose age is 500 ms or less. -/
theorem on_timeout_retransmits (env : Env) (F : List Nat) (base : Nat) (ops : List SendOp)
    (s : Sender) (hs : s = send_run env F base ops) :
    (on_timeout env F s).sent
        = s.sent ++ (s.in_flight.filter (timed_out (env.clock s.ticks))).map
            (retx_frame F s.packet) ∧
      (∀ e : packet_info,
        timed_out (env.clock s.ticks) e = true ↔
          (env.clock s.ticks).tv_sec * 1000 - e.sent_time.tv_sec * 1000
            + Int.tdiv ((env.clock s.ticks).tv_usec - e.sent_time.tv_usec) 1000 > 500) ∧
      (∀ e : packet_info,
        (501000 ≤ age_us (env.clock s.ticks) e.sent_time →
          timed_out (env.clock s.ticks) e = true) ∧
        (age_us (env.clock s.ticks) e.sent_time ≤ 500000 →
          timed_out (env.clock s.ticks) e = false)) := by
  have hS : Shaped s := by
    rw [hs]
    exact send_run_shaped env F base ops
  have hb := hS.2
  unfold WindowBound at hb
  refine ⟨?_, ?_, ?_⟩
  · unfold on_timeout
    rw [retransmit_loop_sent env F (env.clock s.ticks) (s.window_end - s.window_start)
      s.window_start { s with ticks := s.ticks + 1 } (by omega)]
    rfl
  · intro e
    unfold timed_out elapsed_ms RTO_MS
    rw [decide_eq_true_eq]
    constructor <;> intro h <;> omega
  · intro e
    obtain ⟨h1, h2⟩ := elapsed_ms_of_age (env.clock s.ticks) e.sent_time
    unfold timed_out
    constructor
    · intro h
      exact decide_eq_true (h1 h)
    · intro h
      exact decide_eq_false (h2 h)

theorem on_timeout_retransmits_witness :
    ((on_timeout calm [104, 101, 108, 108, 111, 10]
        (send_run calm [104, 101, 108, 108, 111, 10] 1001 [SendOp.fill])).sent.map
        (fun d => d.header.seq_num)) = [1001] ∧
      timed_out { tv_sec := 0, tv_usec := 501000 }
        { seq_num := 1001, data_len := 6, file_offset := 0,
          sent_time := { tv_sec := 0, tv_usec := 0 }, retransmitted := 0 } = true := by
  have h := on_timeout_retransmits calm [104, 101, 108, 108, 111, 10] 1001 [SendOp.fill]
    (send_run calm [104, 101, 108, 108, 111, 10] 1001 [SendOp.fill]) rfl
  refine ⟨?_, by decide⟩
  rw [h.1]
  decide

theorem three_in_flight_contiguous : Contiguous three_in_flight := by
  intro i _ (hi2 : i < 3)
  interval_cases i <;> decide

theorem on_readable_in_flight_witness :
    ((on_readable (control_frame (data_ack 5000 1005)) three_in_flight).in_flight.map
        (fun e => (e.seq_num, e.data_len))) = [(1005, 4), (1009, 2)] ∧
      (on_readable (control_frame (data_ack 5000 1001)) three_in_flight).in_flight
        = three_in_flight.in_flight := by
  constructor
  · rw [(on_readable_in_flight three_in_flight (control_frame (data_ack 5000 1005)) (by decide)
      (by decide) three_in_flight_contiguous).1]
    decide
  · exact ((on_readable_in_flight three_in_flight (control_frame (data_ack 5000 1001))
      (by decide) (by decide) three_in_flight_contiguous).2.2.2 (by decide)).1

theorem on_readable_cumulative_witness :
    on_readable (control_frame (data_ack 5000 1009))
        (on_readable (control_frame (data_ack 5000 1005)) three_in_flight)
      = on_readable (control_frame (data_ack 5000 1009)) three_in_flight ∧
      (on_readable (control_frame (data_ack 5000 1009)) three_in_flight).window_start = 2 :=
  ⟨(on_readable_cumulative three_in_flight (control_frame (data_ack 5000 1005))
      (control_frame (data_ack 5000 1009)) (by decide) (by decide) (by decide) (by decide)
      (by decide)).1, by decide⟩

/-! ### `send_file`: the circular array -/

theorem fill_body_window_cases (env : Env) (F : List Nat) (s : Sender) :
    (fill_body env F s).1.window = s.window ∨
      ∃ e : packet_info, (fill_body env F s).1.window = s.window.set (s.window_end % WINDOW_SIZE) e ∧
        (fill_body env F s).2 = true ∧ e.seq_num = s.client_seq := by
  unfold fill_body
  dsimp only
  split_ifs
  · exact Or.inl rfl
  · exact Or.inl rfl
  · exact Or.inr ⟨_, rfl, rfl, rfl⟩

theorem fill_body_records_only_on_send (env : Env) (F : List Nat) (s : Sender)
    (h : (fill_body env F s).2 = true) :
    ∃ e : packet_info, (fill_body env F s).1.window = s.window.set (s.window_end % WINDOW_SIZE) e ∧
      e.seq_num = s.client_seq := by
  revert h
  unfold fill_body
  dsimp only
  split_ifs
  · intro h
    exact absurd h (by simp)
  · intro h
    exact absurd h (by simp)
  · intro _
    exact ⟨_, rfl, rfl⟩

/-- C21: in every state that `send_file` reaches in its loop, when the fill
loop runs a pass (its guard `window_end - window_start < WINDOW_SIZE` holds),
the index `window_end % 10` at which a new record is written differs from
`i % 10` for every in-flight index `window_start <= i < window_end`; the pass
leaves every in-flight record as it is, a pass that sends writes its record
(with `seq_num = client_seq`) at index `window_end`, and the array indices
used lie in `[0, 10)`, the length of the array. -/
theorem fill_body_keeps_in_flight (env : Env) (F : List Nat) (base : Nat) (ops : List SendOp)
    (s : Sender) (hs : s = send_run env F base ops)
    (hguard : s.window_end < s.window_start + WINDOW_SIZE) :
    (∀ i, s.window_start ≤ i → i < s.window_end →
        i % WINDOW_SIZE ≠ s.window_end % WINDOW_SIZE ∧
        (fill_body env F s).1.slot i = s.slot i ∧
        i % WINDOW_SIZE < s.window.length) ∧
      ((fill_body env F s).2 = true →
        ((fill_body env F s).1.slot s.window_end).seq_num = s.client_seq ∧
        (fill_body env F s).1.window_end = s.window_end + 1) ∧
      s.window_end % WINDOW_SIZE < s.window.length ∧
      s.window.length = 10 := by
  have hS : Shaped s := by
    rw [hs]
    exact send_run_shaped env F base ops
  obtain ⟨hwl, hb⟩ := hS
  unfold WindowBound at hb
  simp only [WINDOW_SIZE] at hwl hb hguard ⊢
  refine ⟨?_, ?_, by omega, hwl⟩
  · intro i hi1 hi2
    have hne : i % 10 ≠ s.window_end % 10 := by omega
    refine ⟨hne, ?_, by omega⟩
    rcases fill_body_window_cases env F s with h | ⟨e, h, _, _⟩
    · unfold Sender.slot
      rw [h]
    · unfold Sender.slot
      rw [h]
      simp only [WINDOW_SIZE]
      exact getD_set_of_ne _ _ _ _ _ (fun hc => hne hc.symm)
  · intro h2
    obtain ⟨e, hw, he⟩ := fill_body_records_only_on_send env F s h2
    constructor
    · unfold Sender.slot
      rw [hw]
      simp only [WINDOW_SIZE]
      rw [getD_set_self_of_lt _ _ _ _ (by omega)]
      exact he
    · rcases fill_body_window env F s with ⟨hf, _, _⟩ | ⟨_, _, hwe⟩
      · rw [hf] at h2
        exact absurd h2 (by simp)
      · exact hwe

theorem fill_body_keeps_in_flight_witness :
    (send_run calm [104, 101, 108, 108, 111, 10] 1001 [SendOp.fill]).window_end
        < (send_run calm [104, 101, 108, 108, 111, 10] 1001 [SendOp.fill]).window_start
          + WINDOW_SIZE ∧
      (send_run calm [104, 101, 108, 108, 111, 10] 1001 [SendOp.fill]).window_start ≤ 0 ∧
      0 < (send_run calm [104, 101, 108, 108, 111, 10] 1001 [SendOp.fill]).window_end ∧
      0 % WINDOW_SIZE
        ≠ (send_run calm [104, 101, 108, 108, 111, 10] 1001 [SendOp.fill]).window_end
          % WINDOW_SIZE ∧
      (fill_body calm [104, 101, 108, 108, 111, 10]
          (send_run calm [104, 101, 108, 108, 111, 10] 1001 [SendOp.fill])).1.slot 0
        = (send_run calm [104, 101, 108, 108, 111, 10] 1001 [SendOp.fill]).slot 0 :=
  ⟨by decide, by decide, by decide,
    ((fill_body_keeps_in_flight calm [104, 101, 108, 108, 111, 10] 1001 [SendOp.fill]
      (send_run calm [104, 101, 108, 108, 111, 10] 1001 [SendOp.fill]) rfl (by decide)).1 0
      (by decide) (by decide)).1,
    ((fill_body_keeps_in_flight calm [104, 101, 108, 108, 111, 10] 1001 [SendOp.fill]
      (send_run calm [104, 101, 108, 108, 111, 10] 1001 [SendOp.fill]) rfl (by decide)).1 0
      (by decide) (by decide)).2.1⟩

/-! ### A transfer over a channel with delay -/

theorem move_after_return (env : Env) (F : List Nat) (server_seq : Nat) (t : Transfer)
    (m : Move) (h1 : t.snd.stage = Stage.returned) (h2 : t.delivered = t.snd.sent.length) :
    (t.move env F server_seq m).snd = t.snd ∧ (t.move env F server_seq m).rcv = t.rcv ∧
      (t.move env F server_seq m).delivered = t.delivered := by
  cases m with
  | deliver =>
    simp [Transfer.move, h2]
  | read =>
    simp only [Transfer.move]
    split
    · exact ⟨rfl, rfl, rfl⟩
    · simp [send_step, h1]
  | timeout =>
    simp [Transfer.move, send_step, h1]

theorem moves_after_return (env : Env) (F : List Nat) (server_seq : Nat) :
    ∀ (more : List Move) (t : Transfer), t.snd.stage = Stage.returned →
      t.delivered = t.snd.sent.length →
      (more.foldl (Transfer.move env F server_seq) t).snd = t.snd ∧
        (more.foldl (Transfer.move env F server_seq) t).rcv = t.rcv := by
  intro more
  induction more with
  | nil => intro t _ _; exact ⟨rfl, rfl⟩
  | cons m rest ih =>
    intro t h1 h2
    obtain ⟨m1, m2, m3⟩ := move_after_return env F server_seq t m h1 h2
    simp only [List.foldl_cons]
    obtain ⟨i1, i2⟩ := ih (t.move env F server_seq m) (by rw [m1]; exact h1)
      (by rw [m3, m1]; exact h2)
    exact ⟨i1.trans m1, i2.trans m2⟩

/-- C2, the code at the failing input: the six bytes of "hello\n" over a
channel without loss or reordering on which the first ACK takes longer than
the retransmission timeout. `send_file` retransmits the data frame, the
listener acknowledges both copies (ACK 1007 twice), `send_file` sends its FIN
after the first ACK, takes the second ACK for the answer to the FIN and the
answer to the FIN (ACK 1008) for the peer's FIN, and returns 0 without the
last ACK. All three frames of the opener are delivered and the six bytes were
handed to `fwrite`, but `receive_file` waits in its last `recvfrom` and,
whatever moves follow, never returns. -/
theorem transfer_delayed_ack_never_returns :
    (transfer_run second_later [104, 101, 108, 108, 111, 10] 0 5000
        [Move.timeout, Move.deliver, Move.deliver, Move.read, Move.read, Move.deliver,
          Move.read]).snd.sent.map
        (fun d => (d.header.seq_num, d.header.flags, d.payload.length))
      = [(1001, 0, 6), (1001, 0, 6), (1007, 4, 0)] ∧
      (transfer_run second_later [104, 101, 108, 108, 111, 10] 0 5000
        [Move.timeout, Move.deliver, Move.deliver, Move.read, Move.read, Move.deliver,
          Move.read]).rcv.sent.map (fun h => (h.ack_num, h.flags))
      = [(1007, 2), (1007, 2), (1008, 2), (1008, 4)] ∧
      (transfer_run second_later [104, 101, 108, 108, 111, 10] 0 5000
        [Move.timeout, Move.deliver, Move.deliver, Move.read, Move.read, Move.deliver,
          Move.read]).delivered = 3 ∧
      (transfer_run second_later [104, 101, 108, 108, 111, 10] 0 5000
        [Move.timeout, Move.deliver, Move.deliver, Move.read, Move.read, Move.deliver,
          Move.read]).rcv.sink = [104, 101, 108, 108, 111, 10] ∧
      (transfer_run second_later [104, 101, 108, 108, 111, 10] 0 5000
        [Move.timeout, Move.deliver, Move.deliver, Move.read, Move.read, Move.deliver,
          Move.read]).rcv.fin_wait = true ∧
      ∀ more : List Move,
        (transfer_run second_later [104, 101, 108, 108, 111, 10] 0 5000
          ([Move.timeout, Move.deliver, Move.deliver, Move.read, Move.read, Move.deliver,
            Move.read] ++ more)).snd.ret = some 0 ∧
        (transfer_run second_later [104, 101, 108, 108, 111, 10] 0 5000
          ([Move.timeout, Move.deliver, Move.deliver, Move.read, Move.read, Move.deliver,
            Move.read] ++ more)).rcv.ret = none := by
  refine ⟨by decide, by decide, by decide, by decide, by decide, ?_⟩
  intro more
  unfold transfer_run
  rw [List.foldl_append]
  obtain ⟨h1, h2⟩ := moves_after_return second_later [104, 101, 108, 108, 111, 10] 5000 more
    (transfer_run second_later [104, 101, 108, 108, 111, 10] 0 5000
      [Move.timeout, Move.deliver, Move.deliver, Move.read, Move.read, Move.deliver, Move.read])
    (by decide) (by decide)
  unfold transfer_run at h1 h2
  rw [h1, h2]
  exact ⟨by decide, by decide⟩

end Sham
